import Mathlib

/-!
# Gofency: the captcha challenge lifecycle

A shallow embedding of the verification registry (`internal/fsm/captcha.go`), of the
join / answer / timeout handlers (`internal/telegrambot/handlers/captcha.go`,
`captcha_callback.go`), of the default handler of `internal/telegrambot/bot.go`, of the
challenge generator (`internal/captcha/service.go`) and of the tool
`cmd/generate-captchas`.

Conventions of the embedding.

* Go `int64` / `int` identifiers (chat, user, message) are `Int`; no arithmetic is done on them.
* A `time.Time` is an instant on one time line, counted in nanoseconds.
* A Go `string` is a Lean `String`; `==` on strings is equality.
* Pointers that the handlers dereference without a nil check (`update.Message.From`, the
  `*CaptchaData` stored in the map) are taken non-nil.
* Handlers are state-passing functions on a `World`; everything they ask of the outside
  (the clock, the challenge generator, the transport) is answered by an `Env`.
-/

namespace time

/-- An instant, as nanoseconds on the clock's time line (`time.Time`). -/
structure Time where
  nsec : Int
deriving DecidableEq, Repr

/-- A `time.Duration`: a number of nanoseconds. -/
abbrev Duration := Int

/-- The constant `time.Second`. -/
def Second : Duration := 1000000000

/-- The constant `time.Minute`. -/
def Minute : Duration := 60 * Second

/-- The method `t.Add(d)`. -/
def Time.Add (t : Time) (d : Duration) : Time := ⟨t.nsec + d⟩

/-- The method `t.After(u)`: whether `t` is strictly later than `u`. -/
def Time.After (t u : Time) : Bool := decide (u.nsec < t.nsec)

/-- The method `t.Unix()`: whole seconds since the epoch. -/
def Time.Unix (t : Time) : Int := t.nsec / 1000000000

end time

namespace fsm

open time

/-- The record `CaptchaData`: the verification data held for one user. -/
structure CaptchaData where
  ChatID : Int
  UserID : Int
  Answer : String
  ExpiresAt : Time
  PhotoMessageID : Int
deriving DecidableEq, Repr

/-- The registry `CaptchaFSM`: the map `states`, keyed by user identifier. The mutex only
serialises the operations and is not represented. -/
structure CaptchaFSM where
  states : Int → Option CaptchaData

/-- The constructor `NewCaptchaFSM`: an empty map. -/
def NewCaptchaFSM : CaptchaFSM := ⟨fun _ => none⟩

/-- The method `SetState`: `f.states[userID] = data`. -/
def CaptchaFSM.SetState (f : CaptchaFSM) (userID : Int) (data : CaptchaData) : CaptchaFSM :=
  ⟨fun k => if k = userID then some data else f.states k⟩

/-- The method `GetState`: `data, ok := f.states[userID]`; `none` is `ok = false`. -/
def CaptchaFSM.GetState (f : CaptchaFSM) (userID : Int) : Option CaptchaData :=
  f.states userID

/-- The method `DeleteState`: `delete(f.states, userID)`. -/
def CaptchaFSM.DeleteState (f : CaptchaFSM) (userID : Int) : CaptchaFSM :=
  ⟨fun k => if k = userID then none else f.states k⟩

/-- The method `IsExpired`, with the reading `now` of `time.Now()` made explicit. -/
def CaptchaFSM.IsExpired (f : CaptchaFSM) (now : Time) (userID : Int) : Bool :=
  match f.states userID with
  | none => true
  | some data => now.After data.ExpiresAt

/-- The method `CleanupExpired`, with the reading `now` of `time.Now()` made explicit: every
entry whose expiry `now` is after is deleted. -/
def CaptchaFSM.CleanupExpired (f : CaptchaFSM) (now : Time) : CaptchaFSM :=
  ⟨fun k =>
    match f.states k with
    | none => none
    | some data => if now.After data.ExpiresAt then none else some data⟩

end fsm

namespace localization

/-- The interface `Localizer`: `Localize(config)` for a message identifier and its template
data, returning the text or an error. A nil `TemplateData` is the empty list. -/
abbrev Localizer := String → List (String × String) → Except String String

end localization

/-- The values of a `context.Context` that the handlers read: the localizer stored by
`localization.WithLocalizer` (if any) and whether `fsm.WithCaptchaFSM` stored the registry. -/
structure Context where
  localizer : Option localization.Localizer
  captchaFSM : Bool

/-- The context `context.Background()`: no value stored. -/
def Context.Background : Context := ⟨none, false⟩

namespace localization

/-- The function `GetText`: the localized text, or `textID` itself when the context has no
localizer or localizing fails. -/
def GetText (ctx : Context) (textID : String) (templateData : List (String × String)) : String :=
  match ctx.localizer with
  | none => textID
  | some localizer =>
    match localizer textID templateData with
    | .error _ => textID
    | .ok message => message

/-- The function `GetSimpleText`. -/
def GetSimpleText (ctx : Context) (messageID : String) : String :=
  GetText ctx messageID []

end localization

namespace tgmodels

/-- The fields of `models.User` that the handlers read. -/
structure User where
  ID : Int
  IsBot : Bool
  FirstName : String
  LastName : String
  Username : String
deriving DecidableEq, Repr

/-- The fields of `models.Message` that the handlers read. `NewChatMembers` is `none` for a
nil slice. -/
structure Message where
  ID : Int
  From : User
  ChatID : Int
  Text : String
  NewChatMembers : Option (List User)
deriving DecidableEq, Repr

/-- The type `models.Update`; `Message` is `none` for a nil pointer. -/
structure Update where
  Message : Option Message
deriving DecidableEq, Repr

/-- The constant `models.ParseModeMarkdownV1` of the transport library. -/
def ParseModeMarkdownV1 : String := "Markdown"

end tgmodels

namespace bot

/-- The parameters `bot.SendPhotoParams` as the handlers fill them. -/
structure SendPhotoParams where
  ChatID : Int
  Photo : List Nat
  Caption : String
  ParseMode : String
deriving DecidableEq, Repr

/-- The parameters `bot.SendMessageParams` as the handlers fill them. -/
structure SendMessageParams where
  ChatID : Int
  Text : String
  ParseMode : String
deriving DecidableEq, Repr

/-- The parameters `bot.DeleteMessageParams`. -/
structure DeleteMessageParams where
  ChatID : Int
  MessageID : Int
deriving DecidableEq, Repr

/-- The parameters `bot.BanChatMemberParams`. -/
structure BanChatMemberParams where
  ChatID : Int
  UserID : Int
  UntilDate : Int
  RevokeMessages : Bool
deriving DecidableEq, Repr

/-- A request to the transport. -/
inductive Call where
  | SendPhoto (p : SendPhotoParams)
  | SendMessage (p : SendMessageParams)
  | DeleteMessage (p : DeleteMessageParams)
  | BanChatMember (p : BanChatMemberParams)
deriving DecidableEq, Repr

end bot

namespace captcha

/-- The result type `captcha.Captcha`: the PNG bytes and the answer. -/
structure Captcha where
  Image : List Nat
  Answer : String
deriving DecidableEq, Repr

end captcha

open time fsm tgmodels

/-- A goroutine started with `go`. -/
inductive Goroutine where
  /-- The closure `go func() { time.Sleep(d); b.DeleteMessage(context.Background(), p) }()`. -/
  | deleteAfter (d : Duration) (p : bot.DeleteMessageParams)
  /-- The call `go scheduleTimeoutCheck(b, chatID, userID, username, photoMsgID, captchaFSM)`. -/
  | scheduleTimeoutCheck (chatID userID : Int) (username : String) (photoMsgID : Int)
deriving DecidableEq, Repr

/-- What a handler does to the outside, in program order: transport requests, registry
writes, goroutine starts and sleeps. -/
inductive Event where
  | call (c : bot.Call)
  | setState (userID : Int) (data : CaptchaData)
  | deleteState (userID : Int)
  | go (t : Goroutine)
  | sleep (d : Duration)
deriving DecidableEq, Repr

/-- The transport requests of a trace, in order. -/
def requests (tr : List Event) : List bot.Call :=
  tr.filterMap fun e => match e with
    | .call c => some c
    | _ => none

/-- The answers of the outside world. Each consultation (a clock reading, a generation, a
transport request) takes one tick, and the answer may depend on the tick at which it is
asked and on the request. A send answers with the identifier of the message, or an error. -/
structure Env where
  Now : Nat → Time
  Generate : Nat → Except String captcha.Captcha
  SendPhoto : Nat → bot.SendPhotoParams → Except String Int
  SendMessage : Nat → bot.SendMessageParams → Except String Int
  DeleteMessage : Nat → bot.DeleteMessageParams → Except String Bool
  BanChatMember : Nat → bot.BanChatMemberParams → Except String Bool

/-- The state a handler runs in: the registry, the trace of what was done so far and the
number of consultations of the environment so far. -/
structure World where
  fsm : CaptchaFSM
  trace : List Event
  tick : Nat

namespace World

/-- Append an event to the trace. -/
def emit (w : World) (e : Event) : World := { w with trace := w.trace ++ [e] }

/-- The call `time.Now()`. -/
def now (env : Env) (w : World) : Time × World :=
  (env.Now w.tick, { w with tick := w.tick + 1 })

/-- The call `captchaService.Generate()`. -/
def generate (env : Env) (w : World) : Except String captcha.Captcha × World :=
  (env.Generate w.tick, { w with tick := w.tick + 1 })

/-- The call `b.SendPhoto(ctx, p)`. -/
def sendPhoto (env : Env) (p : bot.SendPhotoParams) (w : World) : Except String Int × World :=
  (env.SendPhoto w.tick p, { w with trace := w.trace ++ [.call (.SendPhoto p)], tick := w.tick + 1 })

/-- The call `b.SendMessage(ctx, p)`. -/
def sendMessage (env : Env) (p : bot.SendMessageParams) (w : World) : Except String Int × World :=
  (env.SendMessage w.tick p, { w with trace := w.trace ++ [.call (.SendMessage p)], tick := w.tick + 1 })

/-- The call `b.DeleteMessage(ctx, p)`. -/
def deleteMessage (env : Env) (p : bot.DeleteMessageParams) (w : World) : Except String Bool × World :=
  (env.DeleteMessage w.tick p, { w with trace := w.trace ++ [.call (.DeleteMessage p)], tick := w.tick + 1 })

/-- The call `b.BanChatMember(ctx, p)`. -/
def banChatMember (env : Env) (p : bot.BanChatMemberParams) (w : World) : Except String Bool × World :=
  (env.BanChatMember w.tick p, { w with trace := w.trace ++ [.call (.BanChatMember p)], tick := w.tick + 1 })

/-- The call `captchaFSM.SetState(userID, data)`. -/
def setState (userID : Int) (data : CaptchaData) (w : World) : World :=
  { w with fsm := w.fsm.SetState userID data, trace := w.trace ++ [.setState userID data] }

/-- The call `captchaFSM.DeleteState(userID)`. -/
def deleteState (userID : Int) (w : World) : World :=
  { w with fsm := w.fsm.DeleteState userID, trace := w.trace ++ [.deleteState userID] }

/-- The call `captchaFSM.IsExpired(userID)`; the clock is read only when a record is found. -/
def isExpired (env : Env) (userID : Int) (w : World) : Bool × World :=
  match w.fsm.states userID with
  | none => (true, w)
  | some data => ((env.Now w.tick).After data.ExpiresAt, { w with tick := w.tick + 1 })

end World

namespace handlers

open localization

/-- The library function `strings.ReplaceAll(s, old, new)` for a one-character `old`: every
occurrence of `old` is replaced by `new`, left to right. -/
def ReplaceAll (s : String) (old : Char) (new : String) : String :=
  ⟨s.data.flatMap fun c => if c = old then new.data else [c]⟩

/-- The function `EscapeMarkdown`: one `strings.ReplaceAll` per character of `specialChars`,
each applied to the result of the previous one. -/
def EscapeMarkdown (text : String) : String :=
  let specialChars := "_*[]()~`>#+-=|\x7b\x7d.!"
  specialChars.data.foldl
    (fun text char => ReplaceAll text char ("\\" ++ String.singleton char)) text

/-- The function `GenerateMention`. -/
def GenerateMention (user : User) : String :=
  if user.FirstName ≠ "" ∧ user.LastName ≠ "" then
    "[" ++ EscapeMarkdown user.FirstName ++ " " ++ EscapeMarkdown user.LastName
      ++ "](tg://user?id=" ++ toString user.ID ++ ")"
  else if user.FirstName ≠ "" then
    "[" ++ EscapeMarkdown user.FirstName ++ "](tg://user?id=" ++ toString user.ID ++ ")"
  else if user.Username ≠ "" then
    "[@" ++ EscapeMarkdown user.FirstName ++ "](tg://user?id=" ++ toString user.ID ++ ")"
  else
    "[User](tg://user?id=" ++ toString user.ID ++ ")"

/-- The body of a goroutine `go func() { time.Sleep(d); b.DeleteMessage(..., p) }()`, run in
the world `w` in which it is scheduled. -/
def deleteAfter (env : Env) (d : Duration) (p : bot.DeleteMessageParams) (w : World) : World :=
  (World.deleteMessage env p (w.emit (.sleep d))).2

/-- The function `HandleCaptchaTextAnswer`. -/
def HandleCaptchaTextAnswer (env : Env) (ctx : Context) (update : Update) (w : World) : World :=
  match update.Message with
  | none => w
  | some msg =>
    if msg.Text = "" then w else
    let userID := msg.From.ID
    let chatID := msg.ChatID
    let answer := msg.Text
    -- Get FSM from context
    if !ctx.captchaFSM then w else
    -- Check if user has a pending captcha
    match w.fsm.GetState userID with
    | none => w
    | some data =>
      -- Check if expired
      let (expired, w) := World.isExpired env userID w
      if expired then w else
      -- Delete the user's answer message
      let (_, w) := World.deleteMessage env ⟨chatID, msg.ID⟩ w
      -- Validate answer
      if answer = data.Answer then
        -- Correct answer - delete state
        let w := World.deleteState userID w
        -- Delete captcha messages
        let (_, w) := World.deleteMessage env ⟨chatID, data.PhotoMessageID⟩ w
        -- Send success message
        let successText := GetText ctx "captcha_success" [("Username", GenerateMention msg.From)]
        match World.sendMessage env ⟨chatID, successText, ParseModeMarkdownV1⟩ w with
        | (.error _, w) => w
        | (.ok msgID, w) =>
          -- Delete success message after 10 seconds
          w.emit (.go (.deleteAfter (10 * Second) ⟨chatID, msgID⟩))
      else
        -- Wrong answer - delete state
        let w := World.deleteState userID w
        -- Kick user
        let (now, w) := World.now env w
        let (_, w) := World.banChatMember env
          ⟨chatID, userID, (now.Add (10 * Minute)).Unix, false⟩ w
        -- Delete captcha messages
        let (_, w) := World.deleteMessage env ⟨chatID, data.PhotoMessageID⟩ w
        -- Send failure message
        let failedText := GetSimpleText ctx "captcha_failed"
        match World.sendMessage env ⟨chatID, failedText, ""⟩ w with
        | (.error _, w) => w
        | (.ok msgID, w) =>
          -- Delete failure message after 10 seconds
          w.emit (.go (.deleteAfter (10 * Second) ⟨chatID, msgID⟩))

/-- The function `scheduleTimeoutCheck` from the moment it wakes from its initial
`time.Sleep(30 * time.Second)`; `w` is the world at that moment. -/
def scheduleTimeoutCheck (env : Env) (chatID userID : Int) (username : String)
    (photoMsgID : Int) (w : World) : World :=
  -- Check if state still exists
  match w.fsm.GetState userID with
  | none => w
  | some _ =>
    -- Check if expired
    let (expired, w) := World.isExpired env userID w
    if !expired then w else
    -- Delete state
    let w := World.deleteState userID w
    -- Kick and ban user
    let (now, w) := World.now env w
    match World.banChatMember env ⟨chatID, userID, (now.Add (10 * Minute)).Unix, false⟩ w with
    | (.error _, w) => w
    | (.ok _, w) =>
      -- Delete captcha messages
      let (_, w) := World.deleteMessage env ⟨chatID, photoMsgID⟩ w
      -- Send timeout message
      let timeoutText := "‚è± Verification timeout. " ++ username
        ++ " has been removed from the chat and banned for 10 minutes."
      match World.sendMessage env ⟨chatID, timeoutText, ParseModeMarkdownV1⟩ w with
      | (.error _, w) => w
      | (.ok msgID, w) =>
        -- Delete timeout message after 10 seconds
        (World.deleteMessage env ⟨chatID, msgID⟩ (w.emit (.sleep (10 * Second)))).2

/-- The body of the loop of `HandleNewChatMember` for one new member; every `continue`
returns the world reached so far. -/
def HandleNewChatMember.body (env : Env) (ctx : Context) (msg : Message) (chatID : Int)
    (newMember : User) (w : World) : World :=
  if newMember.IsBot then w else
  -- Generate captcha
  match World.generate env w with
  | (.error _, w) => w
  | (.ok captchaImg, w) =>
    let username := GenerateMention msg.From
    -- Send welcome message with captcha
    let welcomeText := GetText ctx "captcha_welcome" [("Username", username)]
    let welcomeText := welcomeText ++ ("\n\n" ++ GetText ctx "captcha_prompt" [])
    -- Send captcha image
    match World.sendPhoto env ⟨chatID, captchaImg.Image, welcomeText, ParseModeMarkdownV1⟩ w with
    | (.error _, w) => w
    | (.ok photoMsgID, w) =>
      -- Get FSM from context
      if !ctx.captchaFSM then w else
      -- Save state in FSM
      let (now, w) := World.now env w
      let w := World.setState newMember.ID
        ⟨chatID, newMember.ID, captchaImg.Answer, now.Add (30 * Second), photoMsgID⟩ w
      -- Schedule timeout check
      w.emit (.go (.scheduleTimeoutCheck chatID newMember.ID username photoMsgID))

/-- The handler returned by `HandleNewChatMember(captchaService)`. -/
def HandleNewChatMember (env : Env) (ctx : Context) (update : Update) (w : World) : World :=
  match update.Message with
  | none => w
  | some msg =>
    let members := msg.NewChatMembers.getD []
    if members.length = 0 then w else
    let chatID := msg.ChatID
    members.foldl (fun w newMember => HandleNewChatMember.body env ctx msg chatID newMember w) w

end handlers

namespace telegrambot

/-- A handler of the bot, `bot.HandlerFunc`. -/
abbrev HandlerFunc := Context → Update → World → World

/-- The middleware `userRepositoryMiddleware` of `NewBot`; the repository it stores in the
context is read by no captcha handler. -/
def userRepositoryMiddleware (next : HandlerFunc) : HandlerFunc :=
  fun ctx update w => next ctx update w

/-- The middleware `captchaFSMMiddleware` of `NewBot`: stores the registry in the context. -/
def captchaFSMMiddleware (next : HandlerFunc) : HandlerFunc :=
  fun ctx update w => next { ctx with captchaFSM := true } update w

/-- The middleware `Localization.Handler`: stores the localizer resolved for the update.
Resolving it consults the user repository and the language service, which are outside the
embedding; `resolve` stands for their answer. -/
def localizationMiddleware (resolve : Update → Option localization.Localizer)
    (next : HandlerFunc) : HandlerFunc :=
  fun ctx update w => next { ctx with localizer := resolve update } update w

/-- The middleware `LogMessageWithText`: it only logs. -/
def LogMessageWithText (next : HandlerFunc) : HandlerFunc :=
  fun ctx update w => next ctx update w

/-- The default handler installed by `NewBot`. -/
def defaultHandler (env : Env) : HandlerFunc :=
  fun ctx update w =>
    match update.Message with
    | none => w
    | some msg =>
      if msg.NewChatMembers.isSome then
        handlers.HandleNewChatMember env ctx update w
      -- Skip if it is a command (starts with /)
      else if msg.Text ≠ "" ∧ msg.Text.length > 0 ∧ msg.Text.data.head? ≠ some '/' then
        handlers.HandleCaptchaTextAnswer env ctx update w
      else w

/-- What the bot built by `NewBot` does with an update: the default handler (the only
handler registered) behind the four middlewares. -/
def dispatch (env : Env) (resolve : Update → Option localization.Localizer) : Update → World → World :=
  userRepositoryMiddleware
    (captchaFSMMiddleware
      (localizationMiddleware resolve
        (LogMessageWithText (defaultHandler env)))) Context.Background

end telegrambot

/-- What a started goroutine does once it runs, in the world `w` in which it runs. For
`scheduleTimeoutCheck` this is the world in which it wakes from its initial sleep. -/
def Goroutine.run (env : Env) : Goroutine → World → World
  | .deleteAfter d p, w => handlers.deleteAfter env d p w
  | .scheduleTimeoutCheck chatID userID username photoMsgID, w =>
    handlers.scheduleTimeoutCheck env chatID userID username photoMsgID w

/-! ## The challenge generator (`internal/captcha/service.go`)

The random source, the PNG encoder and the file system are outside the repository. A call
`rand.Int(rand.Reader, max)` is answered by a `RandSource`; `png.Encode`, `os.Stat`,
`filepath.Glob` and the other library calls are answered by a `Sys`. In `drawLine` the
coordinates are Go `int`s of 64 bits, whose sums and differences wrap around (`int.wrap`),
and `dx`, `dy`, `err` and `e2` are `float64` values that hold integers: each is the integer
it holds, and every operation that makes one gives the nearest `float64` of the exact result
(`float64.round`), again an integer. A loop that the source writes as `for { ... }` takes a
fuel and gives nothing when the fuel runs out. -/

namespace int

/-- The Go `int` (64 bits, two's complement) left by an addition or a subtraction of two
`int`s whose exact result is `v`. -/
def wrap (v : Int) : Int := (v + 2 ^ 63) % 2 ^ 64 - 2 ^ 63

end int

namespace float64

/-- The `float64` nearest to the integer `v`, ties going to the even significand: the value
of `float64(v)` for an `int` and of a sum, difference or product of integer-valued `float64`s
whose exact result is `v`. An integer of magnitude up to 2^53 is kept; a larger one keeps
its 53 leading bits, rounded. -/
def round (v : Int) : Int :=
  if v.natAbs ≤ 2 ^ 53 then v
  else
    let e := Nat.log2 v.natAbs - 52
    let q := v.natAbs / 2 ^ e
    let r := v.natAbs % 2 ^ e
    let q' := if 2 * r > 2 ^ e ∨ (2 * r = 2 ^ e ∧ q % 2 = 1) then q + 1 else q
    v.sign * ((q' * 2 ^ e : Nat) : Int)

end float64

namespace color

/-- The colour type `color.RGBA`. -/
structure RGBA where
  R : Nat
  G : Nat
  B : Nat
  A : Nat
deriving DecidableEq, Repr

end color

namespace captcha

/-- The constant `captchaWidth`. -/
def captchaWidth : Int := 200

/-- The constant `captchaHeight`. -/
def captchaHeight : Int := 80

/-- The constant `digitCount`. -/
def digitCount : Nat := 4

/-- The constant `noiseLinesCount`. -/
def noiseLinesCount : Nat := 10

/-- The constant `noiseDotsCount`. -/
def noiseDotsCount : Nat := 100

end captcha

namespace image

/-- An `*image.RGBA` with bounds `image.Rect(0, 0, captchaWidth, captchaHeight)`: the colour
of each pixel. -/
structure RGBA where
  At : Int → Int → color.RGBA

/-- The image after `draw.Draw(img, img.Bounds(), &image.Uniform{c}, image.Point{}, draw.Src)`
on a new image: every pixel has colour `c`. -/
def Uniform (c : color.RGBA) : RGBA := ⟨fun _ _ => c⟩

/-- The method `img.Set(x, y, c)`: a point outside the bounds is ignored. -/
def RGBA.Set (img : RGBA) (x y : Int) (c : color.RGBA) : RGBA :=
  if 0 ≤ x ∧ x < captcha.captchaWidth ∧ 0 ≤ y ∧ y < captcha.captchaHeight then
    ⟨fun a b => if a = x ∧ b = y then c else img.At a b⟩
  else img

end image

namespace captcha

/-- How a call ends: with a value, with a returned error, with a run-time panic, or (in the
embedding only) with the fuel of a loop used up. -/
inductive Result (α : Type) where
  | ok (a : α)
  | error (err : String)
  | panic (msg : String)
  | outOfFuel
deriving DecidableEq, Repr

/-- The answers of `rand.Reader`: the `i`-th call of `rand.Int` made by one call of
`Generate` or `LoadFromAssets` fails with an error or draws a number. -/
abbrev RandSource := Nat → Except String Nat

/-- The call `rand.Int(rand.Reader, big.NewInt(max))`, the `i`-th one, for `max > 0` as in
every call of the package. For `max = 1` the only value is 0 and `rand.Int` returns it
without reading the source; else it reads the source and gives an error or a value below
`max`. The number drawn by the source is taken modulo `max`, so every value below `max` and
no other can come out. -/
def randInt (src : RandSource) (i : Nat) (max : Nat) : Except String Nat :=
  if max = 1 then .ok 0
  else
    match src i with
    | .error err => .error err
    | .ok n => .ok (n % max)

/-- The type `segment`. -/
structure segment where
  x1 : Int
  y1 : Int
  x2 : Int
  y2 : Int
deriving DecidableEq, Repr

/-- The method `getDigitSegments`: the entry of `baseSegments` for the rune, nil when there
is none. -/
def getDigitSegments (digit : Char) : List segment :=
  match digit with
  | '0' => [⟨-10, -20, 10, -20⟩, ⟨10, -20, 10, 20⟩, ⟨10, 20, -10, 20⟩, ⟨-10, 20, -10, -20⟩]
  | '1' => [⟨0, -20, 0, 20⟩]
  | '2' => [⟨-10, -20, 10, -20⟩, ⟨10, -20, 10, 0⟩, ⟨10, 0, -10, 0⟩, ⟨-10, 0, -10, 20⟩,
            ⟨-10, 20, 10, 20⟩]
  | '3' => [⟨-10, -20, 10, -20⟩, ⟨10, -20, 10, 20⟩, ⟨10, 20, -10, 20⟩, ⟨-5, 0, 10, 0⟩]
  | '4' => [⟨-10, -20, -10, 0⟩, ⟨-10, 0, 10, 0⟩, ⟨10, -20, 10, 20⟩]
  | '5' => [⟨10, -20, -10, -20⟩, ⟨-10, -20, -10, 0⟩, ⟨-10, 0, 10, 0⟩, ⟨10, 0, 10, 20⟩,
            ⟨10, 20, -10, 20⟩]
  | '6' => [⟨10, -20, -10, -20⟩, ⟨-10, -20, -10, 20⟩, ⟨-10, 20, 10, 20⟩, ⟨10, 20, 10, 0⟩,
            ⟨10, 0, -10, 0⟩]
  | '7' => [⟨-10, -20, 10, -20⟩, ⟨10, -20, 10, 20⟩]
  | '8' => [⟨-10, -20, 10, -20⟩, ⟨10, -20, 10, 20⟩, ⟨10, 20, -10, 20⟩, ⟨-10, 20, -10, -20⟩,
            ⟨-10, 0, 10, 0⟩]
  | '9' => [⟨10, 20, 10, -20⟩, ⟨10, -20, -10, -20⟩, ⟨-10, -20, -10, 0⟩, ⟨-10, 0, 10, 0⟩]
  | _ => []

/-- The pixels set for the point `(x1, y1)` in the loop of `drawLine`: the point and, for a
thicker line, its east and south neighbours, when the point is on the canvas. Inside the
guard `x1` and `y1` are below 200 and 80, so `x1+1` and `y1+1` do not wrap. -/
def drawLine.plot (img : image.RGBA) (x1 y1 : Int) (col : color.RGBA) : image.RGBA :=
  if x1 ≥ 0 ∧ x1 < captchaWidth ∧ y1 ≥ 0 ∧ y1 < captchaHeight then
    let img := img.Set x1 y1 col
    -- Make line thicker
    let img := if x1 + 1 < captchaWidth then img.Set (x1 + 1) y1 col else img
    if y1 + 1 < captchaHeight then img.Set x1 (y1 + 1) col else img
  else img

/-- The loop `for { ... }` of `drawLine` with the loop variables `x1`, `y1` (`int`) and `err`
(`float64`); one unit of fuel per iteration. -/
def drawLine.loop (dx dy sx sy x2 y2 : Int) (col : color.RGBA) :
    Nat → image.RGBA → Int → Int → Int → Option image.RGBA
  | 0, _, _, _, _ => none
  | fuel + 1, img, x1, y1, err =>
    let img := drawLine.plot img x1 y1 col
    if x1 = x2 ∧ y1 = y2 then some img
    else
      let e2 := float64.round (2 * err)
      let err' := if e2 > -dy then float64.round (err - dy) else err
      let x1' := if e2 > -dy then int.wrap (x1 + sx) else x1
      let err'' := if e2 < dx then float64.round (err' + dx) else err'
      let y1' := if e2 < dx then int.wrap (y1 + sy) else y1
      drawLine.loop dx dy sx sy x2 y2 col fuel img x1' y1' err''

/-- The method `drawLine`, its arguments being `int`s. -/
def drawLine (fuel : Nat) (img : image.RGBA) (x1 y1 x2 y2 : Int) (col : color.RGBA) :
    Option image.RGBA :=
  let dx : Int := |float64.round (int.wrap (x2 - x1))|
  let dy : Int := |float64.round (int.wrap (y2 - y1))|
  let sx : Int := if x1 < x2 then 1 else -1
  let sy : Int := if y1 < y2 then 1 else -1
  let err := float64.round (dx - dy)
  drawLine.loop dx dy sx sy x2 y2 col fuel img x1 y1 err

/-- The method `drawSegment`; `Generate` calls it at centres between 12 and 162 by 40, where
the sums are exact. -/
def drawSegment (fuel : Nat) (img : image.RGBA) (seg : segment) (offsetX offsetY : Int)
    (col : color.RGBA) : Option image.RGBA :=
  let x1 := offsetX + seg.x1
  let y1 := offsetY + seg.y1
  let x2 := offsetX + seg.x2
  let y2 := offsetY + seg.y2
  drawLine fuel img x1 y1 x2 y2 col

/-- The loop of `drawDigit` over the segments. -/
def drawDigit.loop (fuel : Nat) (x y : Int) (segmentColor : color.RGBA) :
    List segment → image.RGBA → Option image.RGBA
  | [], img => some img
  | seg :: rest, img =>
    match drawSegment fuel img seg x y segmentColor with
    | none => none
    | some img => drawDigit.loop fuel x y segmentColor rest img

/-- The method `drawDigit`. -/
def drawDigit (fuel : Nat) (img : image.RGBA) (digit : Char) (x y : Int) : Option image.RGBA :=
  let segments := getDigitSegments digit
  let segmentColor : color.RGBA := ⟨50, 50, 50, 255⟩
  drawDigit.loop fuel x y segmentColor segments img

/-- The method `drawNoiseLine`, whose four draws are the calls `i` to `i + 3` of `rand.Int`.
The errors of the draws are discarded; after a failed draw the number is a nil `*big.Int`
and its `Int64()` panics. -/
def drawNoiseLine (fuel : Nat) (src : RandSource) (i : Nat) (img : image.RGBA) :
    Result image.RGBA :=
  match randInt src i captchaWidth.toNat, randInt src (i + 1) captchaHeight.toNat,
    randInt src (i + 2) captchaWidth.toNat, randInt src (i + 3) captchaHeight.toNat with
  | .ok x1, .ok y1, .ok x2, .ok y2 =>
    let col : color.RGBA := ⟨200, 200, 200, 255⟩
    match drawLine fuel img x1 y1 x2 y2 col with
    | none => .outOfFuel
    | some img => .ok img
  | _, _, _, _ => .panic "invalid memory address or nil pointer dereference"

/-- The method `drawNoiseDot`, whose two draws are the calls `i` and `i + 1` of `rand.Int`.
The errors of the draws are discarded; after a failed draw the number is a nil `*big.Int`
and its `Int64()` panics. -/
def drawNoiseDot (src : RandSource) (i : Nat) (img : image.RGBA) : Result image.RGBA :=
  match randInt src i captchaWidth.toNat, randInt src (i + 1) captchaHeight.toNat with
  | .ok x, .ok y =>
    let col : color.RGBA := ⟨180, 180, 180, 255⟩
    .ok (img.Set x y col)
  | _, _ => .panic "invalid memory address or nil pointer dereference"

/-- The first loop of `Generate`: `n` more digits are drawn, the next draw being the call
`i` of `rand.Int`, and appended to `answer` in decimal. -/
def Generate.digits (src : RandSource) : Nat → Nat → String → Except String String
  | 0, _, answer => .ok answer
  | n + 1, i, answer =>
    match randInt src i 10 with
    | .error err => .error ("failed to generate random digit: " ++ err)
    | .ok d => Generate.digits src n (i + 1) (answer ++ toString d)

/-- The loop of `Generate` that draws `n` more noise lines. -/
def Generate.noiseLines (fuel : Nat) (src : RandSource) :
    Nat → Nat → image.RGBA → Result image.RGBA
  | 0, _, img => .ok img
  | n + 1, i, img =>
    match drawNoiseLine fuel src i img with
    | .ok img => Generate.noiseLines fuel src n (i + 4) img
    | other => other

/-- The loop `for i, digit := range answer` of `Generate`; `i` is the byte offset of the
rune. -/
def Generate.drawDigits (fuel : Nat) : List Char → Nat → image.RGBA → Option image.RGBA
  | [], _, img => some img
  | digit :: rest, i, img =>
    let digitWidth := captchaWidth / digitCount
    let x := i * digitWidth + digitWidth / 4
    let y := captchaHeight / 2
    match drawDigit fuel img digit x y with
    | none => none
    | some img => Generate.drawDigits fuel rest (i + digit.utf8Size) img

/-- The loop of `Generate` that draws `n` more noise dots. -/
def Generate.noiseDots (src : RandSource) : Nat → Nat → image.RGBA → Result image.RGBA
  | 0, _, img => .ok img
  | n + 1, i, img =>
    match drawNoiseDot src i img with
    | .ok img => Generate.noiseDots src n (i + 2) img
    | other => other

/-- The library calls made by the package and by the tool `generate-captchas`, as answered
by the outside. `StatNotExist` tells whether `os.IsNotExist` holds of the error of
`os.Stat`. -/
structure Sys where
  pngEncode : image.RGBA → Except String (List Nat)
  Join : String → String → String
  Base : String → String
  StatNotExist : String → Bool
  Glob : String → Except String (List String)
  ReadFile : String → Except String (List Nat)
  MkdirAll : String → Except String Unit
  WriteFile : String → List Nat → Except String Unit

/-- The method `Generate`. -/
def Generate (fuel : Nat) (sys : Sys) (src : RandSource) : Result Captcha :=
  -- Generate random digits
  match Generate.digits src digitCount 0 "" with
  | .error err => .error err
  | .ok answer =>
    -- Create image, fill background with light gray
    let img := image.Uniform ⟨240, 240, 240, 255⟩
    -- Add some noise lines
    match Generate.noiseLines fuel src noiseLinesCount digitCount img with
    | .error err => .error err
    | .panic msg => .panic msg
    | .outOfFuel => .outOfFuel
    | .ok img =>
      -- Draw digits
      match Generate.drawDigits fuel answer.data 0 img with
      | none => .outOfFuel
      | some img =>
        -- Add more noise dots
        match Generate.noiseDots src noiseDotsCount (digitCount + 4 * noiseLinesCount) img with
        | .error err => .error err
        | .panic msg => .panic msg
        | .outOfFuel => .outOfFuel
        | .ok img =>
          -- Encode to PNG
          match sys.pngEncode img with
          | .error err => .error ("failed to encode image: " ++ err)
          | .ok buf => .ok ⟨buf, answer⟩

/-- The type `Service`. -/
structure Service where
  assetsDir : String

/-- The method `LoadFromAssets`. Go counts bytes in `len(filename)` and in the slice bound;
for a name that ends in the four ASCII characters `.png`, as `Glob` lists them, bytes and
characters removed are the same. -/
def Service.LoadFromAssets (s : Service) (fuel : Nat) (sys : Sys) (src : RandSource) :
    Result Captcha :=
  -- Check if assets directory exists
  let captchaDir := sys.Join s.assetsDir "captcha"
  if sys.StatNotExist captchaDir then
    -- If no assets, generate a new captcha
    Generate fuel sys src
  else
    -- List all PNG files
    match sys.Glob (sys.Join captchaDir "*.png") with
    | .error _ => Generate fuel sys src
    | .ok files =>
      if files.length = 0 then Generate fuel sys src
      else
        -- Pick a random file
        match randInt src 0 files.length with
        | .error err => .error ("failed to generate random index: " ++ err)
        | .ok n =>
          match files[n]? with
          | none => .panic "index out of range"
          | some selectedFile =>
            -- Extract answer from filename
            let filename := sys.Base selectedFile
            if filename.length < 4 then .panic "slice bounds out of range"
            else
              let answer : String := ⟨filename.data.take (filename.length - 4)⟩
              -- Read image file
              match sys.ReadFile selectedFile with
              | .error err => .error ("failed to read captcha file: " ++ err)
              | .ok data => .ok ⟨data, answer⟩

end captcha

namespace generatecaptchas

open captcha

/-- The list `samples` of `main`. -/
def samples : List String :=
  ["1234", "5678", "9012", "3456", "7890", "2468", "1357", "9753"]

/-- The loop of `main` over the samples left, `i` being the index of the next one: the files
written so far (name and content, in order) are in `written`. The draws of the `i`-th call
of `Generate` are those of `srcs i`. -/
def main.loop (fuel : Nat) (sys : Sys) (srcs : Nat → RandSource) (captchaDir : String) :
    List String → Nat → List (String × List Nat) → Result (List (String × List Nat))
  | [], _, written => .ok written
  | answer :: rest, i, written =>
    match Generate fuel sys (srcs i) with
    | .error _ => main.loop fuel sys srcs captchaDir rest (i + 1) written
    | .panic msg => .panic msg
    | .outOfFuel => .outOfFuel
    | .ok img =>
      -- Save with the answer as filename
      let filename := sys.Join captchaDir (answer ++ ".png")
      match sys.WriteFile filename img.Image with
      | .error _ => main.loop fuel sys srcs captchaDir rest (i + 1) written
      | .ok _ => main.loop fuel sys srcs captchaDir rest (i + 1) (written ++ [(filename, img.Image)])

/-- The function `main` of `cmd/generate-captchas`: the files it writes, or the error with
which `log.Fatalf` ends it. -/
def main (fuel : Nat) (sys : Sys) (srcs : Nat → RandSource) :
    Result (List (String × List Nat)) :=
  let captchaDir := "assets/captcha"
  match sys.MkdirAll captchaDir with
  | .error err => .error ("Failed to create directory: " ++ err)
  | .ok _ => main.loop fuel sys srcs captchaDir samples 0 []

end generatecaptchas

/-! ## Sequences of registry operations -/

namespace fsm

/-- The loop of `CleanupExpired` as it runs: `keys` are the keys in the order in which `range`
produces them, each visited key is looked up in the map as it is then, and an expired entry
is deleted. -/
def CaptchaFSM.CleanupExpiredLoop (keys : List Int) (now : Time) (f : CaptchaFSM) : CaptchaFSM :=
  keys.foldl
    (fun g userID =>
      match g.states userID with
      | none => g
      | some data => if now.After data.ExpiresAt then g.DeleteState userID else g)
    f

/-- A call of a method of the registry. -/
inductive Op where
  | set (userID : Int) (data : CaptchaData)
  | get (userID : Int)
  | delete (userID : Int)
  | isExpired (now : Time) (userID : Int)
  | sweep (now : Time)
deriving DecidableEq, Repr

/-- The registry after the call. -/
def Op.apply : Op → CaptchaFSM → CaptchaFSM
  | .set userID data, f => f.SetState userID data
  | .get _, f => f
  | .delete userID, f => f.DeleteState userID
  | .isExpired _ _, f => f
  | .sweep now, f => f.CleanupExpired now

/-- Whether the call is a `SetState` for participant `P`. -/
def Op.isSetOf (P : Int) : Op → Bool
  | .set userID _ => decide (userID = P)
  | _ => false

/-- The registry after a sequence of calls, first call first. -/
def CaptchaFSM.run (f : CaptchaFSM) (ops : List Op) : CaptchaFSM :=
  ops.foldl (fun g op => op.apply g) f

end fsm

/-! ## Derived notions used in the statements -/

open handlers localization

/-- The success notice sent for the message `msg`. -/
def successNotice (ctx : Context) (msg : Message) : bot.SendMessageParams :=
  ⟨msg.ChatID, GetText ctx "captcha_success" [("Username", GenerateMention msg.From)],
    ParseModeMarkdownV1⟩

/-- The failure notice sent for the message `msg`. -/
def failureNotice (ctx : Context) (msg : Message) : bot.SendMessageParams :=
  ⟨msg.ChatID, GetSimpleText ctx "captcha_failed", ""⟩

/-- The timeout notice sent to room `chatID` about `username`. -/
def timeoutNotice (chatID : Int) (username : String) : bot.SendMessageParams :=
  ⟨chatID, "‚è± Verification timeout. " ++ username
      ++ " has been removed from the chat and banned for 10 minutes.", ParseModeMarkdownV1⟩

/-- The ban requested by the timeout task that reads the clock at tick `i`. -/
def timeoutBan (env : Env) (chatID userID : Int) (i : Nat) : bot.BanChatMemberParams :=
  ⟨chatID, userID, ((env.Now i).Add (10 * Minute)).Unix, false⟩

/-- The welcome caption for `user`: `captcha_welcome` with `Username` set to the mention of
`user`, a blank line, and `captcha_prompt`. -/
def welcomeCaption (ctx : Context) (user : User) : String :=
  GetText ctx "captcha_welcome" [("Username", GenerateMention user)]
    ++ ("\n\n" ++ GetText ctx "captcha_prompt" [])

/-- The photo request of the join handler for a generated challenge. -/
def challengePhoto (ctx : Context) (msg : Message) (c : captcha.Captcha) : bot.SendPhotoParams :=
  ⟨msg.ChatID, c.Image, welcomeCaption ctx msg.From, ParseModeMarkdownV1⟩

/-- The members of a join message handled one after the other. -/
def joinLoop (env : Env) (ctx : Context) (msg : Message) (members : List User) (w : World) :
    World :=
  members.foldl (fun w newMember => HandleNewChatMember.body env ctx msg msg.ChatID newMember w) w

/-- The events a handler appended to the trace `before`. -/
def newEvents (before : List Event) (w' : World) : List Event :=
  w'.trace.drop before.length

/-- The record the join handler stores for `p` in the room of `msg`: answer `A`, expiry 30
seconds after `t`, image identifier `m`. -/
def joinRecord (msg : Message) (p : User) (A : String) (t : Time) (m : Int) : CaptchaData :=
  ⟨msg.ChatID, p.ID, A, t.Add (30 * Second), m⟩

/-- Whether the event is a write of the registry entry of `u`. -/
def Event.writes (u : Int) : Event → Bool
  | .setState v _ => decide (v = u)
  | .deleteState v => decide (v = u)
  | _ => false

/-- Whether the event starts a goroutine. -/
def Event.isGo : Event → Bool
  | .go _ => true
  | _ => false

/-- The challenge of `p` is delivered in the world `w`: `p` is not a bot, generation succeeds
and send_photo succeeds. -/
def delivered (env : Env) (ctx : Context) (msg : Message) (p : User) (w : World) : Prop :=
  p.IsBot = false ∧ ∃ c m, env.Generate w.tick = .ok c
    ∧ env.SendPhoto (w.tick + 1) (challengePhoto ctx msg c) = .ok m

/-- The 18 characters that the escaping is about, as a list. -/
def markdownSpecials : List Char := "_*[]()~`>#+-=|\x7b\x7d.!".data

/-- The escaping as the specification words it: one pass over `s`, left to right, in which
each of the 18 characters is replaced by a backslash followed by that character and every
other character is copied. -/
def escapeSinglePass (s : String) : String :=
  ⟨s.data.flatMap fun c => if c ∈ markdownSpecials then ['\\', c] else [c]⟩

/-- The calls `a`, …, `b - 1` of `rand.Int` all draw a number. -/
def captcha.drawsOk (src : captcha.RandSource) (a b : Nat) : Prop :=
  ∀ j, a ≤ j → j < b → ∃ v, src j = .ok v

/-- The panic of a method called on a nil pointer. -/
def nilPanic : String := "invalid memory address or nil pointer dereference"

/-! ## The answer handler and the timeout task in phases

Each of the two routines reads the registry (`GetState`, `IsExpired`) and only later writes
it (`DeleteState`). The registry's mutex makes every single call atomic, nothing more, so
the other routine may run between the reads and the write. Each routine is cut here at that
point: the first phase is its code up to and including the expiry check, the second phase is
the rest. -/

/-- The answer handler up to and including its expiry check: the record it holds in `data`
when it goes on, nothing when it returns. -/
def handlers.HandleCaptchaTextAnswer.check (env : Env) (ctx : Context) (msg : Message)
    (w : World) : Option CaptchaData × World :=
  if msg.Text = "" then (none, w) else
  if !ctx.captchaFSM then (none, w) else
  match w.fsm.GetState msg.From.ID with
  | none => (none, w)
  | some data =>
    let (expired, w) := World.isExpired env msg.From.ID w
    if expired then (none, w) else (some data, w)

/-- The answer handler after its expiry check, holding the record `data`. -/
def handlers.HandleCaptchaTextAnswer.act (env : Env) (ctx : Context) (msg : Message)
    (data : CaptchaData) (w : World) : World :=
  let userID := msg.From.ID
  let chatID := msg.ChatID
  let answer := msg.Text
  let (_, w) := World.deleteMessage env ⟨chatID, msg.ID⟩ w
  if answer = data.Answer then
    let w := World.deleteState userID w
    let (_, w) := World.deleteMessage env ⟨chatID, data.PhotoMessageID⟩ w
    let successText := GetText ctx "captcha_success" [("Username", GenerateMention msg.From)]
    match World.sendMessage env ⟨chatID, successText, ParseModeMarkdownV1⟩ w with
    | (.error _, w) => w
    | (.ok msgID, w) => w.emit (.go (.deleteAfter (10 * Second) ⟨chatID, msgID⟩))
  else
    let w := World.deleteState userID w
    let (now, w) := World.now env w
    let (_, w) := World.banChatMember env
      ⟨chatID, userID, (now.Add (10 * Minute)).Unix, false⟩ w
    let (_, w) := World.deleteMessage env ⟨chatID, data.PhotoMessageID⟩ w
    let failedText := GetSimpleText ctx "captcha_failed"
    match World.sendMessage env ⟨chatID, failedText, ""⟩ w with
    | (.error _, w) => w
    | (.ok msgID, w) => w.emit (.go (.deleteAfter (10 * Second) ⟨chatID, msgID⟩))

/-- The timeout task, once awake, up to and including its expiry check: whether it goes
on. -/
def handlers.scheduleTimeoutCheck.check (env : Env) (userID : Int) (w : World) : Bool × World :=
  match w.fsm.GetState userID with
  | none => (false, w)
  | some _ => World.isExpired env userID w

/-- The timeout task after its expiry check. -/
def handlers.scheduleTimeoutCheck.act (env : Env) (chatID userID : Int) (username : String)
    (photoMsgID : Int) (w : World) : World :=
  let w := World.deleteState userID w
  let (now, w) := World.now env w
  match World.banChatMember env ⟨chatID, userID, (now.Add (10 * Minute)).Unix, false⟩ w with
  | (.error _, w) => w
  | (.ok _, w) =>
    let (_, w) := World.deleteMessage env ⟨chatID, photoMsgID⟩ w
    let timeoutText := "‚è± Verification timeout. " ++ username
      ++ " has been removed from the chat and banned for 10 minutes."
    match World.sendMessage env ⟨chatID, timeoutText, ParseModeMarkdownV1⟩ w with
    | (.error _, w) => w
    | (.ok msgID, w) =>
      (World.deleteMessage env ⟨chatID, msgID⟩ (w.emit (.sleep (10 * Second)))).2

/-- A phase of one of the two routines. -/
inductive Phase where
  | answerCheck
  | answerAct
  | timeoutCheck
  | timeoutAct
deriving DecidableEq, Repr

/-- The two routines under way: the shared world, the record that the answer handler holds
between its two phases, and whether the timeout task is between its two phases. -/
structure Race where
  w : World
  held : Option CaptchaData
  timeoutGoesOn : Bool

/-- One phase of the answer handler for the message `msg`, or of the timeout task started
with `chatID`, `userID`, `username` and `photoMsgID`. A second phase runs only after its
first phase decided to go on. -/
def Race.step (env : Env) (ctx : Context) (msg : Message) (chatID userID : Int)
    (username : String) (photoMsgID : Int) : Phase → Race → Race
  | .answerCheck, r =>
    let (found, w) := HandleCaptchaTextAnswer.check env ctx msg r.w
    { r with w := w, held := found }
  | .answerAct, r =>
    match r.held with
    | none => r
    | some data => { r with w := HandleCaptchaTextAnswer.act env ctx msg data r.w, held := none }
  | .timeoutCheck, r =>
    let (goesOn, w) := scheduleTimeoutCheck.check env userID r.w
    { r with w := w, timeoutGoesOn := goesOn }
  | .timeoutAct, r =>
    if r.timeoutGoesOn then
      { r with w := scheduleTimeoutCheck.act env chatID userID username photoMsgID r.w,
               timeoutGoesOn := false }
    else r

/-- The world after the phases of `schedule` ran in this order from the world `w`. -/
def Race.run (env : Env) (ctx : Context) (msg : Message) (chatID userID : Int)
    (username : String) (photoMsgID : Int) (schedule : List Phase) (w : World) : World :=
  (schedule.foldl (fun r phase => Race.step env ctx msg chatID userID username photoMsgID phase r)
    ⟨w, none, false⟩).w

/-! ## The points that a line visits and the pixels it sets -/

namespace captcha

/-- The pixels that one iteration of the loop of `drawLine` sets for the point `(x1, y1)`:
none when the point is off the canvas, else the point, its east neighbour when that is on
the canvas and its south neighbour when that is on the canvas. -/
def drawLine.stroke (x1 y1 : Int) : List (Int × Int) :=
  if x1 ≥ 0 ∧ x1 < captchaWidth ∧ y1 ≥ 0 ∧ y1 < captchaHeight then
    (x1, y1) :: ((if x1 + 1 < captchaWidth then [(x1 + 1, y1)] else [])
      ++ (if y1 + 1 < captchaHeight then [(x1, y1 + 1)] else []))
  else []

/-- The values of `(x1, y1)` at the start of the iterations of the loop of `drawLine`, in
order: the loop of `drawLine.loop` without the image. -/
def drawLine.trail (dx dy sx sy x2 y2 : Int) :
    Nat → Int → Int → Int → Option (List (Int × Int))
  | 0, _, _, _ => none
  | fuel + 1, x1, y1, err =>
    if x1 = x2 ∧ y1 = y2 then some [(x1, y1)]
    else
      let e2 := float64.round (2 * err)
      let err' := if e2 > -dy then float64.round (err - dy) else err
      let x1' := if e2 > -dy then int.wrap (x1 + sx) else x1
      let err'' := if e2 < dx then float64.round (err' + dx) else err'
      let y1' := if e2 < dx then int.wrap (y1 + sy) else y1
      match drawLine.trail dx dy sx sy x2 y2 fuel x1' y1' err'' with
      | none => none
      | some pts => some ((x1, y1) :: pts)

/-- The points that `drawLine` visits from `(x1, y1)` to `(x2, y2)`, when its loop ends
within the fuel. -/
def drawLine.visited (fuel : Nat) (x1 y1 x2 y2 : Int) : Option (List (Int × Int)) :=
  let dx : Int := |float64.round (int.wrap (x2 - x1))|
  let dy : Int := |float64.round (int.wrap (y2 - y1))|
  let sx : Int := if x1 < x2 then 1 else -1
  let sy : Int := if y1 < y2 then 1 else -1
  let err := float64.round (dx - dy)
  drawLine.trail dx dy sx sy x2 y2 fuel x1 y1 err

/-- The values of `(x1, y1)` at the start of the first `n` iterations of the loop of
`drawLine`, whether or not the loop ends later. -/
def drawLine.walk (dx dy sx sy x2 y2 : Int) : Nat → Int → Int → Int → List (Int × Int)
  | 0, _, _, _ => []
  | n + 1, x1, y1, err =>
    if x1 = x2 ∧ y1 = y2 then [(x1, y1)]
    else
      let e2 := float64.round (2 * err)
      let err' := if e2 > -dy then float64.round (err - dy) else err
      let x1' := if e2 > -dy then int.wrap (x1 + sx) else x1
      let err'' := if e2 < dx then float64.round (err' + dx) else err'
      let y1' := if e2 < dx then int.wrap (y1 + sy) else y1
      (x1, y1) :: drawLine.walk dx dy sx sy x2 y2 n x1' y1' err''

/-- The points of the first `n` iterations of `drawLine` from `(x1, y1)` to `(x2, y2)`. -/
def drawLine.walked (n : Nat) (x1 y1 x2 y2 : Int) : List (Int × Int) :=
  let dx : Int := |float64.round (int.wrap (x2 - x1))|
  let dy : Int := |float64.round (int.wrap (y2 - y1))|
  let sx : Int := if x1 < x2 then 1 else -1
  let sy : Int := if y1 < y2 then 1 else -1
  let err := float64.round (dx - dy)
  drawLine.walk dx dy sx sy x2 y2 n x1 y1 err

/-- The image after the iterations of the loop of `drawLine` for the points `pts`. -/
def drawLine.paint (col : color.RGBA) (pts : List (Int × Int)) (img : image.RGBA) :
    image.RGBA :=
  pts.foldl (fun img p => drawLine.plot img p.1 p.2 col) img

/-- The step from the point `p` to the point `q` is at most one pixel along each axis and
does not lead away from `(x2, y2)` on either axis. -/
def drawLine.stepsTowards (x2 y2 : Int) (p q : Int × Int) : Prop :=
  |q.1 - p.1| ≤ 1 ∧ |q.2 - p.2| ≤ 1 ∧ p ≠ q
    ∧ |x2 - q.1| ≤ |x2 - p.1| ∧ |y2 - q.2| ≤ |y2 - p.2|

instance (x2 y2 : Int) (p q : Int × Int) : Decidable (drawLine.stepsTowards x2 y2 p q) := by
  unfold drawLine.stepsTowards
  infer_instance

/-- The invariant of the loop of `drawLine`: `rx` and `ry` steps remain along the two axes,
`err` is the error term of the remaining line, and the line stays within half a step of its
longer axis. -/
def drawLine.onTrack (dx dy sx sy x2 y2 x1 y1 err rx ry : Int) : Prop :=
  (0 ≤ rx ∧ rx ≤ dx) ∧ (0 ≤ ry ∧ ry ≤ dy) ∧ x2 - x1 = sx * rx ∧ y2 - y1 = sy * ry
    ∧ err = dx - dy + (dy * rx - dx * ry)
    ∧ ((dy < dx ∧ -dx ≤ 2 * (dy * rx - dx * ry) ∧ 2 * (dy * rx - dx * ry) < dx)
      ∨ (dx < dy ∧ -dy < 2 * (dy * rx - dx * ry) ∧ 2 * (dy * rx - dx * ry) ≤ dy)
      ∨ (dx = dy ∧ rx = ry))

/-- The set S of the specification of `drawLine`, in its words, for the visited points
`pts`: for every visited point on the canvas the point, its east neighbour when that is on
the canvas and its south neighbour when that is on the canvas. -/
def drawLine.specPixels (pts : List (Int × Int)) (a b : Int) : Prop :=
  ∃ p ∈ pts, (0 ≤ p.1 ∧ p.1 < 200 ∧ 0 ≤ p.2 ∧ p.2 < 80)
    ∧ ((a = p.1 ∧ b = p.2) ∨ (a = p.1 + 1 ∧ b = p.2 ∧ p.1 + 1 < 200)
      ∨ (a = p.1 ∧ b = p.2 + 1 ∧ p.2 + 1 < 80))

instance (pts : List (Int × Int)) (a b : Int) : Decidable (drawLine.specPixels pts a b) := by
  unfold drawLine.specPixels
  infer_instance

/-- The pixels that `drawSegment` sets: the pixels of the points of its line. -/
def drawSegment.pixels (fuel : Nat) (seg : segment) (offsetX offsetY : Int) :
    List (Int × Int) :=
  match drawLine.visited fuel (offsetX + seg.x1) (offsetY + seg.y1) (offsetX + seg.x2)
      (offsetY + seg.y2) with
  | none => []
  | some pts => pts.flatMap fun p => drawLine.stroke p.1 p.2

/-- The pixels that the loop of `drawDigit` sets for the segments `segs`. -/
def drawDigit.loop.pixels (fuel : Nat) (x y : Int) (segs : List segment) : List (Int × Int) :=
  segs.flatMap fun seg => drawSegment.pixels fuel seg x y

/-- The pixels that `drawDigit` sets for the digit at centre `(x, y)`: the pixels of all
its segments. -/
def drawDigit.pixels (fuel : Nat) (digit : Char) (x y : Int) : List (Int × Int) :=
  drawDigit.loop.pixels fuel x y (getDigitSegments digit)

end captcha

/-! ## Sample data -/

/-- A transport that accepts everything: photos get identifier 100, texts 101; the clock
stands at second 1000 and the generator answers `1234`. -/
def sampleEnv : Env where
  Now := fun _ => ⟨1000000000000⟩
  Generate := fun _ => .ok ⟨[137, 80, 78, 71], "1234"⟩
  SendPhoto := fun _ _ => .ok 100
  SendMessage := fun _ _ => .ok 101
  DeleteMessage := fun _ _ => .ok true
  BanChatMember := fun _ _ => .ok true

/-- The context the middlewares build when no localizer is resolved. -/
def sampleCtx : Context := ⟨none, true⟩

/-- User 10, a human. -/
def sampleUser : User := ⟨10, false, "Ann", "", "ann"⟩

/-- The record of user 10 in room 1: answer `1234`, expiry at second 1030, image 100. -/
def sampleData : CaptchaData := ⟨1, 10, "1234", ⟨1030000000000⟩, 100⟩

/-- A world whose registry holds `sampleData` only. -/
def sampleWorld : World := ⟨NewCaptchaFSM.SetState 10 sampleData, [], 0⟩

/-- A text message of user 10 in room 1 with identifier 7. -/
def sampleText (text : String) : Update := ⟨some ⟨7, sampleUser, 1, text, none⟩⟩

/-- The sample environment with the clock at second 1031, after the sample record expired. -/
def lateEnv : Env := { sampleEnv with Now := fun _ => ⟨1031000000000⟩ }

/-- The environment `lateEnv` with a transport that refuses every ban. -/
def lateEnvBanFails : Env :=
  { lateEnv with BanChatMember := fun _ _ => .error "not enough rights" }

/-- A localizer that knows the two caption texts and fills in `Username`. -/
def sampleLocalizer : Localizer := fun textID templateData =>
  if textID = "captcha_welcome" then
    .ok ("Welcome, " ++ (templateData.lookup "Username").getD "" ++ "!")
  else if textID = "captcha_prompt" then .ok "Type the digits."
  else .error "message not found"

/-- The context the middlewares build when `sampleLocalizer` is resolved. -/
def localizedCtx : Context := ⟨some sampleLocalizer, true⟩

/-- User 12, a human. -/
def carl : User := ⟨12, false, "Carl", "", "carl"⟩

/-- User 20, a bot. -/
def helperBot : User := ⟨20, true, "Helper", "", "helper_bot"⟩

/-- A join message (identifier 8) in room 1, sent by user 10, reporting `members`. -/
def sampleJoin (members : List User) : Update := ⟨some ⟨8, sampleUser, 1, "", some members⟩⟩

/-- A file system without assets and a stand-in for the PNG encoder, which writes the four
signature bytes and the red value of the pixels (2, 20) and (12, 20); paths are joined with
a slash and the base name is what follows the last slash. -/
def sampleSys : captcha.Sys where
  pngEncode := fun img => .ok [137, 80, 78, 71, (img.At 2 20).R, (img.At 12 20).R]
  Join := fun a b => a ++ "/" ++ b
  Base := fun path => ⟨(path.data.reverse.takeWhile (· ≠ '/')).reverse⟩
  StatNotExist := fun _ => true
  Glob := fun _ => .ok []
  ReadFile := fun _ => .error "no such file or directory"
  MkdirAll := fun _ => .ok ()
  WriteFile := fun _ _ => .ok ()

/-- A random source that draws 0 every time. -/
def zeroSource : captcha.RandSource := fun _ => .ok 0

/-- A random source that draws 0 every time but fails at call 4, the first coordinate of the
first noise line. -/
def failingNoiseSource : captcha.RandSource := fun i =>
  if i = 4 then .error "entropy source failed" else .ok 0

/-- The file system after the tool `generate-captchas` wrote `assets/captcha/1234.png` with
the content `[137, 80, 78, 71, 50, 50]`. -/
def storedSys : captcha.Sys :=
  { sampleSys with
    StatNotExist := fun _ => false
    Glob := fun _ => .ok ["assets/captcha/1234.png"]
    ReadFile := fun path =>
      if path = "assets/captcha/1234.png" then .ok [137, 80, 78, 71, 50, 50]
      else .error "no such file or directory" }

/-- The sample environment with a clock that reads second 1029.95 at the first reading and
second 1030.05 at every later one; the sample record expires at second 1030. -/
def raceEnv : Env :=
  { sampleEnv with Now := fun i => if i = 0 then ⟨1029950000000⟩ else ⟨1030050000000⟩ }

/-- The text message of user 10 in room 1 (identifier 7) that carries the right answer. -/
def rightAnswer : Message := ⟨7, sampleUser, 1, "1234", none⟩

/-- A text message of user 10 with identifier 7 and a wrong answer, sent in room 2, while the
sample record of user 10 is the one of room 1. -/
def wrongAnswerElsewhere : Update := ⟨some ⟨7, sampleUser, 2, "9999", none⟩⟩

/-! ## The registry -/

/-- C8 (as amended): for a record of participant `P` with expiry `e` present in the registry,
`IsExpired(P)` evaluated at instant `t` is true exactly when `t` is strictly later than `e`;
in particular it is true at every `t > e` and false at `t = e`. -/
theorem isExpired_iff_strictly_after (f : CaptchaFSM) (P : Int) (data : CaptchaData) (t : Time)
    (hrec : f.GetState P = some data) :
    (f.IsExpired t P = true ↔ data.ExpiresAt.nsec < t.nsec)
      ∧ f.IsExpired data.ExpiresAt P = false := by
  simp only [CaptchaFSM.GetState] at hrec
  simp [CaptchaFSM.IsExpired, hrec, Time.After]

/-- Witness of `isExpired_iff_strictly_after`: the sample record, one nanosecond after its
expiry. -/
theorem isExpired_iff_strictly_after_witness :
    ((NewCaptchaFSM.SetState 10 sampleData).IsExpired ⟨1030000000001⟩ 10 = true
        ↔ sampleData.ExpiresAt.nsec < (1030000000001 : Int))
      ∧ (NewCaptchaFSM.SetState 10 sampleData).IsExpired sampleData.ExpiresAt 10 = false :=
  isExpired_iff_strictly_after (NewCaptchaFSM.SetState 10 sampleData) 10 sampleData
    ⟨1030000000001⟩ (by rfl)

/-- C8 fails at `t = e`: the registry holds the sample record of user 10, whose expiry is
second 1030; at exactly that instant (which is `≥ e`) `IsExpired(10)` is false. -/
theorem isExpired_at_expiry_false :
    (NewCaptchaFSM.SetState 10 sampleData).GetState 10 = some sampleData
      ∧ sampleData.ExpiresAt.nsec ≤ (⟨1030000000000⟩ : Time).nsec
      ∧ (NewCaptchaFSM.SetState 10 sampleData).IsExpired ⟨1030000000000⟩ 10 = false := by
  refine ⟨by rfl, by decide, by rfl⟩

/-! ## Answer handling -/

/-- The handler on the correct-answer path, as an explicit world. -/
theorem HandleCaptchaTextAnswer_correct (env : Env) (ctx : Context) (update : Update)
    (msg : Message) (data : CaptchaData) (w : World)
    (hctx : ctx.captchaFSM = true)
    (hmsg : update.Message = some msg)
    (htext : msg.Text ≠ "")
    (hrec : w.fsm.GetState msg.From.ID = some data)
    (hlive : w.fsm.IsExpired (env.Now w.tick) msg.From.ID = false)
    (hans : msg.Text = data.Answer) :
    HandleCaptchaTextAnswer env ctx update w =
      ⟨w.fsm.DeleteState msg.From.ID,
        w.trace ++
          ([.call (.DeleteMessage ⟨msg.ChatID, msg.ID⟩),
            .deleteState msg.From.ID,
            .call (.DeleteMessage ⟨msg.ChatID, data.PhotoMessageID⟩),
            .call (.SendMessage (successNotice ctx msg))] ++
          match env.SendMessage (w.tick + 3) (successNotice ctx msg) with
          | .error _ => []
          | .ok n => [.go (.deleteAfter (10 * Second) ⟨msg.ChatID, n⟩)]),
        w.tick + 4⟩ := by
  have hst : w.fsm.states msg.From.ID = some data := hrec
  have hnot : (env.Now w.tick).After data.ExpiresAt = false := by
    simpa [CaptchaFSM.IsExpired, hst] using hlive
  have hrec' : w.fsm.GetState msg.From.ID = some data := hrec
  simp only [HandleCaptchaTextAnswer, hmsg, htext, hctx, hrec', World.isExpired, hst, hnot,
    World.deleteMessage, World.deleteState, World.sendMessage, World.emit, successNotice,
    if_pos hans, if_false, Bool.not_true, Bool.false_eq_true, Nat.add_assoc]
  cases env.SendMessage (w.tick + 3) ⟨msg.ChatID,
    GetText ctx "captcha_success" [("Username", GenerateMention msg.From)],
    ParseModeMarkdownV1⟩ <;> simp

/-- The handler on the wrong-answer path, as an explicit world. -/
theorem HandleCaptchaTextAnswer_wrong (env : Env) (ctx : Context) (update : Update)
    (msg : Message) (data : CaptchaData) (w : World)
    (hctx : ctx.captchaFSM = true)
    (hmsg : update.Message = some msg)
    (htext : msg.Text ≠ "")
    (hrec : w.fsm.GetState msg.From.ID = some data)
    (hlive : w.fsm.IsExpired (env.Now w.tick) msg.From.ID = false)
    (hans : msg.Text ≠ data.Answer) :
    HandleCaptchaTextAnswer env ctx update w =
      ⟨w.fsm.DeleteState msg.From.ID,
        w.trace ++
          ([.call (.DeleteMessage ⟨msg.ChatID, msg.ID⟩),
            .deleteState msg.From.ID,
            .call (.BanChatMember ⟨msg.ChatID, msg.From.ID,
              ((env.Now (w.tick + 2)).Add (10 * Minute)).Unix, false⟩),
            .call (.DeleteMessage ⟨msg.ChatID, data.PhotoMessageID⟩),
            .call (.SendMessage (failureNotice ctx msg))] ++
          match env.SendMessage (w.tick + 5) (failureNotice ctx msg) with
          | .error _ => []
          | .ok n => [.go (.deleteAfter (10 * Second) ⟨msg.ChatID, n⟩)]),
        w.tick + 6⟩ := by
  have hst : w.fsm.states msg.From.ID = some data := hrec
  have hnot : (env.Now w.tick).After data.ExpiresAt = false := by
    simpa [CaptchaFSM.IsExpired, hst] using hlive
  have hrec' : w.fsm.GetState msg.From.ID = some data := hrec
  simp only [HandleCaptchaTextAnswer, hmsg, htext, hctx, hrec', World.isExpired, hst, hnot,
    World.deleteMessage, World.deleteState, World.sendMessage, World.emit, World.now,
    World.banChatMember, failureNotice,
    if_neg hans, if_false, Bool.not_true, Bool.false_eq_true, Nat.add_assoc]
  cases env.SendMessage (w.tick + 5) ⟨msg.ChatID, GetSimpleText ctx "captcha_failed", ""⟩
    <;> simp

/-- The timeout task when it finds no record or a record that is not expired: registry and
trace stay as they are. -/
theorem scheduleTimeoutCheck_idle (env : Env) (chatID userID : Int) (username : String)
    (photoMsgID : Int) (w : World)
    (hidle : w.fsm.GetState userID = none ∨ w.fsm.IsExpired (env.Now w.tick) userID = false) :
    (scheduleTimeoutCheck env chatID userID username photoMsgID w).trace = w.trace
      ∧ (scheduleTimeoutCheck env chatID userID username photoMsgID w).fsm = w.fsm := by
  simp only [scheduleTimeoutCheck, CaptchaFSM.GetState]
  cases hst : w.fsm.states userID with
  | none => simp
  | some data =>
    have hnot : (env.Now w.tick).After data.ExpiresAt = false := by
      rcases hidle with h | h
      · simp [CaptchaFSM.GetState, hst] at h
      · simpa [CaptchaFSM.IsExpired, hst] using h
    simp [World.isExpired, hst, hnot]

/-- The timeout task when it finds an expired record: the registry and the trace it leaves. -/
theorem scheduleTimeoutCheck_fire (env : Env) (chatID userID : Int) (username : String)
    (photoMsgID : Int) (data : CaptchaData) (w : World)
    (hrec : w.fsm.GetState userID = some data)
    (hexp : w.fsm.IsExpired (env.Now w.tick) userID = true) :
    (scheduleTimeoutCheck env chatID userID username photoMsgID w).fsm
        = w.fsm.DeleteState userID
      ∧ (scheduleTimeoutCheck env chatID userID username photoMsgID w).trace
        = w.trace ++
          ([.deleteState userID,
            .call (.BanChatMember (timeoutBan env chatID userID (w.tick + 1)))] ++
          match env.BanChatMember (w.tick + 2) (timeoutBan env chatID userID (w.tick + 1)) with
          | .error _ => []
          | .ok _ =>
            [.call (.DeleteMessage ⟨chatID, photoMsgID⟩),
             .call (.SendMessage (timeoutNotice chatID username))] ++
            match env.SendMessage (w.tick + 4) (timeoutNotice chatID username) with
            | .error _ => []
            | .ok n => [.sleep (10 * Second), .call (.DeleteMessage ⟨chatID, n⟩)]) := by
  have hst : w.fsm.states userID = some data := hrec
  have hafter : (env.Now w.tick).After data.ExpiresAt = true := by
    simpa [CaptchaFSM.IsExpired, hst] using hexp
  have hrec' : w.fsm.GetState userID = some data := hrec
  simp only [scheduleTimeoutCheck, hrec', World.isExpired, hst, hafter,
    World.deleteMessage, World.deleteState, World.sendMessage, World.emit, World.now,
    World.banChatMember, timeoutNotice, timeoutBan, Bool.not_true, Bool.false_eq_true,
    if_false, Nat.add_assoc, Nat.reduceAdd]
  cases env.BanChatMember (w.tick + 2)
      ⟨chatID, userID, ((env.Now (w.tick + 1)).Add (10 * Minute)).Unix, false⟩ with
  | error e => simp
  | ok b =>
    simp only [Nat.add_assoc, Nat.reduceAdd]
    cases env.SendMessage (w.tick + 4) ⟨chatID, "‚è± Verification timeout. " ++ username
      ++ " has been removed from the chat and banned for 10 minutes.", ParseModeMarkdownV1⟩
      <;> simp

/-! ## Join handling -/

/-- A bot member is skipped: the world is left as it is. -/
theorem body_bot (env : Env) (ctx : Context) (msg : Message) (p : User) (w : World)
    (hbot : p.IsBot = true) :
    HandleNewChatMember.body env ctx msg msg.ChatID p w = w := by
  simp [HandleNewChatMember.body, hbot]

/-- A member whose challenge generation fails: only a tick is spent. -/
theorem body_generate_error (env : Env) (ctx : Context) (msg : Message) (p : User) (w : World)
    (e : String) (hbot : p.IsBot = false) (hgen : env.Generate w.tick = .error e) :
    HandleNewChatMember.body env ctx msg msg.ChatID p w = { w with tick := w.tick + 1 } := by
  simp [HandleNewChatMember.body, hbot, World.generate, hgen]

/-- A member whose challenge could not be posted: only the photo request is made. -/
theorem body_sendPhoto_error (env : Env) (ctx : Context) (msg : Message) (p : User) (w : World)
    (c : captcha.Captcha) (e : String) (hbot : p.IsBot = false)
    (hgen : env.Generate w.tick = .ok c)
    (hsend : env.SendPhoto (w.tick + 1) (challengePhoto ctx msg c) = .error e) :
    HandleNewChatMember.body env ctx msg msg.ChatID p w =
      ⟨w.fsm, w.trace ++ [.call (.SendPhoto (challengePhoto ctx msg c))], w.tick + 2⟩ := by
  simp only [challengePhoto, welcomeCaption] at hsend
  simp [HandleNewChatMember.body, hbot, World.generate, hgen, World.sendPhoto, hsend,
    challengePhoto, welcomeCaption]

/-- A member whose challenge was generated and posted: the record is stored, then the timeout
task is started. -/
theorem body_ok (env : Env) (ctx : Context) (msg : Message) (p : User) (w : World)
    (c : captcha.Captcha) (m : Int) (hctx : ctx.captchaFSM = true) (hbot : p.IsBot = false)
    (hgen : env.Generate w.tick = .ok c)
    (hsend : env.SendPhoto (w.tick + 1) (challengePhoto ctx msg c) = .ok m) :
    HandleNewChatMember.body env ctx msg msg.ChatID p w =
      ⟨w.fsm.SetState p.ID
          ⟨msg.ChatID, p.ID, c.Answer, (env.Now (w.tick + 2)).Add (30 * Second), m⟩,
        w.trace ++
          [.call (.SendPhoto (challengePhoto ctx msg c)),
           .setState p.ID
             ⟨msg.ChatID, p.ID, c.Answer, (env.Now (w.tick + 2)).Add (30 * Second), m⟩,
           .go (.scheduleTimeoutCheck msg.ChatID p.ID (GenerateMention msg.From) m)],
        w.tick + 3⟩ := by
  simp only [challengePhoto, welcomeCaption] at hsend
  simp [HandleNewChatMember.body, hbot, World.generate, hgen, World.sendPhoto, hsend,
    challengePhoto, welcomeCaption, hctx, World.now, World.setState, World.emit]

/-- A member handled with a context that lacks the registry: only the photo request is made. -/
theorem body_no_registry (env : Env) (ctx : Context) (msg : Message) (p : User) (w : World)
    (c : captcha.Captcha) (m : Int) (hctx : ¬ ctx.captchaFSM = true) (hbot : p.IsBot = false)
    (hgen : env.Generate w.tick = .ok c)
    (hsend : env.SendPhoto (w.tick + 1) (challengePhoto ctx msg c) = .ok m) :
    HandleNewChatMember.body env ctx msg msg.ChatID p w =
      ⟨w.fsm, w.trace ++ [.call (.SendPhoto (challengePhoto ctx msg c))], w.tick + 2⟩ := by
  simp only [challengePhoto, welcomeCaption] at hsend
  simp [HandleNewChatMember.body, hbot, World.generate, hgen, World.sendPhoto, hsend,
    challengePhoto, welcomeCaption, hctx]

/-- Handling a member only extends the trace, and touches no registry entry but the
member's own. -/
theorem body_frame (env : Env) (ctx : Context) (msg : Message) (p : User) (w : World) :
    (∃ evs, (HandleNewChatMember.body env ctx msg msg.ChatID p w).trace = w.trace ++ evs)
      ∧ ∀ u, u ≠ p.ID →
        (HandleNewChatMember.body env ctx msg msg.ChatID p w).fsm.GetState u
          = w.fsm.GetState u := by
  cases hbot : p.IsBot with
  | true => rw [body_bot env ctx msg p w hbot]; exact ⟨⟨[], by simp⟩, fun _ _ => rfl⟩
  | false =>
    cases hgen : env.Generate w.tick with
    | error e =>
      rw [body_generate_error env ctx msg p w e hbot hgen]
      exact ⟨⟨[], by simp⟩, fun _ _ => rfl⟩
    | ok c =>
      cases hsend : env.SendPhoto (w.tick + 1) (challengePhoto ctx msg c) with
      | error e =>
        rw [body_sendPhoto_error env ctx msg p w c e hbot hgen hsend]
        exact ⟨⟨_, rfl⟩, fun _ _ => rfl⟩
      | ok m =>
        by_cases hctx : ctx.captchaFSM = true
        · rw [body_ok env ctx msg p w c m hctx hbot hgen hsend]
          refine ⟨⟨_, rfl⟩, fun u hu => ?_⟩
          simp [CaptchaFSM.GetState, CaptchaFSM.SetState, hu]
        · rw [body_no_registry env ctx msg p w c m hctx hbot hgen hsend]
          exact ⟨⟨_, rfl⟩, fun _ _ => rfl⟩

/-- Handling further members only extends the trace, and keeps the registry entry of every
participant who is not among them. -/
theorem joinLoop_frame (env : Env) (ctx : Context) (msg : Message) (members : List User) :
    ∀ w : World,
      (∃ evs, (joinLoop env ctx msg members w).trace = w.trace ++ evs)
        ∧ ∀ u, (∀ q ∈ members, q.ID ≠ u) →
          (joinLoop env ctx msg members w).fsm.GetState u = w.fsm.GetState u := by
  induction members with
  | nil => intro w; exact ⟨⟨[], by simp [joinLoop]⟩, fun _ _ => rfl⟩
  | cons q rest ih =>
    intro w
    have hstep : joinLoop env ctx msg (q :: rest) w
        = joinLoop env ctx msg rest (HandleNewChatMember.body env ctx msg msg.ChatID q w) := rfl
    obtain ⟨⟨evs₁, h₁⟩, f₁⟩ := body_frame env ctx msg q w
    obtain ⟨⟨evs₂, h₂⟩, f₂⟩ := ih (HandleNewChatMember.body env ctx msg msg.ChatID q w)
    rw [hstep]
    refine ⟨⟨evs₁ ++ evs₂, by rw [h₂, h₁, List.append_assoc]⟩, fun u hu => ?_⟩
    rw [f₂ u (fun r hr => hu r (List.mem_cons_of_mem _ hr)),
      f₁ u (fun h => hu q (List.mem_cons_self _ _) h.symm)]

/-- The join handler runs the loop over the reported members. -/
theorem HandleNewChatMember_eq_joinLoop (env : Env) (ctx : Context) (update : Update)
    (msg : Message) (members : List User) (w : World)
    (hmsg : update.Message = some msg) (hmem : msg.NewChatMembers = some members) :
    HandleNewChatMember env ctx update w = joinLoop env ctx msg members w := by
  cases members with
  | nil => simp [HandleNewChatMember, hmsg, hmem, joinLoop]
  | cons q rest => simp [HandleNewChatMember, hmsg, hmem, joinLoop]

/-- The loop over `pre ++ p :: post` is the loop over `pre`, then `p`, then the loop over
`post`. -/
theorem joinLoop_split (env : Env) (ctx : Context) (msg : Message) (pre post : List User)
    (p : User) (w : World) :
    joinLoop env ctx msg (pre ++ p :: post) w =
      joinLoop env ctx msg post
        (HandleNewChatMember.body env ctx msg msg.ChatID p (joinLoop env ctx msg pre w)) := by
  simp [joinLoop, List.foldl_append]

/-- Ten minutes after `t` is 600 whole seconds later on the Unix scale. -/
theorem unix_add_ten_minutes (t : Time) : (t.Add (10 * Minute)).Unix = t.Unix + 600 := by
  simp only [Time.Add, Time.Unix, Minute, Second]
  omega

/-- C1: correct-answer path. When the sender `P` of a text message (identifier `k`, room `R`)
holds a non-expired record with answer `A` and image identifier `m`, and the text equals `A`,
the handler does exactly: delete_message(R, k), removal of the record,
delete_message(R, m), send_text(R, success notice); when send_text returns `n` it then
starts the goroutine that sleeps 10 seconds and requests delete_message(R, n), and when
send_text fails it stops there. No ban_member is requested and the registry has no record
for `P` afterwards (other entries are untouched). -/
theorem correct_answer_path (env : Env) (ctx : Context) (update : Update) (msg : Message)
    (data : CaptchaData) (w : World)
    (hctx : ctx.captchaFSM = true)
    (hmsg : update.Message = some msg)
    (htext : msg.Text ≠ "")
    (hrec : w.fsm.GetState msg.From.ID = some data)
    (hlive : w.fsm.IsExpired (env.Now w.tick) msg.From.ID = false)
    (hans : msg.Text = data.Answer) :
    let w' := HandleCaptchaTextAnswer env ctx update w
    let steps : List Event :=
      [.call (.DeleteMessage ⟨msg.ChatID, msg.ID⟩),
       .deleteState msg.From.ID,
       .call (.DeleteMessage ⟨msg.ChatID, data.PhotoMessageID⟩),
       .call (.SendMessage (successNotice ctx msg))]
    (∀ n, env.SendMessage (w.tick + 3) (successNotice ctx msg) = .ok n →
        w'.trace = w.trace ++ steps ++ [.go (.deleteAfter (10 * Second) ⟨msg.ChatID, n⟩)]
        ∧ ∀ w₂, (Goroutine.run env (.deleteAfter (10 * Second) ⟨msg.ChatID, n⟩) w₂).trace
            = w₂.trace ++ [.sleep (10 * Second), .call (.DeleteMessage ⟨msg.ChatID, n⟩)])
      ∧ (∀ e, env.SendMessage (w.tick + 3) (successNotice ctx msg) = .error e →
        w'.trace = w.trace ++ steps)
      ∧ (∀ p, bot.Call.BanChatMember p ∉ requests (newEvents w.trace w'))
      ∧ w'.fsm.GetState msg.From.ID = none
      ∧ ∀ Q, Q ≠ msg.From.ID → w'.fsm.GetState Q = w.fsm.GetState Q := by
  intro w' steps
  have hw : w' = _ := HandleCaptchaTextAnswer_correct env ctx update msg data w hctx hmsg htext
    hrec hlive hans
  refine ⟨fun n hn => ⟨?_, fun w₂ => ?_⟩, fun e he => ?_, fun p => ?_, ?_, fun Q hQ => ?_⟩
  · rw [hw, hn]; simp [steps]
  · simp [Goroutine.run, deleteAfter, World.deleteMessage, World.emit]
  · rw [hw, he]; simp [steps]
  · rw [hw]
    cases env.SendMessage (w.tick + 3) (successNotice ctx msg) <;>
      simp [newEvents, requests]
  · rw [hw]; simp [CaptchaFSM.GetState, CaptchaFSM.DeleteState]
  · rw [hw]; simp [CaptchaFSM.GetState, CaptchaFSM.DeleteState, hQ]

/-- Witness of `correct_answer_path`: user 10 answers `1234` in room 1 while holding the
sample record. -/
theorem correct_answer_path_witness :
    (HandleCaptchaTextAnswer sampleEnv sampleCtx (sampleText "1234") sampleWorld).trace
      = [.call (.DeleteMessage ⟨1, 7⟩), .deleteState 10, .call (.DeleteMessage ⟨1, 100⟩),
         .call (.SendMessage ⟨1, "captcha_success", "Markdown"⟩),
         .go (.deleteAfter 10000000000 ⟨1, 101⟩)] :=
  ((correct_answer_path sampleEnv sampleCtx (sampleText "1234")
    ⟨7, sampleUser, 1, "1234", none⟩ sampleData sampleWorld rfl rfl (by decide) rfl rfl
    rfl).1 101 rfl).1

/-- C2: wrong-answer path. When the sender `P` of a text message (identifier `k`, room `R`)
holds a non-expired record with answer `A` and image identifier `m`, and the non-empty text
differs from `A` (compared as it is, nothing trimmed), the handler does exactly, with `t` the
clock reading taken for the ban: delete_message(R, k), removal of the record,
ban_member(R, P, until = t + 600 s), delete_message(R, m), send_text(R, failure notice);
when send_text returns `n` it then starts the goroutine that sleeps 10 seconds and requests
delete_message(R, n). The registry has no record for `P` afterwards. -/
theorem wrong_answer_path (env : Env) (ctx : Context) (update : Update) (msg : Message)
    (data : CaptchaData) (w : World)
    (hctx : ctx.captchaFSM = true)
    (hmsg : update.Message = some msg)
    (htext : msg.Text ≠ "")
    (hrec : w.fsm.GetState msg.From.ID = some data)
    (hlive : w.fsm.IsExpired (env.Now w.tick) msg.From.ID = false)
    (hans : msg.Text ≠ data.Answer) :
    let w' := HandleCaptchaTextAnswer env ctx update w
    let t := env.Now (w.tick + 2)
    let steps : List Event :=
      [.call (.DeleteMessage ⟨msg.ChatID, msg.ID⟩),
       .deleteState msg.From.ID,
       .call (.BanChatMember ⟨msg.ChatID, msg.From.ID, t.Unix + 600, false⟩),
       .call (.DeleteMessage ⟨msg.ChatID, data.PhotoMessageID⟩),
       .call (.SendMessage (failureNotice ctx msg))]
    (∀ n, env.SendMessage (w.tick + 5) (failureNotice ctx msg) = .ok n →
        w'.trace = w.trace ++ steps ++ [.go (.deleteAfter (10 * Second) ⟨msg.ChatID, n⟩)]
        ∧ ∀ w₂, (Goroutine.run env (.deleteAfter (10 * Second) ⟨msg.ChatID, n⟩) w₂).trace
            = w₂.trace ++ [.sleep (10 * Second), .call (.DeleteMessage ⟨msg.ChatID, n⟩)])
      ∧ (∀ e, env.SendMessage (w.tick + 5) (failureNotice ctx msg) = .error e →
        w'.trace = w.trace ++ steps)
      ∧ w'.fsm.GetState msg.From.ID = none
      ∧ ∀ Q, Q ≠ msg.From.ID → w'.fsm.GetState Q = w.fsm.GetState Q := by
  intro w' t steps
  have hw : w' = _ := HandleCaptchaTextAnswer_wrong env ctx update msg data w hctx hmsg htext
    hrec hlive hans
  refine ⟨fun n hn => ⟨?_, fun w₂ => ?_⟩, fun e he => ?_, ?_, fun Q hQ => ?_⟩
  · rw [hw, hn]; simp [steps, t, unix_add_ten_minutes]
  · simp [Goroutine.run, deleteAfter, World.deleteMessage, World.emit]
  · rw [hw, he]; simp [steps, t, unix_add_ten_minutes]
  · rw [hw]; simp [CaptchaFSM.GetState, CaptchaFSM.DeleteState]
  · rw [hw]; simp [CaptchaFSM.GetState, CaptchaFSM.DeleteState, hQ]

/-- Witness of `wrong_answer_path`: user 10 answers ` 1234` (leading space) while the
expected answer is `1234`; the clock stands at second 1000, so the ban runs until 1600. -/
theorem wrong_answer_path_witness :
    (HandleCaptchaTextAnswer sampleEnv sampleCtx (sampleText " 1234") sampleWorld).trace
      = [.call (.DeleteMessage ⟨1, 7⟩), .deleteState 10,
         .call (.BanChatMember ⟨1, 10, 1600, false⟩), .call (.DeleteMessage ⟨1, 100⟩),
         .call (.SendMessage ⟨1, "captcha_failed", ""⟩),
         .go (.deleteAfter 10000000000 ⟨1, 101⟩)] :=
  ((wrong_answer_path sampleEnv sampleCtx (sampleText " 1234")
    ⟨7, sampleUser, 1, " 1234", none⟩ sampleData sampleWorld rfl rfl (by decide) rfl rfl
    (by decide)).1 101 rfl).1

/-- The timeout task on waking, in full (supports C3 and C6). If the registry has no record for `P`, or
`IsExpired(P)` is false, it requests nothing and leaves the registry as it is. Otherwise it
removes the record and requests ban_member(room, P, until = t + 600 s), `t` being the clock
reading taken for the ban; when the ban succeeds it goes on with
delete_message(room, challenge image) and send_text(room, timeout notice), and when that
returns `n` it sleeps 10 seconds and requests delete_message(room, n); when the ban fails
the task ends right after the ban request. -/
theorem timeout_task (env : Env) (chatID userID : Int) (username : String)
    (photoMsgID : Int) (w : World) :
    let w' := scheduleTimeoutCheck env chatID userID username photoMsgID w
    let t := env.Now (w.tick + 1)
    let ban : bot.BanChatMemberParams := ⟨chatID, userID, t.Unix + 600, false⟩
    let notice := timeoutNotice chatID username
    ((w.fsm.GetState userID = none ∨ w.fsm.IsExpired (env.Now w.tick) userID = false) →
        w'.trace = w.trace ∧ w'.fsm = w.fsm)
      ∧ (w.fsm.GetState userID ≠ none → w.fsm.IsExpired (env.Now w.tick) userID = true →
        w'.fsm = w.fsm.DeleteState userID
        ∧ (∀ b n, env.BanChatMember (w.tick + 2) ban = .ok b →
            env.SendMessage (w.tick + 4) notice = .ok n →
            w'.trace = w.trace ++
              [.deleteState userID, .call (.BanChatMember ban),
               .call (.DeleteMessage ⟨chatID, photoMsgID⟩), .call (.SendMessage notice),
               .sleep (10 * Second), .call (.DeleteMessage ⟨chatID, n⟩)])
        ∧ (∀ b e, env.BanChatMember (w.tick + 2) ban = .ok b →
            env.SendMessage (w.tick + 4) notice = .error e →
            w'.trace = w.trace ++
              [.deleteState userID, .call (.BanChatMember ban),
               .call (.DeleteMessage ⟨chatID, photoMsgID⟩), .call (.SendMessage notice)])
        ∧ (∀ e, env.BanChatMember (w.tick + 2) ban = .error e →
            w'.trace = w.trace ++ [.deleteState userID, .call (.BanChatMember ban)])) := by
  intro w' t ban notice
  have hban : timeoutBan env chatID userID (w.tick + 1) = ban := by
    simp [timeoutBan, ban, t, unix_add_ten_minutes]
  refine ⟨fun hidle => scheduleTimeoutCheck_idle env chatID userID username photoMsgID w hidle,
    fun hsome hexp => ?_⟩
  obtain ⟨data, hrec⟩ := Option.ne_none_iff_exists'.mp hsome
  obtain ⟨hf, ht⟩ := scheduleTimeoutCheck_fire env chatID userID username photoMsgID data w
    hrec hexp
  rw [hban] at ht
  refine ⟨hf, fun b n hb hn => ?_, fun b e hb he => ?_, fun e he => ?_⟩
  · rw [ht, hb, hn]; simp
  · rw [ht, hb, he]; simp
  · rw [ht, he]; simp

/-- Witness of `timeout_task`: the task of user 10 wakes at second 1031, one second after
the sample record expired; the ban runs until second 1631. -/
theorem timeout_task_witness :
    (scheduleTimeoutCheck lateEnv 1 10 "Ann" 100 sampleWorld).trace
      = [.deleteState 10, .call (.BanChatMember ⟨1, 10, 1631, false⟩),
         .call (.DeleteMessage ⟨1, 100⟩), .call (.SendMessage (timeoutNotice 1 "Ann")),
         .sleep 10000000000, .call (.DeleteMessage ⟨1, 101⟩)] :=
  ((timeout_task lateEnv 1 10 "Ann" 100 sampleWorld).2
    (by simp [sampleWorld, CaptchaFSM.GetState, CaptchaFSM.SetState, NewCaptchaFSM]) rfl).2.1
    true 101 rfl rfl

/-- C3 fails when ban_member fails: the task of user 10 wakes at second 1031 with the
expired sample record in the registry and a transport that refuses the ban; it requests the
ban and nothing else, neither the deletion of the challenge image nor a notice. -/
theorem timeout_task_stops_on_ban_failure :
    sampleWorld.fsm.GetState 10 = some sampleData
      ∧ sampleWorld.fsm.IsExpired (lateEnvBanFails.Now sampleWorld.tick) 10 = true
      ∧ requests (scheduleTimeoutCheck lateEnvBanFails 1 10 "Ann" 100 sampleWorld).trace
        = [.BanChatMember ⟨1, 10, 1631, false⟩] := by
  refine ⟨rfl, rfl, ?_⟩
  rfl

/-- The wrong-answer sibling of the timeout path: whatever ban_member answers, the answer
handler does the same. -/
theorem HandleCaptchaTextAnswer_ignores_ban_result (env : Env)
    (ban : Nat → bot.BanChatMemberParams → Except String Bool) (ctx : Context)
    (update : Update) (w : World) :
    HandleCaptchaTextAnswer { env with BanChatMember := ban } ctx update w
      = HandleCaptchaTextAnswer env ctx update w := by
  rfl

/-- C6 at the failing input: the timeout task of user 10 wakes at second 1031 with the expired
sample record in the registry. With a transport that accepts the ban, the requests after the
ban are the deletion of image 100, the timeout notice and the deletion of that notice; with
a transport that refuses the ban, the record is removed as well but no request follows the
ban. -/
theorem timeout_ban_failure_drops_requests :
    requests (scheduleTimeoutCheck lateEnv 1 10 "Ann" 100 sampleWorld).trace
        = [.BanChatMember ⟨1, 10, 1631, false⟩, .DeleteMessage ⟨1, 100⟩,
           .SendMessage (timeoutNotice 1 "Ann"), .DeleteMessage ⟨1, 101⟩]
      ∧ requests (scheduleTimeoutCheck lateEnvBanFails 1 10 "Ann" 100 sampleWorld).trace
        = [.BanChatMember ⟨1, 10, 1631, false⟩]
      ∧ (scheduleTimeoutCheck lateEnv 1 10 "Ann" 100 sampleWorld).fsm.GetState 10 = none
      ∧ (scheduleTimeoutCheck lateEnvBanFails 1 10 "Ann" 100 sampleWorld).fsm.GetState 10
        = none := by
  refine ⟨rfl, rfl, rfl, rfl⟩

/-- The bot hands a text message that is no command to the answer handler, with the
registry installed in the context. -/
theorem dispatch_text_message (env : Env) (resolve : Update → Option Localizer)
    (update : Update) (msg : Message) (w : World)
    (hmsg : update.Message = some msg)
    (hjoin : msg.NewChatMembers = none)
    (htext : msg.Text ≠ "")
    (hcmd : msg.Text.data.head? ≠ some '/') :
    telegrambot.dispatch env resolve update w
      = HandleCaptchaTextAnswer env ⟨resolve update, true⟩ update w := by
  have hlen : 0 < msg.Text.length := by
    generalize msg.Text = text at htext
    cases text with
    | mk data =>
      cases data with
      | nil => exact absurd rfl htext
      | cons c cs => simp [String.length]
  simp [telegrambot.dispatch, telegrambot.userRepositoryMiddleware,
    telegrambot.captchaFSMMiddleware, telegrambot.localizationMiddleware,
    telegrambot.LogMessageWithText, telegrambot.defaultHandler, hmsg, hjoin, htext, hcmd,
    hlen, Context.Background]

/-- The bot hands a message that reports new members to the join handler, with the registry
installed in the context. -/
theorem dispatch_join_message (env : Env) (resolve : Update → Option Localizer)
    (update : Update) (msg : Message) (members : List User) (w : World)
    (hmsg : update.Message = some msg)
    (hjoin : msg.NewChatMembers = some members) :
    telegrambot.dispatch env resolve update w
      = HandleNewChatMember env ⟨resolve update, true⟩ update w := by
  simp [telegrambot.dispatch, telegrambot.userRepositoryMiddleware,
    telegrambot.captchaFSMMiddleware, telegrambot.localizationMiddleware,
    telegrambot.LogMessageWithText, telegrambot.defaultHandler, hmsg, hjoin,
    Context.Background]

/-- C9: command ignored. For every registry state, an update whose message reports no new
member and whose text begins with `/` is dispatched without any transport request and
leaves the world (registry included) exactly as it was, whether or not the sender holds a
live record. -/
theorem command_ignored (env : Env) (resolve : Update → Option Localizer) (update : Update)
    (msg : Message) (w : World)
    (hmsg : update.Message = some msg)
    (hjoin : msg.NewChatMembers.getD [] = [])
    (hcmd : msg.Text.data.head? = some '/') :
    telegrambot.dispatch env resolve update w = w := by
  simp only [telegrambot.dispatch, telegrambot.userRepositoryMiddleware,
    telegrambot.captchaFSMMiddleware, telegrambot.localizationMiddleware,
    telegrambot.LogMessageWithText, telegrambot.defaultHandler, hmsg]
  cases hm : msg.NewChatMembers with
  | none => simp [hcmd]
  | some members =>
    have : members = [] := by simpa [hm] using hjoin
    simp [HandleNewChatMember, hmsg, hm, this]

/-- Witness of `command_ignored`: user 10 sends `/help` while holding the live sample
record. -/
theorem command_ignored_witness :
    sampleWorld.fsm.IsExpired (sampleEnv.Now 0) 10 = false
      ∧ telegrambot.dispatch sampleEnv (fun _ => none) (sampleText "/help") sampleWorld
        = sampleWorld :=
  ⟨rfl, command_ignored sampleEnv (fun _ => none) (sampleText "/help")
    ⟨7, sampleUser, 1, "/help", none⟩ sampleWorld rfl rfl rfl⟩

/-- C10: no live record, no effect. When the registry has no record for the sender of a text
message, or the sender's record is expired at the moment the handler checks it (`IsExpired`
is true in both cases), the handler requests nothing, not even the deletion of the text
message, and leaves the registry unchanged. -/
theorem no_live_record_no_effect (env : Env) (ctx : Context) (update : Update)
    (msg : Message) (w : World)
    (hmsg : update.Message = some msg)
    (hdead : w.fsm.IsExpired (env.Now w.tick) msg.From.ID = true) :
    (HandleCaptchaTextAnswer env ctx update w).trace = w.trace
      ∧ (HandleCaptchaTextAnswer env ctx update w).fsm = w.fsm := by
  simp only [HandleCaptchaTextAnswer, hmsg, CaptchaFSM.GetState]
  by_cases htext : msg.Text = ""
  · simp [htext]
  · by_cases hctx : ctx.captchaFSM = true
    · cases hst : w.fsm.states msg.From.ID with
      | none => simp [htext, hctx]
      | some data =>
        have hexp : (env.Now w.tick).After data.ExpiresAt = true := by
          simpa [CaptchaFSM.IsExpired, hst] using hdead
        simp [htext, hctx, World.isExpired, hst, hexp]
    · simp [htext, hctx]

/-- Witness of `no_live_record_no_effect`: user 10 sends the right answer at second 1031,
after the sample record expired. -/
theorem no_live_record_no_effect_witness :
    (HandleCaptchaTextAnswer lateEnv sampleCtx (sampleText "1234") sampleWorld).trace = []
      ∧ (HandleCaptchaTextAnswer lateEnv sampleCtx (sampleText "1234") sampleWorld).fsm
        = sampleWorld.fsm :=
  no_live_record_no_effect lateEnv sampleCtx (sampleText "1234")
    ⟨7, sampleUser, 1, "1234", none⟩ sampleWorld rfl rfl

/-- C4: join handling, record content. Let a join message in room `R` report the members
`pre ++ p :: post`, `p` not a bot and not reported again in `post`, and let `wp` be the world
when the turn of `p` comes. If generation returns `(image, A)`, send_photo returns `m` and
the clock then reads `t`, then after the event the registry's record for `p` is exactly
`(R, p, A, t + 30 s, m)` whatever record `p` had before, and in the turn of `p` the handler
does exactly: send_photo, storing of that record, start of the timeout task of `p`, in this
order, so the record is stored before the task is started. -/
theorem join_record_content (env : Env) (ctx : Context) (update : Update) (msg : Message)
    (pre post : List User) (p : User) (w : World) (image : List Nat) (A : String) (m : Int)
    (hctx : ctx.captchaFSM = true)
    (hmsg : update.Message = some msg)
    (hmem : msg.NewChatMembers = some (pre ++ p :: post))
    (hbot : p.IsBot = false)
    (hlast : ∀ q ∈ post, q.ID ≠ p.ID)
    (hgen : env.Generate (joinLoop env ctx msg pre w).tick = .ok ⟨image, A⟩)
    (hsend : env.SendPhoto ((joinLoop env ctx msg pre w).tick + 1)
      (challengePhoto ctx msg ⟨image, A⟩) = .ok m) :
    let wp := joinLoop env ctx msg pre w
    let t := env.Now (wp.tick + 2)
    let w' := HandleNewChatMember env ctx update w
    w'.fsm.GetState p.ID = some (joinRecord msg p A t m)
      ∧ (joinRecord msg p A t m).ExpiresAt.nsec = t.nsec + 30000000000
      ∧ ∃ later, w'.trace = wp.trace ++
          [.call (.SendPhoto (challengePhoto ctx msg ⟨image, A⟩)),
           .setState p.ID (joinRecord msg p A t m),
           .go (.scheduleTimeoutCheck msg.ChatID p.ID (GenerateMention msg.From) m)]
          ++ later := by
  intro wp t w'
  have hw : w' = joinLoop env ctx msg post
      (HandleNewChatMember.body env ctx msg msg.ChatID p wp) := by
    simp only [w', wp]
    rw [HandleNewChatMember_eq_joinLoop env ctx update msg _ w hmsg hmem, joinLoop_split]
  have hbody := body_ok env ctx msg p wp ⟨image, A⟩ m hctx hbot hgen hsend
  obtain ⟨⟨later, htrace⟩, hframe⟩ := joinLoop_frame env ctx msg post
    (HandleNewChatMember.body env ctx msg msg.ChatID p wp)
  refine ⟨?_, ?_, later, ?_⟩
  · rw [hw, hframe p.ID hlast, hbody]
    simp [CaptchaFSM.GetState, CaptchaFSM.SetState, joinRecord, t]
  · simp [joinRecord, Time.Add, Second]
  · rw [hw, htrace, hbody]
    simp [joinRecord, t]

/-- Witness of `join_record_content`: user 10 adds a bot, user 12 and then himself to room 1;
the record of user 12 replaces a stale one. -/
theorem join_record_content_witness :
    (HandleNewChatMember sampleEnv sampleCtx (sampleJoin [helperBot, carl, sampleUser])
        ⟨NewCaptchaFSM.SetState 12 sampleData, [], 0⟩).fsm.GetState 12
      = some ⟨1, 12, "1234", ⟨1030000000000⟩, 100⟩ :=
  (join_record_content sampleEnv sampleCtx (sampleJoin [helperBot, carl, sampleUser])
    ⟨8, sampleUser, 1, "", some [helperBot, carl, sampleUser]⟩ [helperBot] [sampleUser] carl
    ⟨NewCaptchaFSM.SetState 12 sampleData, [], 0⟩ [137, 80, 78, 71] "1234" 100
    rfl rfl rfl rfl (by decide) rfl rfl).1

/-- The events appended to a trace are those after it. -/
theorem newEvents_append (f : CaptchaFSM) (before evs : List Event) (n : Nat) :
    newEvents before ⟨f, before ++ evs, n⟩ = evs := by
  simp [newEvents]

/-- C5: join handling, when a record is created. In the turn of a reported member `p` (the
registry being installed in the context), the handler writes the registry entry of `p` if
and only if `p` is not a bot and both challenge generation and send_photo succeed; the entry
of `p` is then the new record and every other entry is as before; the entry of `p` differs
from the one before only then, and for a participant without an entry it differs exactly
then. For a bot, a failed generation or a failed send_photo the whole registry is left
exactly as it was and no goroutine (so no timeout task) is started; for a bot the world is
left as it was, so no transport call is requested; and a join event reporting only bots
requests nothing. -/
theorem join_record_created_iff (env : Env) (ctx : Context) (msg : Message) (p : User)
    (w : World) (hctx : ctx.captchaFSM = true) :
    let w' := HandleNewChatMember.body env ctx msg msg.ChatID p w
    ((∃ e ∈ newEvents w.trace w', e.writes p.ID = true) ↔ delivered env ctx msg p w)
      ∧ (∀ c m, p.IsBot = false → env.Generate w.tick = .ok c →
          env.SendPhoto (w.tick + 1) (challengePhoto ctx msg c) = .ok m →
          w'.fsm.GetState p.ID = some (joinRecord msg p c.Answer (env.Now (w.tick + 2)) m)
            ∧ ∀ q, q ≠ p.ID → w'.fsm.GetState q = w.fsm.GetState q)
      ∧ (w'.fsm.GetState p.ID ≠ w.fsm.GetState p.ID → delivered env ctx msg p w)
      ∧ (w.fsm.GetState p.ID = none →
          (w'.fsm.GetState p.ID ≠ w.fsm.GetState p.ID ↔ delivered env ctx msg p w))
      ∧ (¬ delivered env ctx msg p w →
          w'.fsm = w.fsm ∧ ∀ e ∈ newEvents w.trace w', e.isGo = false)
      ∧ (p.IsBot = true → w' = w)
      ∧ (∀ members : List User, (∀ q ∈ members, q.IsBot = true) →
          ∀ update : Update, update.Message = some { msg with NewChatMembers := some members } →
            HandleNewChatMember env ctx update w = w) := by
  intro w'
  have hold : ((∃ e ∈ newEvents w.trace w', e.writes p.ID = true) ↔ delivered env ctx msg p w)
      ∧ (¬ delivered env ctx msg p w →
          w'.fsm = w.fsm ∧ ∀ e ∈ newEvents w.trace w', e.isGo = false)
      ∧ (p.IsBot = true → w' = w)
      ∧ (∀ members : List User, (∀ q ∈ members, q.IsBot = true) →
          ∀ update : Update, update.Message = some { msg with NewChatMembers := some members } →
            HandleNewChatMember env ctx update w = w) := by
    have hbots : ∀ members : List User, (∀ q ∈ members, q.IsBot = true) →
        ∀ v : World, ∀ msg' : Message, joinLoop env ctx msg' members v = v := by
      intro members
      induction members with
      | nil => intro _ v msg'; rfl
      | cons q rest ih =>
        intro hall v msg'
        have hstep : joinLoop env ctx msg' (q :: rest) v
            = joinLoop env ctx msg' rest (HandleNewChatMember.body env ctx msg' msg'.ChatID q v) :=
          rfl
        rw [hstep, body_bot env ctx msg' q v (hall q (List.mem_cons_self _ _))]
        exact ih (fun r hr => hall r (List.mem_cons_of_mem _ hr)) v msg'
    have hlast : ∀ members : List User, (∀ q ∈ members, q.IsBot = true) →
        ∀ update : Update, update.Message = some { msg with NewChatMembers := some members } →
          HandleNewChatMember env ctx update w = w := by
      intro members hall update hupd
      rw [HandleNewChatMember_eq_joinLoop env ctx update _ members w hupd rfl]
      exact hbots members hall w _
    cases hbot : p.IsBot with
    | true =>
      have hw : w' = w := body_bot env ctx msg p w hbot
      refine ⟨?_, fun _ => ?_, fun _ => hw, hlast⟩
      · rw [hw]; simp [newEvents, delivered, hbot]
      · rw [hw]; simp [newEvents]
    | false =>
      cases hgen : env.Generate w.tick with
      | error e =>
        have hw : w' = _ := body_generate_error env ctx msg p w e hbot hgen
        refine ⟨?_, fun _ => ?_, fun h => absurd h (by simp), hlast⟩
        · rw [hw]; simp [newEvents, delivered, hgen]
        · rw [hw]; simp [newEvents]
      | ok c =>
        cases hsend : env.SendPhoto (w.tick + 1) (challengePhoto ctx msg c) with
        | error e =>
          have hw : w' = _ := body_sendPhoto_error env ctx msg p w c e hbot hgen hsend
          refine ⟨?_, fun _ => ?_, fun h => absurd h (by simp), hlast⟩
          · rw [hw, newEvents_append]; simp [delivered, hgen, hsend, Event.writes]
          · rw [hw, newEvents_append]; simp [Event.isGo]
        | ok m =>
          have hw : w' = _ := body_ok env ctx msg p w c m hctx hbot hgen hsend
          have hd : delivered env ctx msg p w := ⟨hbot, c, m, hgen, hsend⟩
          refine ⟨?_, fun h => absurd hd h, fun h => absurd h (by simp), hlast⟩
          rw [hw, newEvents_append]
          simp [hd, Event.writes]
  obtain ⟨h₁, h₂, h₃, h₄⟩ := hold
  have hrec : ∀ c m, p.IsBot = false → env.Generate w.tick = .ok c →
      env.SendPhoto (w.tick + 1) (challengePhoto ctx msg c) = .ok m →
      w'.fsm.GetState p.ID = some (joinRecord msg p c.Answer (env.Now (w.tick + 2)) m)
        ∧ ∀ q, q ≠ p.ID → w'.fsm.GetState q = w.fsm.GetState q := by
    intro c m hbot hgen hsend
    have hw : w' = _ := body_ok env ctx msg p w c m hctx hbot hgen hsend
    rw [hw]
    refine ⟨by simp [CaptchaFSM.GetState, CaptchaFSM.SetState, joinRecord], fun q hq => ?_⟩
    simp [CaptchaFSM.GetState, CaptchaFSM.SetState, hq]
  have hchg : w'.fsm.GetState p.ID ≠ w.fsm.GetState p.ID → delivered env ctx msg p w := by
    intro hne
    by_contra hnd
    exact hne (by rw [(h₂ hnd).1])
  refine ⟨h₁, hrec, hchg, fun hnone => ⟨hchg, ?_⟩, h₂, h₃, h₄⟩
  rintro ⟨hbot, c, m, hgen, hsend⟩
  rw [(hrec c m hbot hgen hsend).1, hnone]
  simp

/-- Witness of `join_record_created_iff`: the turn of user 12 with the sample environment
and an empty registry writes the entry of user 12, which is then the new record. -/
theorem join_record_created_iff_witness :
    sampleCtx.captchaFSM = true
      ∧ delivered sampleEnv sampleCtx ⟨8, sampleUser, 1, "", some [carl]⟩ carl
          ⟨NewCaptchaFSM, [], 0⟩
      ∧ (∃ e ∈ newEvents [] (HandleNewChatMember.body sampleEnv sampleCtx
            ⟨8, sampleUser, 1, "", some [carl]⟩ 1 carl ⟨NewCaptchaFSM, [], 0⟩),
          e.writes 12 = true)
      ∧ (HandleNewChatMember.body sampleEnv sampleCtx
            ⟨8, sampleUser, 1, "", some [carl]⟩ 1 carl ⟨NewCaptchaFSM, [], 0⟩).fsm.GetState 12
          = some ⟨1, 12, "1234", ⟨1030000000000⟩, 100⟩
      ∧ (HandleNewChatMember.body sampleEnv sampleCtx
            ⟨8, sampleUser, 1, "", some [carl]⟩ 1 carl ⟨NewCaptchaFSM, [], 0⟩).fsm.GetState 12
          ≠ NewCaptchaFSM.GetState 12 :=
  have hd : delivered sampleEnv sampleCtx ⟨8, sampleUser, 1, "", some [carl]⟩ carl
      ⟨NewCaptchaFSM, [], 0⟩ := ⟨rfl, ⟨[137, 80, 78, 71], "1234"⟩, 100, rfl, rfl⟩
  ⟨rfl, hd,
    (join_record_created_iff sampleEnv sampleCtx ⟨8, sampleUser, 1, "", some [carl]⟩ carl
      ⟨NewCaptchaFSM, [], 0⟩ rfl).1.mpr hd,
    ((join_record_created_iff sampleEnv sampleCtx ⟨8, sampleUser, 1, "", some [carl]⟩ carl
      ⟨NewCaptchaFSM, [], 0⟩ rfl).2.1 ⟨[137, 80, 78, 71], "1234"⟩ 100 rfl rfl rfl).1,
    ((join_record_created_iff sampleEnv sampleCtx ⟨8, sampleUser, 1, "", some [carl]⟩ carl
      ⟨NewCaptchaFSM, [], 0⟩ rfl).2.2.2.1 rfl).mpr hd⟩

/-- C7 at the failing input: user 10 (Ann) adds user 12 (Carl) to room 1. The caption of the
challenge posted for Carl is the welcome text with the mention of Ann, the sender of the join
message, where the mention of Carl is expected; the timeout task announcing the ban of
user 12 is given the mention of Ann as well. -/
theorem welcome_caption_mentions_sender :
    (HandleNewChatMember sampleEnv localizedCtx (sampleJoin [carl]) ⟨NewCaptchaFSM, [], 0⟩).trace
        = [.call (.SendPhoto ⟨1, [137, 80, 78, 71],
              "Welcome, [Ann](tg://user?id=10)!\n\nType the digits.", "Markdown"⟩),
           .setState 12 ⟨1, 12, "1234", ⟨1030000000000⟩, 100⟩,
           .go (.scheduleTimeoutCheck 1 12 "[Ann](tg://user?id=10)" 100)]
      ∧ welcomeCaption localizedCtx carl
        = "Welcome, [Carl](tg://user?id=12)!\n\nType the digits." := by
  refine ⟨?_, ?_⟩ <;> decide

/-! ## The registry as a map -/

/-- Two registries with the same entries are the same registry. -/
theorem CaptchaFSM_eq_of_states (f g : CaptchaFSM) (h : ∀ k, f.states k = g.states k) :
    f = g := by
  cases f; cases g
  simp only [CaptchaFSM.mk.injEq]
  exact funext h

/-- C11: `SetState` is a point update. After `SetState(P, r)`, `GetState(P)` returns
`(r, true)` whatever the entry of `P` was; after `SetState(P, r1); SetState(P, r2)` it
returns `(r2, true)`; and `GetState(Q)` for `Q ≠ P` returns what it returned before. -/
theorem setState_point_update (f : CaptchaFSM) (P Q : Int) (r r₁ r₂ : CaptchaData)
    (hQ : Q ≠ P) :
    (f.SetState P r).GetState P = some r
      ∧ ((f.SetState P r₁).SetState P r₂).GetState P = some r₂
      ∧ (f.SetState P r).GetState Q = f.GetState Q := by
  simp [CaptchaFSM.SetState, CaptchaFSM.GetState, hQ]

/-- Witness of `setState_point_update`: user 12 gets a record while user 10 holds the sample
record. -/
theorem setState_point_update_witness :
    ((NewCaptchaFSM.SetState 10 sampleData).SetState 12 ⟨1, 12, "0000", ⟨5⟩, 3⟩).GetState 12
        = some ⟨1, 12, "0000", ⟨5⟩, 3⟩
      ∧ (((NewCaptchaFSM.SetState 10 sampleData).SetState 12 ⟨1, 12, "0000", ⟨5⟩, 3⟩).SetState 12
          ⟨1, 12, "0001", ⟨6⟩, 4⟩).GetState 12 = some ⟨1, 12, "0001", ⟨6⟩, 4⟩
      ∧ ((NewCaptchaFSM.SetState 10 sampleData).SetState 12 ⟨1, 12, "0000", ⟨5⟩, 3⟩).GetState 10
        = (NewCaptchaFSM.SetState 10 sampleData).GetState 10 :=
  setState_point_update (NewCaptchaFSM.SetState 10 sampleData) 12 10 ⟨1, 12, "0000", ⟨5⟩, 3⟩
    ⟨1, 12, "0000", ⟨5⟩, 3⟩ ⟨1, 12, "0001", ⟨6⟩, 4⟩ (by decide)

/-- A call that is no `SetState` for `P` keeps an absent entry of `P` absent. -/
theorem apply_keeps_absent (op : Op) (f : CaptchaFSM) (P : Int)
    (hop : op.isSetOf P = false) (habs : f.GetState P = none) :
    (op.apply f).GetState P = none := by
  simp only [CaptchaFSM.GetState] at habs
  cases op with
  | set userID data =>
    have hne : ¬ P = userID := fun h => by simp [Op.isSetOf, h] at hop
    simp [Op.apply, CaptchaFSM.SetState, CaptchaFSM.GetState, hne, habs]
  | get userID => simpa [Op.apply, CaptchaFSM.GetState] using habs
  | delete userID =>
    simp only [Op.apply, CaptchaFSM.DeleteState, CaptchaFSM.GetState]
    split <;> simp [habs]
  | isExpired now userID => simpa [Op.apply, CaptchaFSM.GetState] using habs
  | sweep now => simp [Op.apply, CaptchaFSM.CleanupExpired, CaptchaFSM.GetState, habs]

/-- A sequence of calls without a `SetState` for `P` keeps an absent entry of `P` absent. -/
theorem run_keeps_absent (ops : List Op) (P : Int) :
    ∀ f : CaptchaFSM, (∀ op ∈ ops, op.isSetOf P = false) → f.GetState P = none →
      (f.run ops).GetState P = none := by
  induction ops with
  | nil => intro f _ habs; exact habs
  | cons op rest ih =>
    intro f hops habs
    have hstep : f.run (op :: rest) = (op.apply f).run rest := rfl
    rw [hstep]
    exact ih (op.apply f) (fun o ho => hops o (List.mem_cons_of_mem _ ho))
      (apply_keeps_absent op f P (hops op (List.mem_cons_self _ _)) habs)

/-- C12: `DeleteState` is a point removal. After `DeleteState(P)`, `GetState(P)` returns
absent, and still does after any further sequence of registry calls (set, get, delete,
is_expired, sweep) that contains no `SetState(P, …)`; `GetState(Q)` for `Q ≠ P` returns what
it returned before; deleting an absent participant leaves the registry as it is, and deleting
twice gives the same registry as deleting once. -/
theorem deleteState_point_removal (f : CaptchaFSM) (P Q : Int) (ops : List Op)
    (hQ : Q ≠ P) (hops : ∀ op ∈ ops, op.isSetOf P = false) :
    (f.DeleteState P).GetState P = none
      ∧ ((f.DeleteState P).run ops).GetState P = none
      ∧ (f.DeleteState P).GetState Q = f.GetState Q
      ∧ (f.GetState P = none → f.DeleteState P = f)
      ∧ (f.DeleteState P).DeleteState P = f.DeleteState P := by
  have h₁ : (f.DeleteState P).GetState P = none := by
    simp [CaptchaFSM.DeleteState, CaptchaFSM.GetState]
  refine ⟨h₁, run_keeps_absent ops P _ hops h₁, ?_, fun habs => ?_, ?_⟩
  · simp [CaptchaFSM.DeleteState, CaptchaFSM.GetState, hQ]
  · apply CaptchaFSM_eq_of_states
    intro k
    simp only [CaptchaFSM.DeleteState]
    split
    · next h => rw [h]; exact habs.symm
    · rfl
  · apply CaptchaFSM_eq_of_states
    intro k
    simp only [CaptchaFSM.DeleteState]
    split <;> rfl

/-- Witness of `deleteState_point_removal`: user 10 is deleted, then user 12 is set, the
registry is swept and user 10 is deleted again. -/
theorem deleteState_point_removal_witness :
    (((NewCaptchaFSM.SetState 10 sampleData).DeleteState 10).run
        [.set 12 sampleData, .sweep ⟨0⟩, .get 10, .delete 10]).GetState 10 = none :=
  (deleteState_point_removal (NewCaptchaFSM.SetState 10 sampleData) 10 12
    [.set 12 sampleData, .sweep ⟨0⟩, .get 10, .delete 10] (by decide) (by decide)).2.1

/-- The loop of `CleanupExpired`, entry by entry: a visited key loses its entry when it is
expired, every other entry stays. -/
theorem cleanupExpiredLoop_states (keys : List Int) (now : Time) :
    ∀ (g : CaptchaFSM) (k : Int),
      (CaptchaFSM.CleanupExpiredLoop keys now g).states k =
        if k ∈ keys then (g.CleanupExpired now).states k else g.states k := by
  induction keys with
  | nil => intro g k; simp [CaptchaFSM.CleanupExpiredLoop]
  | cons a rest ih =>
    intro g k
    have hstep : CaptchaFSM.CleanupExpiredLoop (a :: rest) now g
        = CaptchaFSM.CleanupExpiredLoop rest now
            (match g.states a with
              | none => g
              | some data => if now.After data.ExpiresAt then g.DeleteState a else g) := rfl
    rw [hstep, ih]
    cases ha : g.states a with
    | none =>
      by_cases hk : k = a
      · subst hk; simp [CaptchaFSM.CleanupExpired, ha]
      · simp [hk]
    | some data =>
      by_cases hexp : now.After data.ExpiresAt = true
      · by_cases hk : k = a
        · subst hk
          simp [hexp, CaptchaFSM.CleanupExpired, CaptchaFSM.DeleteState, ha]
        · simp [hexp, hk, CaptchaFSM.CleanupExpired, CaptchaFSM.DeleteState]
      · by_cases hk : k = a
        · subst hk; simp [hexp, CaptchaFSM.CleanupExpired, ha]
        · simp [hexp, hk]

/-- C13: sweep is a filter. After `CleanupExpired` at instant `t`, the entry of `k` is a
record `d` exactly when it was `d` before and the expiry of `d` is not in the past at `t`
(not strictly before `t`); so every kept record is unchanged and no record whose expiry is
in the past is kept. If the expiry of every record is in the past at `t`, the registry is
empty afterwards. The loop over the keys of the map gives this registry for every order in
which the keys come, as long as every key of the map comes. -/
theorem cleanupExpired_filter (f : CaptchaFSM) (t : Time) :
    (∀ k d, (f.CleanupExpired t).GetState k = some d
        ↔ f.GetState k = some d ∧ ¬ d.ExpiresAt.nsec < t.nsec)
      ∧ ((∀ k d, f.GetState k = some d → d.ExpiresAt.nsec < t.nsec) →
          f.CleanupExpired t = NewCaptchaFSM)
      ∧ (∀ keys : List Int, (∀ k, f.GetState k ≠ none → k ∈ keys) →
          CaptchaFSM.CleanupExpiredLoop keys t f = f.CleanupExpired t) := by
  refine ⟨fun k d => ?_, fun hall => ?_, fun keys hkeys => ?_⟩
  · simp only [CaptchaFSM.CleanupExpired, CaptchaFSM.GetState, Time.After]
    cases hk : f.states k with
    | none => simp
    | some d' =>
      by_cases hexp : d'.ExpiresAt.nsec < t.nsec
      · simp only [hexp, decide_True, if_true]
        constructor
        · intro h; cases h
        · rintro ⟨h, hn⟩
          cases h
          exact absurd hexp hn
      · simp only [hexp, decide_False, Bool.false_eq_true, if_false]
        constructor
        · intro h; cases h; exact ⟨rfl, hexp⟩
        · rintro ⟨h, _⟩; exact h
  · apply CaptchaFSM_eq_of_states
    intro k
    simp only [CaptchaFSM.CleanupExpired, NewCaptchaFSM, Time.After]
    cases hk : f.states k with
    | none => rfl
    | some d => simp [hall k d hk]
  · apply CaptchaFSM_eq_of_states
    intro k
    rw [cleanupExpiredLoop_states]
    by_cases hmem : k ∈ keys
    · simp [hmem]
    · have hnone : f.states k = none := by
        by_contra h
        exact hmem (hkeys k h)
      simp [hmem, CaptchaFSM.CleanupExpired, hnone]

/-- Witness of `cleanupExpired_filter`: the sample record (expiry second 1030) is swept at
second 1031, when it is the only record. -/
theorem cleanupExpired_filter_witness :
    (NewCaptchaFSM.SetState 10 sampleData).CleanupExpired ⟨1031000000000⟩ = NewCaptchaFSM :=
  (cleanupExpired_filter (NewCaptchaFSM.SetState 10 sampleData) ⟨1031000000000⟩).2.1
    (fun k d h => by
      simp only [CaptchaFSM.GetState, CaptchaFSM.SetState, NewCaptchaFSM] at h
      split at h
      · cases h; decide
      · cases h)

/-! ## Mentions and escaping -/

/-- One `strings.ReplaceAll` of the escaping, on the characters of the text. -/
theorem replaceAll_escape_data (l : List Char) (c : Char) :
    (ReplaceAll ⟨l⟩ c ("\\" ++ String.singleton c)).data
      = l.flatMap fun x => if x = c then ['\\', c] else [x] := by
  simp [ReplaceAll, String.singleton]

/-- Successive replacements for distinct characters, none of them the backslash, amount to
one pass that escapes exactly these characters. -/
theorem foldl_replaceAll_data (cs : List Char) :
    ∀ l : List Char, '\\' ∉ cs → cs.Nodup →
      (cs.foldl (fun text char => ReplaceAll text char ("\\" ++ String.singleton char)) ⟨l⟩).data
        = l.flatMap fun c => if c ∈ cs then ['\\', c] else [c] := by
  induction cs with
  | nil => intro l _ _; simp
  | cons c₀ cs ih =>
    intro l hbs hnd
    have hbs' : '\\' ∉ cs := fun h => hbs (List.mem_cons_of_mem _ h)
    have hc₀ : c₀ ≠ '\\' := fun h => hbs (h ▸ List.mem_cons_self _ _)
    have hnotin : c₀ ∉ cs := (List.nodup_cons.mp hnd).1
    have hnd' : cs.Nodup := (List.nodup_cons.mp hnd).2
    have hstep : (ReplaceAll ⟨l⟩ c₀ ("\\" ++ String.singleton c₀))
        = ⟨l.flatMap fun x => if x = c₀ then ['\\', c₀] else [x]⟩ := by
      simp [ReplaceAll, String.singleton]
    rw [List.foldl_cons, hstep, ih _ hbs' hnd', List.flatMap_assoc]
    congr 1
    funext x
    by_cases hx : x = c₀
    · subst hx
      simp [hbs', hnotin]
    · simp [hx]

/-- The length of the one-pass result: one more character for every escaped one. -/
theorem flatMap_escape_length (cs l : List Char) :
    (l.flatMap fun c => if c ∈ cs then ['\\', c] else [c]).length
      = l.length + l.countP (fun c => decide (c ∈ cs)) := by
  induction l with
  | nil => simp
  | cons a rest ih =>
    rw [List.flatMap_cons, List.length_append, ih]
    by_cases ha : a ∈ cs
    · simp [ha, List.countP_cons]; omega
    · simp [ha, List.countP_cons]; omega

/-- C17: escaping. For every string `s`, `EscapeMarkdown(s)`, computed by 18 successive
`strings.ReplaceAll`, is the string of the single left-to-right pass that puts one backslash
before each of the 18 special characters and copies every other character; there are 18
distinct special characters, the backslash is not one of them, and the result is longer than
`s` by the number of special characters in `s`. -/
theorem escapeMarkdown_eq_single_pass (s : String) :
    EscapeMarkdown s = escapeSinglePass s
      ∧ markdownSpecials.length = 18 ∧ markdownSpecials.Nodup ∧ '\\' ∉ markdownSpecials
      ∧ (EscapeMarkdown s).length
        = s.length + s.data.countP (fun c => decide (c ∈ markdownSpecials)) := by
  have hbs : '\\' ∉ markdownSpecials := by decide
  have hnd : markdownSpecials.Nodup := by decide
  have heq : EscapeMarkdown s = escapeSinglePass s := by
    have h := foldl_replaceAll_data markdownSpecials s.data hbs hnd
    cases s with
    | mk l =>
      apply String.ext
      simpa [EscapeMarkdown, escapeSinglePass, markdownSpecials] using h
  refine ⟨heq, by decide, hnd, hbs, ?_⟩
  rw [heq]
  simp only [escapeSinglePass, String.length]
  exact flatMap_escape_length markdownSpecials s.data

/-- Escaping the empty string gives the empty string. -/
theorem escapeMarkdown_empty : EscapeMarkdown "" = "" := by decide

/-- C16: mention rendering. With `F` and `L` the escaped first and last name and the
identifier printed in decimal: `[F L](tg://user?id=id)` when first and last name are both
non-empty; `[F](tg://user?id=id)` when the first name is non-empty and the last name empty;
`[@F](tg://user?id=id)` when the first name is empty and the username is not, which is
`[@](tg://user?id=id)` since `F` is then empty; `[User](tg://user?id=id)` when first name and
username are both empty. -/
theorem generateMention_cases (user : User) :
    (user.FirstName ≠ "" → user.LastName ≠ "" →
        GenerateMention user
          = "[" ++ EscapeMarkdown user.FirstName ++ " " ++ EscapeMarkdown user.LastName
              ++ "](tg://user?id=" ++ toString user.ID ++ ")")
      ∧ (user.FirstName ≠ "" → user.LastName = "" →
        GenerateMention user
          = "[" ++ EscapeMarkdown user.FirstName ++ "](tg://user?id=" ++ toString user.ID
              ++ ")")
      ∧ (user.FirstName = "" → user.Username ≠ "" →
        GenerateMention user
            = "[@" ++ EscapeMarkdown user.FirstName ++ "](tg://user?id=" ++ toString user.ID
                ++ ")"
          ∧ GenerateMention user = "[@" ++ "" ++ "](tg://user?id=" ++ toString user.ID ++ ")")
      ∧ (user.FirstName = "" → user.Username = "" →
        GenerateMention user = "[User](tg://user?id=" ++ toString user.ID ++ ")") := by
  refine ⟨fun hf hl => ?_, fun hf hl => ?_, fun hf hu => ?_, fun hf hu => ?_⟩
  · simp [GenerateMention, hf, hl]
  · simp [GenerateMention, hf, hl]
  · have h : GenerateMention user
        = "[@" ++ EscapeMarkdown user.FirstName ++ "](tg://user?id=" ++ toString user.ID
            ++ ")" := by
      simp [GenerateMention, hf, hu]
    refine ⟨h, ?_⟩
    rw [h, hf, escapeMarkdown_empty]
  · simp [GenerateMention, hf, hu]

/-- Witness of `generateMention_cases`: a user with first and last name, one of them with a
character to escape, and a negative identifier. -/
theorem generateMention_cases_witness :
    GenerateMention ⟨-42, false, "J.R.", "Doe", ""⟩ = "[J\\.R\\. Doe](tg://user?id=-42)" :=
  ((generateMention_cases ⟨-42, false, "J.R.", "Doe", ""⟩).1 (by decide) (by decide)).trans
    (by decide)

/-! ## The challenge generator -/

open captcha


/-- The pixels of a point, spelled out. -/
theorem stroke_mem (x y a b : Int) :
    (a, b) ∈ drawLine.stroke x y ↔
      (0 ≤ x ∧ x < 200 ∧ 0 ≤ y ∧ y < 80)
        ∧ ((a = x ∧ b = y) ∨ (a = x + 1 ∧ b = y ∧ x + 1 < 200)
          ∨ (a = x ∧ b = y + 1 ∧ y + 1 < 80)) := by
  unfold drawLine.stroke
  simp only [captchaWidth, captchaHeight]
  by_cases hin : x ≥ 0 ∧ x < 200 ∧ y ≥ 0 ∧ y < 80
  · rw [if_pos hin]
    obtain ⟨h1, h2, h3, h4⟩ := hin
    by_cases he : x + 1 < 200 <;> by_cases hs : y + 1 < 80 <;>
      simp [he, hs, h1, h2, h3, h4]
  · rw [if_neg hin]
    simp only [List.not_mem_nil, false_iff]
    rintro ⟨⟨h1, h2, h3, h4⟩, _⟩
    exact hin ⟨h1, h2, h3, h4⟩

/-- Every pixel of a point is on the canvas. -/
theorem stroke_on_canvas (x y a b : Int) (h : (a, b) ∈ drawLine.stroke x y) :
    0 ≤ a ∧ a < 200 ∧ 0 ≤ b ∧ b < 80 := by
  rw [stroke_mem] at h
  obtain ⟨⟨h1, h2, h3, h4⟩, h | h | h⟩ := h <;> omega

/-- The colour of a pixel after `img.Set(x, y, c)`. -/
theorem set_At (img : image.RGBA) (x y : Int) (c : color.RGBA) (a b : Int) :
    (img.Set x y c).At a b
      = if (0 ≤ x ∧ x < 200 ∧ 0 ≤ y ∧ y < 80) ∧ a = x ∧ b = y then c else img.At a b := by
  unfold image.RGBA.Set
  simp only [captchaWidth, captchaHeight]
  by_cases hin : 0 ≤ x ∧ x < 200 ∧ 0 ≤ y ∧ y < 80
  · simp [hin]
  · simp [hin]

/-- The colour of a pixel after one iteration of the loop of `drawLine`. -/
theorem plot_At_eq (img : image.RGBA) (x y : Int) (col : color.RGBA) (a b : Int) :
    (drawLine.plot img x y col).At a b =
      if (0 ≤ x ∧ x < 200 ∧ 0 ≤ y ∧ y < 80)
        ∧ ((a = x ∧ b = y) ∨ (a = x + 1 ∧ b = y ∧ x + 1 < 200)
          ∨ (a = x ∧ b = y + 1 ∧ y + 1 < 80)) then col else img.At a b := by
  unfold drawLine.plot
  simp only [captchaWidth, captchaHeight]
  by_cases hin : x ≥ 0 ∧ x < 200 ∧ y ≥ 0 ∧ y < 80
  · rw [if_pos hin]
    obtain ⟨h1, h2, h3, h4⟩ := hin
    have hge1 : x ≥ 0 := h1
    by_cases he : x + 1 < 200 <;> by_cases hs : y + 1 < 80
    all_goals
      simp only [he, hs, if_true, if_false, set_At]
      by_cases ha : a = x <;> by_cases hb : b = y <;>
        by_cases ha' : a = x + 1 <;> by_cases hb' : b = y + 1
      all_goals first
        | (exfalso; omega)
        | (have e1 : x + 1 ≠ x := by omega
           have e2 : y + 1 ≠ y := by omega
           have e3 : x ≠ x + 1 := by omega
           have e4 : y ≠ y + 1 := by omega
           have p1 : 0 ≤ x + 1 := by omega
           have p2 : 0 ≤ y + 1 := by omega
           simp [ha, hb, ha', hb', h1, h2, h3, h4, he, hs, e1, e2, e3, e4, p1, p2])
  · rw [if_neg hin]
    have hin' : ¬ (0 ≤ x ∧ x < 200 ∧ 0 ≤ y ∧ y < 80) := hin
    simp [hin']

/-- One iteration of the loop of `drawLine` sets the pixels of its point and no other. -/
theorem plot_At (img : image.RGBA) (x y : Int) (col : color.RGBA) (a b : Int) :
    ((a, b) ∈ drawLine.stroke x y → (drawLine.plot img x y col).At a b = col)
      ∧ ((a, b) ∉ drawLine.stroke x y → (drawLine.plot img x y col).At a b = img.At a b) := by
  rw [stroke_mem, plot_At_eq]
  constructor
  · intro h; rw [if_pos h]
  · intro h; rw [if_neg h]

/-- The iterations for a list of points set the pixels of these points and no other. -/
theorem paint_At (col : color.RGBA) (a b : Int) :
    ∀ (pts : List (Int × Int)) (img : image.RGBA),
      ((∃ p ∈ pts, (a, b) ∈ drawLine.stroke p.1 p.2) →
          (drawLine.paint col pts img).At a b = col)
        ∧ ((¬ ∃ p ∈ pts, (a, b) ∈ drawLine.stroke p.1 p.2) →
          (drawLine.paint col pts img).At a b = img.At a b) := by
  intro pts
  induction pts with
  | nil =>
    intro img
    exact ⟨fun ⟨p, hp, _⟩ => absurd hp (List.not_mem_nil p), fun _ => rfl⟩
  | cons q rest ih =>
    intro img
    have hstep : drawLine.paint col (q :: rest) img
        = drawLine.paint col rest (drawLine.plot img q.1 q.2 col) := rfl
    rw [hstep]
    obtain ⟨ih₁, ih₂⟩ := ih (drawLine.plot img q.1 q.2 col)
    obtain ⟨hp₁, hp₂⟩ := plot_At img q.1 q.2 col a b
    constructor
    · rintro ⟨p, hp, hmem⟩
      by_cases hrest : ∃ p ∈ rest, (a, b) ∈ drawLine.stroke p.1 p.2
      · exact ih₁ hrest
      · rw [ih₂ hrest]
        rcases List.mem_cons.mp hp with h | h
        · subst h; exact hp₁ hmem
        · exact absurd ⟨p, h, hmem⟩ hrest
    · intro hnone
      have hrest : ¬ ∃ p ∈ rest, (a, b) ∈ drawLine.stroke p.1 p.2 :=
        fun ⟨p, hp, hmem⟩ => hnone ⟨p, List.mem_cons_of_mem _ hp, hmem⟩
      rw [ih₂ hrest]
      exact hp₂ (fun hmem => hnone ⟨q, List.mem_cons_self _ _, hmem⟩)

/-- The loop of `drawLine` gives the image painted along the points it visits, and runs out
of fuel exactly when the visit does. -/
theorem loop_eq_paint (dx dy sx sy x2 y2 : Int) (col : color.RGBA) :
    ∀ (fuel : Nat) (img : image.RGBA) (x1 y1 err : Int),
      drawLine.loop dx dy sx sy x2 y2 col fuel img x1 y1 err
        = (drawLine.trail dx dy sx sy x2 y2 fuel x1 y1 err).map
            fun pts => drawLine.paint col pts img := by
  intro fuel
  induction fuel with
  | zero => intro img x1 y1 err; rfl
  | succ fuel ih =>
    intro img x1 y1 err
    rw [drawLine.loop, drawLine.trail]
    by_cases hend : x1 = x2 ∧ y1 = y2
    · rw [if_pos hend, if_pos hend]
      rfl
    · rw [if_neg hend, if_neg hend]
      simp only []
      rw [ih]
      generalize drawLine.trail dx dy sx sy x2 y2 fuel _ _ _ = t
      cases t <;> rfl

/-- The method `drawLine` gives the image painted along the points it visits. -/
theorem drawLine_eq_paint (fuel : Nat) (img : image.RGBA) (x1 y1 x2 y2 : Int)
    (col : color.RGBA) :
    drawLine fuel img x1 y1 x2 y2 col
      = (drawLine.visited fuel x1 y1 x2 y2).map fun pts => drawLine.paint col pts img := by
  unfold drawLine drawLine.visited
  exact loop_eq_paint _ _ _ _ _ _ _ _ _ _ _ _

/-- On the track of a line the longer axis has the most steps left. -/
theorem onTrack_major (dx dy sx sy x2 y2 x1 y1 err rx ry : Int)
    (h : drawLine.onTrack dx dy sx sy x2 y2 x1 y1 err rx ry) :
    (dy < dx → ry ≤ rx) ∧ (dx < dy → rx ≤ ry) ∧ (dx = dy → rx = ry) := by
  obtain ⟨⟨hrx, hrx'⟩, ⟨hry, hry'⟩, -, -, -, hb⟩ := h
  refine ⟨fun hlt => ?_, fun hlt => ?_, fun heq => ?_⟩
  · rcases hb with ⟨-, h1, -⟩ | ⟨h0, -, -⟩ | ⟨h0, -⟩
    · by_contra hc
      have hc' : rx + 1 ≤ ry := by omega
      have p1 : 0 ≤ dx * (ry - rx - 1) := mul_nonneg (by omega) (by omega)
      have p2 : 0 ≤ (dx - dy) * rx := mul_nonneg (by omega) hrx
      nlinarith
    · omega
    · omega
  · rcases hb with ⟨h0, -, -⟩ | ⟨-, -, h2⟩ | ⟨h0, -⟩
    · omega
    · by_contra hc
      have hc' : ry + 1 ≤ rx := by omega
      have p1 : 0 ≤ dy * (rx - ry - 1) := mul_nonneg (by omega) (by omega)
      have p2 : 0 ≤ (dy - dx) * ry := mul_nonneg (by omega) hry
      nlinarith
    · omega
  · rcases hb with ⟨h0, -, -⟩ | ⟨h0, -, -⟩ | ⟨-, h1⟩
    · omega
    · omega
    · exact h1

/-- The start of `drawLine` is on the track of its line. -/
theorem onTrack_start (x1 y1 x2 y2 : Int) :
    drawLine.onTrack |x2 - x1| |y2 - y1| (if x1 < x2 then 1 else -1)
      (if y1 < y2 then 1 else -1) x2 y2 x1 y1 (|x2 - x1| - |y2 - y1|) |x2 - x1| |y2 - y1| := by
  have hdx := abs_nonneg (x2 - x1)
  have hdy := abs_nonneg (y2 - y1)
  refine ⟨⟨hdx, le_rfl⟩, ⟨hdy, le_rfl⟩, ?_, ?_, by ring, ?_⟩
  · by_cases h : x1 < x2
    · simp [h, abs_of_pos (sub_pos.mpr h)]
    · simp only [h, if_false]
      rw [abs_of_nonpos (by omega)]; ring
  · by_cases h : y1 < y2
    · simp [h, abs_of_pos (sub_pos.mpr h)]
    · simp only [h, if_false]
      rw [abs_of_nonpos (by omega)]; ring
  · have hT : |y2 - y1| * |x2 - x1| - |x2 - x1| * |y2 - y1| = 0 := by ring
    rw [hT]
    rcases lt_trichotomy |y2 - y1| |x2 - x1| with h | h | h
    · exact Or.inl ⟨h, by omega, by omega⟩
    · exact Or.inr (Or.inr ⟨h.symm, h.symm⟩)
    · exact Or.inr (Or.inl ⟨h, by omega, by omega⟩)

/-- The distance left along an axis. -/
theorem abs_sign_mul (s r : Int) (hs : s = 1 ∨ s = -1) (hr : 0 ≤ r) : |s * r| = r := by
  rcases hs with h | h <;> subst h
  · rw [one_mul, abs_of_nonneg hr]
  · rw [neg_one_mul, abs_neg, abs_of_nonneg hr]

/-- One iteration of the loop of `drawLine` away from the end point: the longer axis takes
a step, neither axis oversteps, and the point stays on the track. -/
theorem onTrack_step (dx dy sx sy x2 y2 x1 y1 err rx ry : Int)
    (hsx : sx = 1 ∨ sx = -1) (hsy : sy = 1 ∨ sy = -1)
    (h : drawLine.onTrack dx dy sx sy x2 y2 x1 y1 err rx ry)
    (hne : ¬ (x1 = x2 ∧ y1 = y2)) :
    ∃ rx' ry', drawLine.onTrack dx dy sx sy x2 y2
        (if 2 * err > -dy then x1 + sx else x1) (if 2 * err < dx then y1 + sy else y1)
        (if 2 * err < dx then (if 2 * err > -dy then err - dy else err) + dx
          else if 2 * err > -dy then err - dy else err) rx' ry'
      ∧ rx' ≤ rx ∧ ry' ≤ ry ∧ max rx' ry' = max rx ry - 1
      ∧ drawLine.stepsTowards x2 y2 (x1, y1)
          (if 2 * err > -dy then x1 + sx else x1, if 2 * err < dx then y1 + sy else y1) := by
  have hmaj := onTrack_major dx dy sx sy x2 y2 x1 y1 err rx ry h
  obtain ⟨⟨hrx, hrx'⟩, ⟨hry, hry'⟩, hx, hy, herr, hb⟩ := h
  have hpos : 1 ≤ rx ∨ 1 ≤ ry := by
    by_contra hc
    have h1 : rx = 0 := by omega
    have h2 : ry = 0 := by omega
    rw [h1, mul_zero] at hx
    rw [h2, mul_zero] at hy
    exact hne ⟨by omega, by omega⟩
  have hA0 : 0 ≤ dy * rx := mul_nonneg (by omega) hrx
  have hB0 : 0 ≤ dx * ry := mul_nonneg (by omega) hry
  have hA1 : 1 ≤ rx → dy ≤ dy * rx := fun h1 => le_mul_of_one_le_right (by omega) h1
  have hB1 : 1 ≤ ry → dx ≤ dx * ry := fun h1 => le_mul_of_one_le_right (by omega) h1
  have hA2 : rx = 0 → dy * rx = 0 := fun h1 => by rw [h1, mul_zero]
  have hB2 : ry = 0 → dx * ry = 0 := fun h1 => by rw [h1, mul_zero]
  have hA3 : dy * (rx - 1) = dy * rx - dy := by ring
  have hB3 : dx * (ry - 1) = dx * ry - dx := by ring
  have hX3 : sx * (rx - 1) = sx * rx - sx := by ring
  have hY3 : sy * (ry - 1) = sy * ry - sy := by ring
  have hdist : ∀ r r' : Int, 0 ≤ r' → r' ≤ r → ∀ s : Int, s = 1 ∨ s = -1 →
      ∀ a b c : Int, c - a = s * r → c - b = s * r' → |c - b| ≤ |c - a| := by
    intro r r' h0 h1 s hs a b c ha hb
    rw [ha, hb, abs_sign_mul s r hs (by omega), abs_sign_mul s r' hs h0]
    exact h1
  have habs1 : ∀ s : Int, s = 1 ∨ s = -1 → ∀ a : Int, |a + s - a| ≤ 1 := by
    intro s hs a
    rcases hs with h | h <;> subst h <;> simp
  have hne1 : ∀ s : Int, s = 1 ∨ s = -1 → ∀ a : Int, a + s ≠ a := by
    intro s hs a
    rcases hs with h | h <;> subst h <;> omega
  by_cases c1 : 2 * err > -dy <;> by_cases c2 : 2 * err < dx
  · -- both axes step
    simp only [c1, c2, if_true]
    have r1 : 1 ≤ rx := by
      rcases hb with ⟨h0, h1, h2⟩ | ⟨h0, h1, h2⟩ | ⟨h0, h1⟩ <;> by_contra hc <;>
        have hz := hA2 (by omega) <;> have := hB1 (by omega) <;> omega
    have r2 : 1 ≤ ry := by
      rcases hb with ⟨h0, h1, h2⟩ | ⟨h0, h1, h2⟩ | ⟨h0, h1⟩ <;> by_contra hc <;>
        have hz := hB2 (by omega) <;> have := hA1 (by omega) <;> omega
    have hon : drawLine.onTrack dx dy sx sy x2 y2 (x1 + sx) (y1 + sy) (err - dy + dx)
        (rx - 1) (ry - 1) := by
      refine ⟨⟨by omega, by omega⟩, ⟨by omega, by omega⟩, by rw [hX3]; omega,
        by rw [hY3]; omega, by rw [hA3, hB3]; omega, ?_⟩
      rw [hA3, hB3]
      rcases hb with ⟨h0, h1, h2⟩ | ⟨h0, h1, h2⟩ | ⟨h0, h1⟩
      · exact Or.inl ⟨h0, by omega, by omega⟩
      · exact Or.inr (Or.inl ⟨h0, by omega, by omega⟩)
      · exact Or.inr (Or.inr ⟨h0, by omega⟩)
    have hmaj' := onTrack_major _ _ _ _ _ _ _ _ _ _ _ hon
    refine ⟨rx - 1, ry - 1, hon, by omega, by omega, by omega, ?_⟩
    refine ⟨habs1 sx hsx x1, habs1 sy hsy y1, ?_, ?_, ?_⟩
    · intro heq
      exact hne1 sx hsx x1 (congrArg Prod.fst heq).symm
    · exact hdist rx (rx - 1) (by omega) (by omega) sx hsx x1 (x1 + sx) x2 hx
        (by rw [hX3]; omega)
    · exact hdist ry (ry - 1) (by omega) (by omega) sy hsy y1 (y1 + sy) y2 hy
        (by rw [hY3]; omega)
  · -- only the x axis steps
    simp only [c1, c2, if_true, if_false]
    have r1 : 1 ≤ rx := by
      rcases hb with ⟨h0, h1, h2⟩ | ⟨h0, h1, h2⟩ | ⟨h0, h1⟩ <;> by_contra hc <;>
        have hz := hA2 (by omega) <;> have := hB1 (by omega) <;> omega
    have hon : drawLine.onTrack dx dy sx sy x2 y2 (x1 + sx) y1 (err - dy) (rx - 1) ry := by
      refine ⟨⟨by omega, by omega⟩, ⟨by omega, by omega⟩, by rw [hX3]; omega,
        hy, by rw [hA3]; omega, ?_⟩
      rw [hA3]
      rcases hb with ⟨h0, h1, h2⟩ | ⟨h0, h1, h2⟩ | ⟨h0, h1⟩
      · exact Or.inl ⟨h0, by omega, by omega⟩
      · exfalso; omega
      · exfalso
        have hT : dy * rx = dx * ry := by rw [h0, h1]
        omega
    have hmaj' := onTrack_major _ _ _ _ _ _ _ _ _ _ _ hon
    refine ⟨rx - 1, ry, hon, by omega, by omega, by omega, ?_⟩
    refine ⟨habs1 sx hsx x1, by simp, ?_, ?_, le_rfl⟩
    · intro heq
      exact hne1 sx hsx x1 (congrArg Prod.fst heq).symm
    · exact hdist rx (rx - 1) (by omega) (by omega) sx hsx x1 (x1 + sx) x2 hx
        (by rw [hX3]; omega)
  · -- only the y axis steps
    simp only [c1, c2, if_true, if_false]
    have r2 : 1 ≤ ry := by
      rcases hb with ⟨h0, h1, h2⟩ | ⟨h0, h1, h2⟩ | ⟨h0, h1⟩ <;> by_contra hc <;>
        have hz := hB2 (by omega) <;> have := hA1 (by omega) <;> omega
    have hon : drawLine.onTrack dx dy sx sy x2 y2 x1 (y1 + sy) (err + dx) rx (ry - 1) := by
      refine ⟨⟨by omega, by omega⟩, ⟨by omega, by omega⟩, hx, by rw [hY3]; omega,
        by rw [hB3]; omega, ?_⟩
      rw [hB3]
      rcases hb with ⟨h0, h1, h2⟩ | ⟨h0, h1, h2⟩ | ⟨h0, h1⟩
      · exfalso; omega
      · exact Or.inr (Or.inl ⟨h0, by omega, by omega⟩)
      · exfalso
        have hT : dy * rx = dx * ry := by rw [h0, h1]
        omega
    have hmaj' := onTrack_major _ _ _ _ _ _ _ _ _ _ _ hon
    refine ⟨rx, ry - 1, hon, by omega, by omega, by omega, ?_⟩
    refine ⟨by simp, habs1 sy hsy y1, ?_, le_rfl, ?_⟩
    · intro heq
      exact hne1 sy hsy y1 (congrArg Prod.snd heq).symm
    · exact hdist ry (ry - 1) (by omega) (by omega) sy hsy y1 (y1 + sy) y2 hy
        (by rw [hY3]; omega)
  · -- one axis always steps
    exfalso
    rcases hb with ⟨h0, h1, h2⟩ | ⟨h0, h1, h2⟩ | ⟨h0, h1⟩ <;> omega

/-- An `int` result that fits in 64 bits is the exact result. -/
theorem int_wrap_eq (v : Int) (h1 : -2 ^ 63 ≤ v) (h2 : v < 2 ^ 63) : int.wrap v = v := by
  unfold int.wrap
  norm_num at h1 h2 ⊢
  omega

/-- A `float64` result of magnitude up to 2^53 is the exact result. -/
theorem float64_round_eq (v : Int) (h : |v| ≤ 2 ^ 53) : float64.round v = v := by
  unfold float64.round
  rw [if_pos]
  have h' : ((v.natAbs : Nat) : Int) ≤ ((2 ^ 53 : Nat) : Int) := by
    rw [Int.natCast_natAbs]
    exact_mod_cast h
  exact_mod_cast h'

/-- On the track of a line between end points of magnitude up to 2^49, the error term and
the coordinates stay below 2^51 in magnitude. -/
theorem onTrack_bounds (dx dy sx sy x2 y2 x1 y1 err rx ry : Int)
    (hsx : sx = 1 ∨ sx = -1) (hsy : sy = 1 ∨ sy = -1)
    (hdx : dx ≤ 2 ^ 50) (hdy : dy ≤ 2 ^ 50) (hx2 : |x2| ≤ 2 ^ 49) (hy2 : |y2| ≤ 2 ^ 49)
    (h : drawLine.onTrack dx dy sx sy x2 y2 x1 y1 err rx ry) :
    (-2 ^ 51 ≤ err ∧ err ≤ 2 ^ 51) ∧ (-2 ^ 51 ≤ x1 ∧ x1 ≤ 2 ^ 51)
      ∧ (-2 ^ 51 ≤ y1 ∧ y1 ≤ 2 ^ 51) := by
  obtain ⟨⟨hrx, hrx'⟩, ⟨hry, hry'⟩, hx, hy, herr, hb⟩ := h
  obtain ⟨a1, a2⟩ := abs_le.mp hx2
  obtain ⟨b1, b2⟩ := abs_le.mp hy2
  norm_num at hdx hdy a1 a2 b1 b2 ⊢
  refine ⟨?_, ?_, ?_⟩
  · rcases hb with ⟨h0, h1, h2⟩ | ⟨h0, h1, h2⟩ | ⟨h0, h1⟩
    · constructor <;> omega
    · constructor <;> omega
    · have hT : dy * rx = dx * ry := by rw [h0, h1]
      constructor <;> omega
  · rcases hsx with hs | hs <;> subst hs <;> constructor <;> omega
  · rcases hsy with hs | hs <;> subst hs <;> constructor <;> omega

/-- From a point on the track of a line between end points of magnitude up to 2^49, the
loop of `drawLine` runs for one iteration more than the steps left on the longer axis,
whatever the fuel beyond that, and visits a path that ends at `(x2, y2)`. -/
theorem trail_spec (dx dy sx sy x2 y2 : Int) (hsx : sx = 1 ∨ sx = -1)
    (hsy : sy = 1 ∨ sy = -1) (hdx : dx ≤ 2 ^ 50) (hdy : dy ≤ 2 ^ 50)
    (hx2 : |x2| ≤ 2 ^ 49) (hy2 : |y2| ≤ 2 ^ 49) :
    ∀ (n : Nat) (x1 y1 err rx ry : Int),
      drawLine.onTrack dx dy sx sy x2 y2 x1 y1 err rx ry → max rx ry = n →
      ∃ pts : List (Int × Int), pts.length = n + 1
        ∧ (∀ fuel, drawLine.trail dx dy sx sy x2 y2 fuel x1 y1 err
            = if n < fuel then some pts else none)
        ∧ pts.head? = some (x1, y1) ∧ pts.getLast? = some (x2, y2)
        ∧ List.Chain' (drawLine.stepsTowards x2 y2) pts
        ∧ ∀ p ∈ pts, ∃ r s, (0 ≤ r ∧ r ≤ rx) ∧ (0 ≤ s ∧ s ≤ ry)
            ∧ x2 - p.1 = sx * r ∧ y2 - p.2 = sy * s := by
  intro n
  induction n with
  | zero =>
    intro x1 y1 err rx ry h hmax
    have h' := h
    obtain ⟨⟨hrx, -⟩, ⟨hry, -⟩, hx, hy, -, -⟩ := h'
    have hmax' : max rx ry = 0 := by simpa using hmax
    have h1 : rx = 0 := by omega
    have h2 : ry = 0 := by omega
    rw [h1, mul_zero] at hx
    rw [h2, mul_zero] at hy
    have ex : x1 = x2 := by omega
    have ey : y1 = y2 := by omega
    refine ⟨[(x1, y1)], rfl, ?_, rfl, by rw [ex, ey]; rfl, List.chain'_singleton _, ?_⟩
    · intro fuel
      cases fuel with
      | zero => rfl
      | succ f =>
        rw [drawLine.trail, if_pos ⟨ex, ey⟩]
        simp
    · intro p hp
      rw [List.mem_singleton] at hp
      subst hp
      exact ⟨0, 0, ⟨le_rfl, by omega⟩, ⟨le_rfl, by omega⟩, by simpa using hx,
        by simpa using hy⟩
  | succ n ih =>
    intro x1 y1 err rx ry h hmax
    have h' := h
    obtain ⟨⟨hrx, hrx'⟩, ⟨hry, hry'⟩, hx, hy, -, -⟩ := h'
    have hmax' : max rx ry = (n : Int) + 1 := by simpa using hmax
    have hne : ¬ (x1 = x2 ∧ y1 = y2) := by
      rintro ⟨ex, ey⟩
      have e1 : sx * rx = 0 := by omega
      have e2 : sy * ry = 0 := by omega
      have r1 : rx = 0 := by
        rcases hsx with hs | hs <;> subst hs <;> omega
      have r2 : ry = 0 := by
        rcases hsy with hs | hs <;> subst hs <;> omega
      omega
    obtain ⟨⟨b1, b2⟩, ⟨b3, b4⟩, ⟨b5, b6⟩⟩ :=
      onTrack_bounds dx dy sx sy x2 y2 x1 y1 err rx ry hsx hsy hdx hdy hx2 hy2 h
    have hdx0 : 0 ≤ dx := by omega
    have hdy0 : 0 ≤ dy := by omega
    norm_num at hdx hdy b1 b2 b3 b4 b5 b6
    have q1 : float64.round (2 * err) = 2 * err :=
      float64_round_eq _ (by rw [abs_le]; norm_num; constructor <;> omega)
    have q2 : float64.round (err - dy) = err - dy :=
      float64_round_eq _ (by rw [abs_le]; norm_num; constructor <;> omega)
    have q3 : float64.round ((if 2 * err > -dy then err - dy else err) + dx)
        = (if 2 * err > -dy then err - dy else err) + dx :=
      float64_round_eq _ (by
        rw [abs_le]; norm_num
        by_cases c : -dy < 2 * err
        · rw [if_pos c]; constructor <;> omega
        · rw [if_neg c]; constructor <;> omega)
    have q4 : int.wrap (x1 + sx) = x1 + sx :=
      int_wrap_eq _ (by norm_num; rcases hsx with hs | hs <;> subst hs <;> omega)
        (by norm_num; rcases hsx with hs | hs <;> subst hs <;> omega)
    have q5 : int.wrap (y1 + sy) = y1 + sy :=
      int_wrap_eq _ (by norm_num; rcases hsy with hs | hs <;> subst hs <;> omega)
        (by norm_num; rcases hsy with hs | hs <;> subst hs <;> omega)
    obtain ⟨rx', ry', hon, hle1, hle2, hmx, hstep⟩ :=
      onTrack_step dx dy sx sy x2 y2 x1 y1 err rx ry hsx hsy h hne
    obtain ⟨pts, hlen, hfuel, hhead, hlast, hchain, hbox⟩ :=
      ih _ _ _ rx' ry' hon (by omega)
    refine ⟨(x1, y1) :: pts, by simp [hlen], ?_, rfl, ?_, ?_, ?_⟩
    · intro fuel
      cases fuel with
      | zero => rfl
      | succ f =>
        rw [drawLine.trail, if_neg hne]
        simp only [q1, q2, q3, q4, q5]
        rw [hfuel f]
        by_cases hf : n < f
        · simp [hf]
        · simp [hf]
    · cases pts with
      | nil => simp at hlen
      | cons q rest => rw [List.getLast?_cons_cons]; exact hlast
    · rw [List.chain'_cons']
      refine ⟨fun q hq => ?_, hchain⟩
      rw [hhead] at hq
      cases hq
      exact hstep
    · intro p hp
      rcases List.mem_cons.mp hp with hp | hp
      · subst hp
        exact ⟨rx, ry, ⟨hrx, le_rfl⟩, ⟨hry, le_rfl⟩, hx, hy⟩
      · obtain ⟨r, s, ⟨hr0, hr1⟩, ⟨hs0, hs1⟩, hpx, hpy⟩ := hbox p hp
        exact ⟨r, s, ⟨hr0, by omega⟩, ⟨hs0, by omega⟩, hpx, hpy⟩

/-- Between end points of magnitude up to 2^49 the differences and the first error term of
`drawLine` are exact. -/
theorem drawLine_start_exact (x1 y1 x2 y2 : Int) (hx1 : |x1| ≤ 2 ^ 49) (hy1 : |y1| ≤ 2 ^ 49)
    (hx2 : |x2| ≤ 2 ^ 49) (hy2 : |y2| ≤ 2 ^ 49) :
    |float64.round (int.wrap (x2 - x1))| = |x2 - x1|
      ∧ |float64.round (int.wrap (y2 - y1))| = |y2 - y1|
      ∧ float64.round (|x2 - x1| - |y2 - y1|) = |x2 - x1| - |y2 - y1|
      ∧ |x2 - x1| ≤ 2 ^ 50 ∧ |y2 - y1| ≤ 2 ^ 50 := by
  obtain ⟨a1, a2⟩ := abs_le.mp hx1
  obtain ⟨b1, b2⟩ := abs_le.mp hy1
  obtain ⟨c1, c2⟩ := abs_le.mp hx2
  obtain ⟨d1, d2⟩ := abs_le.mp hy2
  norm_num at a1 a2 b1 b2 c1 c2 d1 d2
  have hdx : |x2 - x1| ≤ 2 ^ 50 := by
    rw [abs_le]; norm_num; constructor <;> omega
  have hdy : |y2 - y1| ≤ 2 ^ 50 := by
    rw [abs_le]; norm_num; constructor <;> omega
  have hdx0 := abs_nonneg (x2 - x1)
  have hdy0 := abs_nonneg (y2 - y1)
  have w1 : int.wrap (x2 - x1) = x2 - x1 :=
    int_wrap_eq _ (by norm_num; omega) (by norm_num; omega)
  have w2 : int.wrap (y2 - y1) = y2 - y1 :=
    int_wrap_eq _ (by norm_num; omega) (by norm_num; omega)
  have r1 : float64.round (x2 - x1) = x2 - x1 :=
    float64_round_eq _ (le_trans hdx (by norm_num))
  have r2 : float64.round (y2 - y1) = y2 - y1 :=
    float64_round_eq _ (le_trans hdy (by norm_num))
  refine ⟨by rw [w1, r1], by rw [w2, r2], ?_, hdx, hdy⟩
  apply float64_round_eq
  norm_num at hdx hdy
  rw [abs_le]; norm_num; constructor <;> omega

/-- The points that `drawLine` visits between end points of magnitude up to 2^49: one more
than the longer of the two distances, from `(x1, y1)` to `(x2, y2)` in steps towards
`(x2, y2)`, all between the two end points; the fuel decides only whether the loop gets
that far. -/
theorem visited_spec (x1 y1 x2 y2 : Int) (hx1 : |x1| ≤ 2 ^ 49) (hy1 : |y1| ≤ 2 ^ 49)
    (hx2 : |x2| ≤ 2 ^ 49) (hy2 : |y2| ≤ 2 ^ 49) :
    ∃ pts : List (Int × Int),
      (pts.length : Int) = max |x2 - x1| |y2 - y1| + 1
        ∧ (∀ fuel, drawLine.visited fuel x1 y1 x2 y2
            = if pts.length ≤ fuel then some pts else none)
        ∧ pts.head? = some (x1, y1) ∧ pts.getLast? = some (x2, y2)
        ∧ List.Chain' (drawLine.stepsTowards x2 y2) pts
        ∧ ∀ p ∈ pts, (min x1 x2 ≤ p.1 ∧ p.1 ≤ max x1 x2)
            ∧ (min y1 y2 ≤ p.2 ∧ p.2 ≤ max y1 y2) := by
  obtain ⟨e1, e2, e3, hdxB, hdyB⟩ := drawLine_start_exact x1 y1 x2 y2 hx1 hy1 hx2 hy2
  have hdx := abs_nonneg (x2 - x1)
  have hdy := abs_nonneg (y2 - y1)
  have hsx : (if x1 < x2 then (1 : Int) else -1) = 1 ∨ (if x1 < x2 then (1 : Int) else -1) = -1 := by
    by_cases h : x1 < x2 <;> simp [h]
  have hsy : (if y1 < y2 then (1 : Int) else -1) = 1 ∨ (if y1 < y2 then (1 : Int) else -1) = -1 := by
    by_cases h : y1 < y2 <;> simp [h]
  obtain ⟨pts, hlen, hfuel, hhead, hlast, hchain, hbox⟩ :=
    trail_spec |x2 - x1| |y2 - y1| _ _ x2 y2 hsx hsy hdxB hdyB hx2 hy2
      (max |x2 - x1| |y2 - y1|).toNat
      x1 y1 _ _ _ (onTrack_start x1 y1 x2 y2)
      (Int.toNat_of_nonneg (le_max_of_le_left hdx)).symm
  refine ⟨pts, ?_, ?_, hhead, hlast, hchain, ?_⟩
  · rw [hlen]
    push_cast
    rw [Int.toNat_of_nonneg (le_max_of_le_left hdx)]
  · intro fuel
    unfold drawLine.visited
    simp only [e1, e2, e3]
    rw [hfuel fuel, hlen]
    by_cases hf : (max |x2 - x1| |y2 - y1|).toNat < fuel
    · rw [if_pos hf, if_pos (by omega)]
    · rw [if_neg hf, if_neg (by omega)]
  · intro p hp
    obtain ⟨r, s, ⟨hr0, hr1⟩, ⟨hs0, hs1⟩, hpx, hpy⟩ := hbox p hp
    constructor
    · by_cases h : x1 < x2
      · simp only [h, if_true, one_mul] at hpx
        rw [abs_of_pos (sub_pos.mpr h)] at hr1
        rw [min_eq_left h.le, max_eq_right h.le]
        constructor <;> omega
      · simp only [h, if_false, neg_one_mul] at hpx
        rw [abs_of_nonpos (by omega)] at hr1
        rw [min_eq_right (by omega), max_eq_left (by omega)]
        constructor <;> omega
    · by_cases h : y1 < y2
      · simp only [h, if_true, one_mul] at hpy
        rw [abs_of_pos (sub_pos.mpr h)] at hs1
        rw [min_eq_left h.le, max_eq_right h.le]
        constructor <;> omega
      · simp only [h, if_false, neg_one_mul] at hpy
        rw [abs_of_nonpos (by omega)] at hs1
        rw [min_eq_right (by omega), max_eq_left (by omega)]
        constructor <;> omega

/-- The first iterations of the loop of `drawLine` visit the first points of the path of
a loop that ends. -/
theorem walk_eq_take (dx dy sx sy x2 y2 : Int) :
    ∀ (fuel : Nat) (x1 y1 err : Int) (pts : List (Int × Int)),
      drawLine.trail dx dy sx sy x2 y2 fuel x1 y1 err = some pts →
      ∀ n, drawLine.walk dx dy sx sy x2 y2 n x1 y1 err = pts.take n := by
  intro fuel
  induction fuel with
  | zero => intro x1 y1 err pts h; simp [drawLine.trail] at h
  | succ fuel ih =>
    intro x1 y1 err pts h n
    rw [drawLine.trail] at h
    cases n with
    | zero => rfl
    | succ n =>
      rw [drawLine.walk]
      by_cases hend : x1 = x2 ∧ y1 = y2
      · rw [if_pos hend] at h
        rw [if_pos hend]
        cases h
        simp
      · rw [if_neg hend] at h
        rw [if_neg hend]
        simp only [] at h ⊢
        generalize ht : drawLine.trail dx dy sx sy x2 y2 fuel _ _ _ = t at h
        cases t with
        | none => simp at h
        | some rest =>
          simp only [Option.some.injEq] at h
          rw [← h, List.take_succ_cons, ih _ _ _ rest ht n]

/-- The pixels of a list of points are the set S of the specification. -/
theorem specPixels_iff (pts : List (Int × Int)) (a b : Int) :
    drawLine.specPixels pts a b ↔ ∃ p ∈ pts, (a, b) ∈ drawLine.stroke p.1 p.2 := by
  unfold drawLine.specPixels
  constructor
  · rintro ⟨p, hp, h⟩
    exact ⟨p, hp, (stroke_mem p.1 p.2 a b).mpr h⟩
  · rintro ⟨p, hp, h⟩
    exact ⟨p, hp, (stroke_mem p.1 p.2 a b).mp h⟩

/-- The image painted along a list of points: the colour on the set S of the points, which
lies on the canvas, and the old colour elsewhere. -/
theorem paint_specPixels (col : color.RGBA) (pts : List (Int × Int)) (img : image.RGBA)
    (a b : Int) :
    (drawLine.specPixels pts a b →
        (drawLine.paint col pts img).At a b = col ∧ (0 ≤ a ∧ a < 200 ∧ 0 ≤ b ∧ b < 80))
      ∧ (¬ drawLine.specPixels pts a b → (drawLine.paint col pts img).At a b = img.At a b) := by
  obtain ⟨h₁, h₂⟩ := paint_At col a b pts img
  rw [specPixels_iff]
  refine ⟨fun h => ⟨h₁ h, ?_⟩, h₂⟩
  obtain ⟨p, -, hmem⟩ := h
  have := stroke_on_canvas p.1 p.2 a b hmem
  simpa [captchaWidth, captchaHeight] using this

/-- The method `drawLine` between end points of magnitude up to 2^49, on the points it
visits: the loop ends exactly when the fuel covers the points, and the image is the one
painted along them. -/
theorem drawLine_visits (x1 y1 x2 y2 : Int) (hx1 : |x1| ≤ 2 ^ 49) (hy1 : |y1| ≤ 2 ^ 49)
    (hx2 : |x2| ≤ 2 ^ 49) (hy2 : |y2| ≤ 2 ^ 49) :
    ∃ pts : List (Int × Int),
      (pts.length : Int) = max |x2 - x1| |y2 - y1| + 1
        ∧ (∀ fuel, drawLine.visited fuel x1 y1 x2 y2
            = if pts.length ≤ fuel then some pts else none)
        ∧ (∀ fuel img col, drawLine fuel img x1 y1 x2 y2 col
            = if pts.length ≤ fuel then some (drawLine.paint col pts img) else none)
        ∧ pts.head? = some (x1, y1) ∧ pts.getLast? = some (x2, y2)
        ∧ List.Chain' (drawLine.stepsTowards x2 y2) pts
        ∧ ∀ p ∈ pts, (min x1 x2 ≤ p.1 ∧ p.1 ≤ max x1 x2)
            ∧ (min y1 y2 ≤ p.2 ∧ p.2 ≤ max y1 y2) := by
  obtain ⟨pts, hlen, hfuel, hhead, hlast, hchain, hbox⟩ :=
    visited_spec x1 y1 x2 y2 hx1 hy1 hx2 hy2
  refine ⟨pts, hlen, hfuel, ?_, hhead, hlast, hchain, hbox⟩
  intro fuel img col
  rw [drawLine_eq_paint, hfuel fuel]
  by_cases hf : pts.length ≤ fuel
  · rw [if_pos hf, if_pos hf]; rfl
  · rw [if_neg hf, if_neg hf]; rfl

/-- The method `drawLine` ends between end points of magnitude up to 2^49 when the fuel
exceeds the sum of the two distances. -/
theorem drawLine_ends (fuel : Nat) (img : image.RGBA) (x1 y1 x2 y2 : Int) (col : color.RGBA)
    (hx1 : |x1| ≤ 2 ^ 49) (hy1 : |y1| ≤ 2 ^ 49) (hx2 : |x2| ≤ 2 ^ 49) (hy2 : |y2| ≤ 2 ^ 49)
    (hfuel : |x2 - x1| + |y2 - y1| < fuel) :
    ∃ img', drawLine fuel img x1 y1 x2 y2 col = some img' := by
  obtain ⟨pts, hlen, -, hdraw, -⟩ := drawLine_visits x1 y1 x2 y2 hx1 hy1 hx2 hy2
  have hdx := abs_nonneg (x2 - x1)
  have hdy := abs_nonneg (y2 - y1)
  have hmax : max |x2 - x1| |y2 - y1| ≤ |x2 - x1| + |y2 - y1| :=
    max_le (by omega) (by omega)
  refine ⟨drawLine.paint col pts img, ?_⟩
  rw [hdraw fuel img col, if_pos]
  omega

/-- A call of `rand.Int` with `max` other than 1 gives the number drawn, below `max`. -/
theorem randInt_of_ok (src : RandSource) (i max v : Nat) (hmax : max ≠ 1)
    (h : src i = .ok v) : randInt src i max = .ok (v % max) := by
  simp [randInt, hmax, h]

/-- A call of `rand.Int` with `max` other than 1 fails when the source fails. -/
theorem randInt_of_error (src : RandSource) (i max : Nat) (e : String) (hmax : max ≠ 1)
    (h : src i = .error e) : randInt src i max = .error e := by
  simp [randInt, hmax, h]

/-- A draw of a digit reads the source. -/
theorem randInt_ten (src : RandSource) (i : Nat) :
    randInt src i 10 = match src i with
      | .error err => .error err
      | .ok n => .ok (n % 10) := by
  simp [randInt]

/-- The segments of every glyph span at most 20 columns and 40 rows. -/
theorem getDigitSegments_span (digit : Char) :
    ∀ seg ∈ getDigitSegments digit, |seg.x2 - seg.x1| + |seg.y2 - seg.y1| ≤ 60 := by
  intro seg hseg
  unfold getDigitSegments at hseg
  split at hseg <;> simp at hseg <;> (try rcases hseg with h | h | h | h | h) <;>
    (try subst h) <;> (try decide)

/-- The segments of every glyph lie within 10 columns and 20 rows of the centre. -/
theorem getDigitSegments_box (digit : Char) :
    ∀ seg ∈ getDigitSegments digit,
      (-10 ≤ seg.x1 ∧ seg.x1 ≤ 10) ∧ (-10 ≤ seg.x2 ∧ seg.x2 ≤ 10)
        ∧ (-20 ≤ seg.y1 ∧ seg.y1 ≤ 20) ∧ (-20 ≤ seg.y2 ∧ seg.y2 ≤ 20) := by
  intro seg hseg
  unfold getDigitSegments at hseg
  split at hseg <;> simp at hseg <;> (try rcases hseg with h | h | h | h | h) <;>
    (try subst h) <;> (try decide)

/-- The loop of `drawDigit` at a centre of magnitude up to 2^48 ends when the fuel exceeds
the span of every segment, the segments lying within 10 columns and 20 rows of the centre. -/
theorem drawDigit_loop_ends (fuel : Nat) (x y : Int) (col : color.RGBA) (hfuel : 60 < fuel)
    (hx : |x| ≤ 2 ^ 48) (hy : |y| ≤ 2 ^ 48) :
    ∀ (segs : List segment) (img : image.RGBA),
      (∀ seg ∈ segs, (-10 ≤ seg.x1 ∧ seg.x1 ≤ 10) ∧ (-10 ≤ seg.x2 ∧ seg.x2 ≤ 10)
        ∧ (-20 ≤ seg.y1 ∧ seg.y1 ≤ 20) ∧ (-20 ≤ seg.y2 ∧ seg.y2 ≤ 20)) →
      ∃ img', drawDigit.loop fuel x y col segs img = some img' := by
  obtain ⟨x1, x2⟩ := abs_le.mp hx
  obtain ⟨y1, y2⟩ := abs_le.mp hy
  norm_num at x1 x2 y1 y2
  intro segs
  induction segs with
  | nil => intro img _; exact ⟨img, rfl⟩
  | cons seg rest ih =>
    intro img hbox
    obtain ⟨⟨a1, a2⟩, ⟨b1, b2⟩, ⟨c1, c2⟩, ⟨d1, d2⟩⟩ := hbox seg (List.mem_cons_self _ _)
    have hline : ∃ img', drawSegment fuel img seg x y col = some img' := by
      unfold drawSegment
      have hdx : |x + seg.x2 - (x + seg.x1)| ≤ 20 := by
        rw [abs_le]; constructor <;> omega
      have hdy : |y + seg.y2 - (y + seg.y1)| ≤ 40 := by
        rw [abs_le]; constructor <;> omega
      have hf : ((60 : Nat) : Int) < (fuel : Int) := by exact_mod_cast hfuel
      simp only [Nat.cast_ofNat] at hf
      exact drawLine_ends fuel img _ _ _ _ col
        (by rw [abs_le]; norm_num; constructor <;> omega)
        (by rw [abs_le]; norm_num; constructor <;> omega)
        (by rw [abs_le]; norm_num; constructor <;> omega)
        (by rw [abs_le]; norm_num; constructor <;> omega)
        (by omega)
    obtain ⟨img₁, h₁⟩ := hline
    rw [drawDigit.loop, h₁]
    exact ih img₁ (fun s hs => hbox s (List.mem_cons_of_mem _ hs))

/-- The loop of `Generate` over the runes of the answer ends for every answer of a length
that an index can count. -/
theorem drawDigits_ends (fuel : Nat) (hfuel : 60 < fuel) :
    ∀ (digits : List Char) (i : Nat) (img : image.RGBA), i + 4 * digits.length ≤ 2 ^ 40 →
      ∃ img', Generate.drawDigits fuel digits i img = some img' := by
  intro digits
  induction digits with
  | nil => intro i img _; exact ⟨img, rfl⟩
  | cons digit rest ih =>
    intro i img hi
    have hi' : i ≤ 2 ^ 40 := by
      simp only [List.length_cons] at hi
      omega
    have hi'' : (i : Int) ≤ 2 ^ 40 := by exact_mod_cast hi'
    have hi0 : (0 : Int) ≤ i := Int.ofNat_nonneg i
    have hw : captchaWidth / digitCount = 50 := by decide
    have hq : (50 : Int) / 4 = 12 := by decide
    have hh : captchaHeight / 2 = 40 := by decide
    norm_num at hi''
    obtain ⟨img₁, h₁⟩ := drawDigit_loop_ends fuel
      (i * (captchaWidth / digitCount) + captchaWidth / digitCount / 4) (captchaHeight / 2)
      ⟨50, 50, 50, 255⟩ hfuel
      (by rw [hw, hq, abs_le]; norm_num; constructor <;> omega)
      (by rw [hh]; norm_num)
      (getDigitSegments digit) img (getDigitSegments_box digit)
    have h₂ : drawDigit fuel img digit
        (i * (captchaWidth / digitCount) + captchaWidth / digitCount / 4) (captchaHeight / 2)
        = some img₁ := h₁
    rw [Generate.drawDigits]
    simp only [h₂]
    refine ih _ img₁ ?_
    have hu := Char.utf8Size_le_four digit
    simp only [List.length_cons] at hi
    omega

/-- A noise line: drawn when its four draws succeed, a panic when one of them fails. -/
theorem drawNoiseLine_outcome (fuel : Nat) (hfuel : 278 < fuel) (src : RandSource) (i : Nat)
    (img : image.RGBA) :
    (drawsOk src i (i + 4) ∧ ∃ img', drawNoiseLine fuel src i img = .ok img')
      ∨ (¬ drawsOk src i (i + 4) ∧ drawNoiseLine fuel src i img = .panic nilPanic) := by
  have hfail : ∀ k, k < 4 → ∀ e, src (i + k) = .error e → ¬ drawsOk src i (i + 4) := by
    intro k hk e he hall
    obtain ⟨v, hv⟩ := hall (i + k) (by omega) (by omega)
    rw [he] at hv
    cases hv
  have hw1 : captchaWidth.toNat ≠ 1 := by decide
  have hh1 : captchaHeight.toNat ≠ 1 := by decide
  cases h0 : src i with
  | error e =>
    have r0 := randInt_of_error src i _ e hw1 h0
    exact Or.inr ⟨hfail 0 (by omega) e h0, by simp [drawNoiseLine, r0, nilPanic]⟩
  | ok v0 =>
    have r0 := randInt_of_ok src i _ v0 hw1 h0
    cases h1 : src (i + 1) with
    | error e =>
      have r1 := randInt_of_error src (i + 1) _ e hh1 h1
      exact Or.inr ⟨hfail 1 (by omega) e h1, by simp [drawNoiseLine, r0, r1, nilPanic]⟩
    | ok v1 =>
      have r1 := randInt_of_ok src (i + 1) _ v1 hh1 h1
      cases h2 : src (i + 2) with
      | error e =>
        have r2 := randInt_of_error src (i + 2) _ e hw1 h2
        exact Or.inr ⟨hfail 2 (by omega) e h2,
          by simp [drawNoiseLine, r0, r1, r2, nilPanic]⟩
      | ok v2 =>
        have r2 := randInt_of_ok src (i + 2) _ v2 hw1 h2
        cases h3 : src (i + 3) with
        | error e =>
          have r3 := randInt_of_error src (i + 3) _ e hh1 h3
          exact Or.inr ⟨hfail 3 (by omega) e h3,
            by simp [drawNoiseLine, r0, r1, r2, r3, nilPanic]⟩
        | ok v3 =>
          have r3 := randInt_of_ok src (i + 3) _ v3 hh1 h3
          left
          constructor
          · intro j hj1 hj2
            have hj : j = i ∨ j = i + 1 ∨ j = i + 2 ∨ j = i + 3 := by omega
            rcases hj with h | h | h | h <;> subst h
            · exact ⟨v0, h0⟩
            · exact ⟨v1, h1⟩
            · exact ⟨v2, h2⟩
            · exact ⟨v3, h3⟩
          · have hw : captchaWidth.toNat = 200 := rfl
            have hh : captchaHeight.toNat = 80 := rfl
            rw [hw] at r0 r2
            rw [hh] at r1 r3
            have a0 := Nat.mod_lt v0 (show 0 < 200 by decide)
            have a1 := Nat.mod_lt v1 (show 0 < 80 by decide)
            have a2 := Nat.mod_lt v2 (show 0 < 200 by decide)
            have a3 := Nat.mod_lt v3 (show 0 < 80 by decide)
            obtain ⟨img', himg⟩ := drawLine_ends fuel img ((v0 % 200 : Nat) : Int)
              ((v1 % 80 : Nat) : Int) ((v2 % 200 : Nat) : Int) ((v3 % 80 : Nat) : Int)
              ⟨200, 200, 200, 255⟩
              (by rw [abs_le]; norm_num; constructor <;> omega)
              (by rw [abs_le]; norm_num; constructor <;> omega)
              (by rw [abs_le]; norm_num; constructor <;> omega)
              (by rw [abs_le]; norm_num; constructor <;> omega)
              (by
                have hx : |((v2 % 200 : Nat) : Int) - ((v0 % 200 : Nat) : Int)| ≤ 199 := by
                  rw [abs_le]; constructor <;> omega
                have hy : |((v3 % 80 : Nat) : Int) - ((v1 % 80 : Nat) : Int)| ≤ 79 := by
                  rw [abs_le]; constructor <;> omega
                have hf : (278 : Int) < (fuel : Int) := by exact_mod_cast hfuel
                omega)
            exact ⟨img', by simp only [drawNoiseLine, hw, hh, r0, r1, r2, r3, himg]⟩

/-- The noise lines: all drawn when all their draws succeed, a panic when one fails. -/
theorem noiseLines_outcome (fuel : Nat) (hfuel : 278 < fuel) (src : RandSource) :
    ∀ (n i : Nat) (img : image.RGBA),
      (drawsOk src i (i + 4 * n) ∧ ∃ img', Generate.noiseLines fuel src n i img = .ok img')
        ∨ (¬ drawsOk src i (i + 4 * n)
            ∧ Generate.noiseLines fuel src n i img = .panic nilPanic) := by
  intro n
  induction n with
  | zero =>
    intro i img
    exact Or.inl ⟨fun j h1 h2 => by omega, img, rfl⟩
  | succ n ih =>
    intro i img
    rcases drawNoiseLine_outcome fuel hfuel src i img with ⟨hok, img₁, h₁⟩ | ⟨hbad, h₁⟩
    · rcases ih (i + 4) img₁ with ⟨hok', img₂, h₂⟩ | ⟨hbad', h₂⟩
      · left
        refine ⟨fun j h1 h2 => ?_, img₂, by rw [Generate.noiseLines, h₁]; exact h₂⟩
        by_cases hj : j < i + 4
        · exact hok j h1 hj
        · exact hok' j (by omega) (by omega)
      · right
        refine ⟨fun hall => hbad' (fun j h1 h2 => hall j (by omega) (by omega)),
          by rw [Generate.noiseLines, h₁]; exact h₂⟩
    · right
      refine ⟨fun hall => hbad (fun j h1 h2 => hall j h1 (by omega)), ?_⟩
      rw [Generate.noiseLines, h₁]

/-- A noise dot: set when its two draws succeed, a panic when one of them fails. -/
theorem drawNoiseDot_outcome (src : RandSource) (i : Nat) (img : image.RGBA) :
    (drawsOk src i (i + 2) ∧ ∃ img', drawNoiseDot src i img = .ok img')
      ∨ (¬ drawsOk src i (i + 2) ∧ drawNoiseDot src i img = .panic nilPanic) := by
  have hfail : ∀ k, k < 2 → ∀ e, src (i + k) = .error e → ¬ drawsOk src i (i + 2) := by
    intro k hk e he hall
    obtain ⟨v, hv⟩ := hall (i + k) (by omega) (by omega)
    rw [he] at hv
    cases hv
  have hw1 : captchaWidth.toNat ≠ 1 := by decide
  have hh1 : captchaHeight.toNat ≠ 1 := by decide
  cases h0 : src i with
  | error e =>
    have r0 := randInt_of_error src i _ e hw1 h0
    exact Or.inr ⟨hfail 0 (by omega) e h0, by simp [drawNoiseDot, r0, nilPanic]⟩
  | ok v0 =>
    have r0 := randInt_of_ok src i _ v0 hw1 h0
    cases h1 : src (i + 1) with
    | error e =>
      have r1 := randInt_of_error src (i + 1) _ e hh1 h1
      exact Or.inr ⟨hfail 1 (by omega) e h1, by simp [drawNoiseDot, r0, r1, nilPanic]⟩
    | ok v1 =>
      have r1 := randInt_of_ok src (i + 1) _ v1 hh1 h1
      left
      constructor
      · intro j hj1 hj2
        have hj : j = i ∨ j = i + 1 := by omega
        rcases hj with h | h <;> subst h
        · exact ⟨v0, h0⟩
        · exact ⟨v1, h1⟩
      · exact ⟨img.Set ((v0 % captchaWidth.toNat : Nat) : Int)
          ((v1 % captchaHeight.toNat : Nat) : Int) ⟨180, 180, 180, 255⟩,
          by simp only [drawNoiseDot, r0, r1]⟩

/-- The noise dots: all set when all their draws succeed, a panic when one fails. -/
theorem noiseDots_outcome (src : RandSource) :
    ∀ (n i : Nat) (img : image.RGBA),
      (drawsOk src i (i + 2 * n) ∧ ∃ img', Generate.noiseDots src n i img = .ok img')
        ∨ (¬ drawsOk src i (i + 2 * n) ∧ Generate.noiseDots src n i img = .panic nilPanic) := by
  intro n
  induction n with
  | zero =>
    intro i img
    exact Or.inl ⟨fun j h1 h2 => by omega, img, rfl⟩
  | succ n ih =>
    intro i img
    rcases drawNoiseDot_outcome src i img with ⟨hok, img₁, h₁⟩ | ⟨hbad, h₁⟩
    · rcases ih (i + 2) img₁ with ⟨hok', img₂, h₂⟩ | ⟨hbad', h₂⟩
      · left
        refine ⟨fun j h1 h2 => ?_, img₂, by rw [Generate.noiseDots, h₁]; exact h₂⟩
        by_cases hj : j < i + 2
        · exact hok j h1 hj
        · exact hok' j (by omega) (by omega)
      · right
        refine ⟨fun hall => hbad' (fun j h1 h2 => hall j (by omega) (by omega)),
          by rw [Generate.noiseDots, h₁]; exact h₂⟩
    · right
      refine ⟨fun hall => hbad (fun j h1 h2 => hall j h1 (by omega)), ?_⟩
      rw [Generate.noiseDots, h₁]

/-- The digit loop returns the error of the first draw that fails. -/
theorem digits_error (src : RandSource) (e : String) :
    ∀ (n i k : Nat) (answer : String), k < n → drawsOk src i (i + k) →
      src (i + k) = .error e →
      Generate.digits src n i answer = .error ("failed to generate random digit: " ++ e) := by
  intro n
  induction n with
  | zero => intro i k answer hk; omega
  | succ n ih =>
    intro i k answer hk hok herr
    rw [Generate.digits]
    cases k with
    | zero =>
      have h0 : src i = .error e := herr
      simp [randInt_ten, h0]
    | succ k =>
      obtain ⟨v, hv⟩ := hok i (by omega) (by omega)
      simp only [randInt_ten, hv]
      apply ih (i + 1) k _ (by omega)
      · intro j h1 h2
        exact hok j (by omega) (by omega)
      · have : i + 1 + k = i + (k + 1) := by omega
        rw [this]; exact herr

/-- The digit loop returns an answer when all its draws succeed. -/
theorem digits_ok (src : RandSource) :
    ∀ (n i : Nat) (answer : String), drawsOk src i (i + n) →
      ∃ a, Generate.digits src n i answer = .ok a := by
  intro n
  induction n with
  | zero => intro i answer _; exact ⟨answer, rfl⟩
  | succ n ih =>
    intro i answer hok
    obtain ⟨v, hv⟩ := hok i (by omega) (by omega)
    rw [Generate.digits]
    simp only [randInt_ten, hv]
    exact ih (i + 1) _ (fun j h1 h2 => hok j (by omega) (by omega))

/-- The answer of the digit loop: the four numbers drawn, each below 10, in decimal and in
the order of the draws. -/
theorem digits_answer (src : RandSource) (a : String)
    (h : Generate.digits src 4 0 "" = .ok a) :
    ∃ d₀ d₁ d₂ d₃ : Nat, d₀ < 10 ∧ d₁ < 10 ∧ d₂ < 10 ∧ d₃ < 10
      ∧ randInt src 0 10 = .ok d₀ ∧ randInt src 1 10 = .ok d₁
      ∧ randInt src 2 10 = .ok d₂ ∧ randInt src 3 10 = .ok d₃
      ∧ a = "" ++ toString d₀ ++ toString d₁ ++ toString d₂ ++ toString d₃ := by
  simp only [Generate.digits, randInt_ten] at h
  cases h0 : src 0 with
  | error e => simp [h0] at h
  | ok v0 =>
    cases h1 : src 1 with
    | error e => simp [h0, h1] at h
    | ok v1 =>
      cases h2 : src 2 with
      | error e => simp [h0, h1, h2] at h
      | ok v2 =>
        cases h3 : src 3 with
        | error e => simp [h0, h1, h2, h3] at h
        | ok v3 =>
          simp only [h0, h1, h2, h3, Nat.zero_add, Nat.reduceAdd, Except.ok.injEq] at h
          refine ⟨v0 % 10, v1 % 10, v2 % 10, v3 % 10, Nat.mod_lt _ (by decide),
            Nat.mod_lt _ (by decide), Nat.mod_lt _ (by decide), Nat.mod_lt _ (by decide), ?_⟩
          simp only [randInt_ten, h0, h1, h2, h3, true_and]
          exact h.symm

/-- A number below 10 in decimal is its one digit character. -/
theorem toString_digit (d : Nat) (hd : d < 10) :
    toString d = String.singleton (Nat.digitChar d)
      ∧ '0' ≤ Nat.digitChar d ∧ Nat.digitChar d ≤ '9'
      ∧ (Nat.digitChar d).utf8Size = 1 := by
  interval_cases d <;> decide

/-- The answer of the digit loop has four characters. -/
theorem digits_length (src : RandSource) (a : String)
    (h : Generate.digits src 4 0 "" = .ok a) : a.data.length = 4 := by
  obtain ⟨d₀, d₁, d₂, d₃, h₀, h₁, h₂, h₃, -, -, -, -, ha⟩ := digits_answer src a h
  obtain ⟨t₀, -⟩ := toString_digit d₀ h₀
  obtain ⟨t₁, -⟩ := toString_digit d₁ h₁
  obtain ⟨t₂, -⟩ := toString_digit d₂ h₂
  obtain ⟨t₃, -⟩ := toString_digit d₃ h₃
  have hchars : a
      = ⟨[Nat.digitChar d₀, Nat.digitChar d₁, Nat.digitChar d₂, Nat.digitChar d₃]⟩ := by
    rw [ha, t₀, t₁, t₂, t₃]
    apply String.ext
    simp [String.singleton]
  rw [hchars]
  rfl

/-- A successful `Generate` returns the answer of its digit loop. -/
theorem generate_ok_answer (fuel : Nat) (sys : Sys) (src : RandSource) (c : Captcha)
    (hok : Generate fuel sys src = .ok c) :
    Generate.digits src digitCount 0 "" = .ok c.Answer := by
  unfold Generate at hok
  cases hd : Generate.digits src digitCount 0 "" with
  | error e => simp [hd] at hok
  | ok answer =>
    simp only [hd] at hok
    cases hl : Generate.noiseLines fuel src noiseLinesCount digitCount
        (image.Uniform ⟨240, 240, 240, 255⟩) with
    | error e => simp [hl] at hok
    | panic m => simp [hl] at hok
    | outOfFuel => simp [hl] at hok
    | ok img₁ =>
      simp only [hl] at hok
      cases hg : Generate.drawDigits fuel answer.data 0 img₁ with
      | none => simp [hg] at hok
      | some img₂ =>
        simp only [hg] at hok
        cases hdots : Generate.noiseDots src noiseDotsCount (digitCount + 4 * noiseLinesCount)
            img₂ with
        | error e => simp [hdots] at hok
        | panic m => simp [hdots] at hok
        | outOfFuel => simp [hdots] at hok
        | ok img₃ =>
          simp only [hdots] at hok
          cases henc : sys.pngEncode img₃ with
          | error e => simp [henc] at hok
          | ok buf =>
            simp only [henc, Result.ok.injEq] at hok
            rw [← hok]

/-- The answer of a successful `Generate`: the decimal characters of the four numbers drawn
for the digits, in the order of the draws. -/
theorem generate_answer_chars (fuel : Nat) (sys : Sys) (src : RandSource) (c : Captcha)
    (hok : Generate fuel sys src = .ok c) :
    ∃ d₀ d₁ d₂ d₃ : Nat, d₀ < 10 ∧ d₁ < 10 ∧ d₂ < 10 ∧ d₃ < 10
      ∧ randInt src 0 10 = .ok d₀ ∧ randInt src 1 10 = .ok d₁
      ∧ randInt src 2 10 = .ok d₂ ∧ randInt src 3 10 = .ok d₃
      ∧ c.Answer = toString d₀ ++ toString d₁ ++ toString d₂ ++ toString d₃
      ∧ c.Answer
        = ⟨[Nat.digitChar d₀, Nat.digitChar d₁, Nat.digitChar d₂, Nat.digitChar d₃]⟩
      ∧ c.Answer.length = 4 ∧ c.Answer.utf8ByteSize = 4
      ∧ ∀ ch ∈ c.Answer.data, '0' ≤ ch ∧ ch ≤ '9' := by
  obtain ⟨d₀, d₁, d₂, d₃, h₀, h₁, h₂, h₃, r₀, r₁, r₂, r₃, ha⟩ :=
    digits_answer src c.Answer (generate_ok_answer fuel sys src c hok)
  obtain ⟨t₀, l₀, u₀, s₀⟩ := toString_digit d₀ h₀
  obtain ⟨t₁, l₁, u₁, s₁⟩ := toString_digit d₁ h₁
  obtain ⟨t₂, l₂, u₂, s₂⟩ := toString_digit d₂ h₂
  obtain ⟨t₃, l₃, u₃, s₃⟩ := toString_digit d₃ h₃
  have hchars : c.Answer
      = ⟨[Nat.digitChar d₀, Nat.digitChar d₁, Nat.digitChar d₂, Nat.digitChar d₃]⟩ := by
    rw [ha, t₀, t₁, t₂, t₃]
    apply String.ext
    simp [String.singleton]
  refine ⟨d₀, d₁, d₂, d₃, h₀, h₁, h₂, h₃, r₀, r₁, r₂, r₃, ?_, hchars, ?_, ?_, ?_⟩
  · rw [ha]; simp
  · rw [hchars]; rfl
  · rw [hchars]
    simp [String.utf8ByteSize, String.utf8ByteSize.go, s₀, s₁, s₂, s₃]
  · rw [hchars]
    intro ch hch
    simp only [List.mem_cons, List.mem_singleton, List.not_mem_nil, or_false] at hch
    rcases hch with h | h | h | h <;> subst h
    · exact ⟨l₀, u₀⟩
    · exact ⟨l₁, u₁⟩
    · exact ⟨l₂, u₂⟩
    · exact ⟨l₃, u₃⟩

/-- C14: the answer of a successful `Generate`. Whenever `Generate` succeeds, its four digit
draws succeeded with numbers `d₀`, `d₁`, `d₂`, `d₃` below 10, and the answer is the string of
their decimal characters in the order of the draws; it has exactly 4 characters (and 4
bytes), each in `'0'..'9'`. -/
theorem generate_answer_digits (fuel : Nat) (sys : Sys) (src : RandSource) (c : Captcha)
    (hok : Generate fuel sys src = .ok c) :
    ∃ d₀ d₁ d₂ d₃ : Nat, d₀ < 10 ∧ d₁ < 10 ∧ d₂ < 10 ∧ d₃ < 10
      ∧ randInt src 0 10 = .ok d₀ ∧ randInt src 1 10 = .ok d₁
      ∧ randInt src 2 10 = .ok d₂ ∧ randInt src 3 10 = .ok d₃
      ∧ c.Answer = toString d₀ ++ toString d₁ ++ toString d₂ ++ toString d₃
      ∧ c.Answer
        = ⟨[Nat.digitChar d₀, Nat.digitChar d₁, Nat.digitChar d₂, Nat.digitChar d₃]⟩
      ∧ c.Answer.length = 4 ∧ c.Answer.utf8ByteSize = 4
      ∧ ∀ ch ∈ c.Answer.data, '0' ≤ ch ∧ ch ≤ '9' :=
  generate_answer_chars fuel sys src c hok

set_option maxRecDepth 100000 in
/-- Witness of `generate_answer_digits`: with a source that draws 0 every time, `Generate`
succeeds and the answer is `0000`, leading zeros kept. -/
theorem generate_answer_digits_witness :
    ∃ d₀ d₁ d₂ d₃ : Nat, d₀ < 10 ∧ d₁ < 10 ∧ d₂ < 10 ∧ d₃ < 10
      ∧ randInt zeroSource 0 10 = .ok d₀ ∧ randInt zeroSource 1 10 = .ok d₁
      ∧ randInt zeroSource 2 10 = .ok d₂ ∧ randInt zeroSource 3 10 = .ok d₃
      ∧ "0000" = toString d₀ ++ toString d₁ ++ toString d₂ ++ toString d₃
      ∧ "0000" = (⟨[Nat.digitChar d₀, Nat.digitChar d₁, Nat.digitChar d₂, Nat.digitChar d₃]⟩
          : String)
      ∧ "0000".length = 4 ∧ "0000".utf8ByteSize = 4
      ∧ ∀ ch ∈ "0000".data, '0' ≤ ch ∧ ch ≤ '9' :=
  generate_answer_digits 300 sampleSys zeroSource ⟨[137, 80, 78, 71, 50, 50], "0000"⟩
    (by decide)

/-- The outcomes of `Generate`, with enough fuel for every line (more than 278). A digit draw
that fails gives the returned error; when the four digit draws succeed and a draw for a noise
line or a noise dot fails, `Generate` panics; when all 244 draws succeed, it returns what the
encoder makes of the image, an error or the challenge. The fuel never runs out. -/
theorem generate_outcome (fuel : Nat) (hfuel : 278 < fuel) (sys : Sys) (src : RandSource) :
    (∀ k e, k < 4 → drawsOk src 0 k → src k = .error e →
        Generate fuel sys src = .error ("failed to generate random digit: " ++ e))
      ∧ (drawsOk src 0 4 → ¬ drawsOk src 4 244 → Generate fuel sys src = .panic nilPanic)
      ∧ (drawsOk src 0 244 →
          ∃ img answer, Generate.digits src 4 0 "" = .ok answer
            ∧ Generate fuel sys src =
              match sys.pngEncode img with
              | .error err => .error ("failed to encode image: " ++ err)
              | .ok buf => .ok ⟨buf, answer⟩) := by
  refine ⟨fun k e hk hok herr => ?_, fun hdig hbad => ?_, fun hall => ?_⟩
  · have h := digits_error src e 4 0 k "" hk (by simpa using hok) (by simpa using herr)
    unfold Generate
    simp only [digitCount, h]
  · obtain ⟨answer, ha⟩ := digits_ok src 4 0 "" (by simpa using hdig)
    unfold Generate
    simp only [digitCount, noiseLinesCount, noiseDotsCount, ha, Nat.reduceMul, Nat.reduceAdd]
    rcases noiseLines_outcome fuel hfuel src 10 4 (image.Uniform ⟨240, 240, 240, 255⟩) with
      ⟨hlines, img₁, h₁⟩ | ⟨_, h₁⟩
    · simp only [h₁]
      obtain ⟨img₂, h₂⟩ := drawDigits_ends fuel (by omega) answer.data 0 img₁
        (by rw [digits_length src answer ha]; norm_num)
      simp only [h₂]
      rcases noiseDots_outcome src 100 44 img₂ with ⟨hdots, _⟩ | ⟨_, h₃⟩
      · exfalso
        apply hbad
        intro j h1 h2
        by_cases hj : j < 44
        · exact hlines j h1 (by omega)
        · exact hdots j (by omega) (by omega)
      · simp only [h₃]
    · simp only [h₁]
  · obtain ⟨answer, ha⟩ := digits_ok src 4 0 ""
      (fun j h1 h2 => hall j h1 (by omega))
    rcases noiseLines_outcome fuel hfuel src 10 4 (image.Uniform ⟨240, 240, 240, 255⟩) with
      ⟨_, img₁, h₁⟩ | ⟨hbad, _⟩
    · obtain ⟨img₂, h₂⟩ := drawDigits_ends fuel (by omega) answer.data 0 img₁
        (by rw [digits_length src answer ha]; norm_num)
      rcases noiseDots_outcome src 100 44 img₂ with ⟨_, img₃, h₃⟩ | ⟨hbad, _⟩
      · refine ⟨img₃, answer, ha, ?_⟩
        unfold Generate
        simp only [digitCount, noiseLinesCount, noiseDotsCount, ha, Nat.reduceMul,
          Nat.reduceAdd, h₁, h₂, h₃]
      · exact absurd (fun j h1 h2 => hall j (by omega) (by omega)) hbad
    · exact absurd (fun j h1 h2 => hall j (by omega) (by omega)) hbad

set_option maxRecDepth 100000 in
/-- C15 at the failing input: every draw gives 0 except call 4, the first coordinate of the
first noise line, which fails. The four digit draws succeeded, so `Generate` does not return
the error of the failed draw: `drawNoiseLine` discards it and the method call on the nil
number panics. When instead a digit draw fails (call 0), the error is returned. -/
theorem generate_panics_on_failed_noise_draw :
    Generate 300 sampleSys failingNoiseSource = .panic nilPanic
      ∧ Generate 300 sampleSys (fun _ => .error "entropy source failed")
        = .error "failed to generate random digit: entropy source failed" := by
  constructor <;> decide

/-- A name without its last four characters, when it ends in `.png`. -/
theorem take_stem (stem : String) :
    ¬ (stem ++ ".png").length < 4
      ∧ (⟨(stem ++ ".png").data.take ((stem ++ ".png").length - 4)⟩ : String) = stem := by
  have hlen : (stem ++ ".png").length = stem.length + 4 := by
    rw [String.length_append]; rfl
  refine ⟨by omega, ?_⟩
  apply String.ext
  rw [hlen, String.data_append]
  refine List.take_left' ?_
  rw [Nat.add_sub_cancel]
  cases stem
  rfl

/-- The fallback of `LoadFromAssets`: without the captcha directory, or when listing `*.png`
in it fails or lists no file, it returns what `Generate` returns. -/
theorem loadFromAssets_generates (s : Service) (fuel : Nat) (sys : Sys) (src : RandSource)
    (h : sys.StatNotExist (sys.Join s.assetsDir "captcha") = true
      ∨ (∃ e, sys.Glob (sys.Join (sys.Join s.assetsDir "captcha") "*.png") = .error e)
      ∨ sys.Glob (sys.Join (sys.Join s.assetsDir "captcha") "*.png") = .ok []) :
    s.LoadFromAssets fuel sys src = Generate fuel sys src := by
  simp only [Service.LoadFromAssets]
  by_cases hstat : sys.StatNotExist (sys.Join s.assetsDir "captcha") = true
  · rw [if_pos hstat]
  · rw [if_neg hstat]
    rcases h with h | ⟨e, he⟩ | he
    · exact absurd h hstat
    · simp only [he]
    · simp only [he, List.length_nil, if_true]

/-- When all 244 draws succeed and the encoder accepts the image, `Generate` returns a
challenge, with an answer of length 4. -/
theorem generate_challenge (fuel : Nat) (hfuel : 278 < fuel) (sys : Sys) (src : RandSource)
    (hsrc : drawsOk src 0 244) (henc : ∀ img, ∃ buf, sys.pngEncode img = .ok buf) :
    ∃ c, Generate fuel sys src = .ok c ∧ c.Answer.length = 4 := by
  obtain ⟨img, answer, -, hgen⟩ := (generate_outcome fuel hfuel sys src).2.2 hsrc
  obtain ⟨buf, hbuf⟩ := henc img
  rw [hbuf] at hgen
  refine ⟨⟨buf, answer⟩, hgen, ?_⟩
  obtain ⟨_, _, _, _, _, _, _, _, _, _, _, _, _, _, hlen, _⟩ :=
    generate_answer_chars fuel sys src ⟨buf, answer⟩ hgen
  exact hlen

/-- C19: `LoadFromAssets` falls back to generation. When the captcha directory under the
assets directory does not exist, or listing `*.png` in it fails or lists no file,
`LoadFromAssets` returns exactly what `Generate` returns; a challenge that `Generate` returns
has an answer of length 4, and `Generate`, so `LoadFromAssets` in these cases, does return a
challenge when its 244 draws succeed and the encoder accepts the image (fuel above 278).
When the directory exists and files are listed, whatever `LoadFromAssets` returns as a
challenge is the content of one of the listed files, with the base name of that file less
its last four characters as the answer; when the index draw and the read succeed for a file
named `stem.png`, it returns the content with answer `stem`; and a single listed file is
returned without a draw. -/
theorem loadFromAssets_fallback (s : Service) (fuel : Nat) (sys : Sys) (src : RandSource) :
    let captchaDir := sys.Join s.assetsDir "captcha"
    let listing := sys.Glob (sys.Join captchaDir "*.png")
    (sys.StatNotExist captchaDir = true →
        s.LoadFromAssets fuel sys src = Generate fuel sys src)
      ∧ (((∃ e, listing = .error e) ∨ listing = .ok []) →
        s.LoadFromAssets fuel sys src = Generate fuel sys src)
      ∧ (∀ c, Generate fuel sys src = .ok c → c.Answer.length = 4)
      ∧ ((sys.StatNotExist captchaDir = true ∨ (∃ e, listing = .error e) ∨ listing = .ok []) →
          278 < fuel → drawsOk src 0 244 → (∀ img, ∃ buf, sys.pngEncode img = .ok buf) →
          ∃ c, s.LoadFromAssets fuel sys src = .ok c ∧ Generate fuel sys src = .ok c
            ∧ c.Answer.length = 4)
      ∧ (sys.StatNotExist captchaDir = false → ∀ files, listing = .ok files → files ≠ [] →
          (∀ c, s.LoadFromAssets fuel sys src = .ok c →
            ∃ selectedFile ∈ files, sys.ReadFile selectedFile = .ok c.Image
              ∧ c.Answer = ⟨(sys.Base selectedFile).data.take
                  ((sys.Base selectedFile).length - 4)⟩)
          ∧ (∀ v selectedFile data stem, src 0 = .ok v →
              files[v % files.length]? = some selectedFile →
              sys.ReadFile selectedFile = .ok data →
              sys.Base selectedFile = stem ++ ".png" →
              s.LoadFromAssets fuel sys src = .ok ⟨data, stem⟩)
          ∧ (∀ selectedFile data stem, files = [selectedFile] →
              sys.ReadFile selectedFile = .ok data →
              sys.Base selectedFile = stem ++ ".png" →
              s.LoadFromAssets fuel sys src = .ok ⟨data, stem⟩)) := by
  intro captchaDir listing
  refine ⟨fun hstat => ?_, fun hlist => ?_, fun c hc => ?_, fun hfall hfuel hsrc henc => ?_,
    fun hstat files hfiles hne => ?_⟩
  · exact loadFromAssets_generates s fuel sys src (Or.inl hstat)
  · exact loadFromAssets_generates s fuel sys src (Or.inr hlist)
  · obtain ⟨_, _, _, _, _, _, _, _, _, _, _, _, _, _, hlen, _⟩ :=
      generate_answer_chars fuel sys src c hc
    exact hlen
  · obtain ⟨c, hc, hlen⟩ := generate_challenge fuel hfuel sys src hsrc henc
    exact ⟨c, by rw [loadFromAssets_generates s fuel sys src hfall]; exact hc, hc, hlen⟩
  · have hstat' : ¬ sys.StatNotExist (sys.Join s.assetsDir "captcha") = true := by
      simp only [captchaDir] at hstat
      simp [hstat]
    have hfiles' : sys.Glob (sys.Join (sys.Join s.assetsDir "captcha") "*.png") = .ok files :=
      hfiles
    have hlen : ¬ files.length = 0 := fun h => hne (List.length_eq_zero.mp h)
    have hload : s.LoadFromAssets fuel sys src =
        match randInt src 0 files.length with
        | .error err => .error ("failed to generate random index: " ++ err)
        | .ok n =>
          match files[n]? with
          | none => .panic "index out of range"
          | some selectedFile =>
            if (sys.Base selectedFile).length < 4 then .panic "slice bounds out of range"
            else
              match sys.ReadFile selectedFile with
              | .error err => .error ("failed to read captcha file: " ++ err)
              | .ok data =>
                .ok ⟨data, ⟨(sys.Base selectedFile).data.take
                  ((sys.Base selectedFile).length - 4)⟩⟩ := by
      simp only [Service.LoadFromAssets]
      rw [if_neg hstat']
      simp only [hfiles', if_neg hlen]
    refine ⟨?_, ?_, ?_⟩
    · intro c hc
      rw [hload] at hc
      cases hr : randInt src 0 files.length with
      | error e => simp [hr] at hc
      | ok n =>
        simp only [hr] at hc
        cases hsel : files[n]? with
        | none => simp [hsel] at hc
        | some selectedFile =>
          simp only [hsel] at hc
          by_cases hshort : (sys.Base selectedFile).length < 4
          · simp [hshort] at hc
          · rw [if_neg hshort] at hc
            cases hread : sys.ReadFile selectedFile with
            | error e => simp [hread] at hc
            | ok data =>
              simp only [hread, Result.ok.injEq] at hc
              refine ⟨selectedFile, List.getElem?_mem hsel, ?_, ?_⟩
              · rw [← hc]; exact hread
              · rw [← hc]
    · intro v selectedFile data stem hv hsel hread hbase
      have hr : randInt src 0 files.length = .ok (v % files.length) := by
        by_cases h1 : files.length = 1
        · simp [randInt, h1, Nat.mod_one]
        · exact randInt_of_ok src 0 _ v h1 hv
      rw [hload]
      simp only [hr, hsel, hbase, hread, if_neg (take_stem stem).1, (take_stem stem).2]
    · intro selectedFile data stem hone hread hbase
      have hr : randInt src 0 files.length = .ok 0 := by
        simp [randInt, hone]
      have hsel : files[0]? = some selectedFile := by rw [hone]; rfl
      rw [hload]
      simp only [hr, hsel, hbase, hread, if_neg (take_stem stem).1, (take_stem stem).2]

set_option maxRecDepth 100000 in
/-- Witness of `loadFromAssets_fallback`: without assets and with a source that draws 0
every time, `LoadFromAssets` returns the challenge of `Generate`, whose answer has length 4;
with the file `1234.png` stored it returns the content of the file with the answer `1234`,
also when the source fails. -/
theorem loadFromAssets_fallback_witness :
    ((⟨"assets"⟩ : Service).LoadFromAssets 300 sampleSys zeroSource
        = Generate 300 sampleSys zeroSource)
      ∧ (∃ c, (⟨"assets"⟩ : Service).LoadFromAssets 300 sampleSys zeroSource = .ok c
          ∧ Generate 300 sampleSys zeroSource = .ok c ∧ c.Answer.length = 4)
      ∧ (⟨"assets"⟩ : Service).LoadFromAssets 300 storedSys zeroSource
        = .ok ⟨[137, 80, 78, 71, 50, 50], "1234"⟩
      ∧ (⟨"assets"⟩ : Service).LoadFromAssets 300 storedSys (fun _ => .error "entropy source failed")
        = .ok ⟨[137, 80, 78, 71, 50, 50], "1234"⟩ :=
  ⟨(loadFromAssets_fallback ⟨"assets"⟩ 300 sampleSys zeroSource).1 rfl,
    (loadFromAssets_fallback ⟨"assets"⟩ 300 sampleSys zeroSource).2.2.2.1 (Or.inl rfl)
      (by decide) (fun j _ _ => ⟨0, rfl⟩) (fun img => ⟨_, rfl⟩),
    ((loadFromAssets_fallback ⟨"assets"⟩ 300 storedSys zeroSource).2.2.2.2 rfl
      ["assets/captcha/1234.png"] rfl (by decide)).2.1 0 "assets/captcha/1234.png"
      [137, 80, 78, 71, 50, 50] "1234" rfl rfl rfl (by decide),
    ((loadFromAssets_fallback ⟨"assets"⟩ 300 storedSys (fun _ => .error "entropy source failed")).2.2.2.2
      rfl ["assets/captcha/1234.png"] rfl (by decide)).2.2 "assets/captcha/1234.png"
      [137, 80, 78, 71, 50, 50] "1234" rfl rfl (by decide)⟩

set_option maxRecDepth 100000 in
/-- C20 at the failing input: the random source draws 0 every time. Every challenge that the
tool generates then has the answer `0000`, and the tool stores its image under the names of
the list, the first one as `assets/captcha/1234.png`. `LoadFromAssets` later returns that
image with the answer `1234` taken from the name, while the image is the one of the challenge
`0000`; a challenge whose answer is `1234` (draws 1, 2, 3, 4) has another image. -/
theorem sample_file_holds_another_answer :
    generatecaptchas.main 300 sampleSys (fun _ => zeroSource)
        = .ok [("assets/captcha/1234.png", [137, 80, 78, 71, 50, 50]),
               ("assets/captcha/5678.png", [137, 80, 78, 71, 50, 50]),
               ("assets/captcha/9012.png", [137, 80, 78, 71, 50, 50]),
               ("assets/captcha/3456.png", [137, 80, 78, 71, 50, 50]),
               ("assets/captcha/7890.png", [137, 80, 78, 71, 50, 50]),
               ("assets/captcha/2468.png", [137, 80, 78, 71, 50, 50]),
               ("assets/captcha/1357.png", [137, 80, 78, 71, 50, 50]),
               ("assets/captcha/9753.png", [137, 80, 78, 71, 50, 50])]
      ∧ Generate 300 sampleSys zeroSource = .ok ⟨[137, 80, 78, 71, 50, 50], "0000"⟩
      ∧ (⟨"assets"⟩ : Service).LoadFromAssets 300 storedSys zeroSource
        = .ok ⟨[137, 80, 78, 71, 50, 50], "1234"⟩
      ∧ Generate 300 sampleSys (fun i => .ok (i + 1))
        = .ok ⟨[137, 80, 78, 71, 240, 50], "1234"⟩ := by
  refine ⟨?_, ?_, ?_, ?_⟩ <;> decide

/-! ## The answer handler against the timeout task -/

/-- The two phases of the answer handler, one after the other, are the answer handler. -/
theorem answer_phases (env : Env) (ctx : Context) (msg : Message) (chatID userID : Int)
    (username : String) (photoMsgID : Int) (w : World) :
    Race.run env ctx msg chatID userID username photoMsgID [.answerCheck, .answerAct] w
      = HandleCaptchaTextAnswer env ctx ⟨some msg⟩ w := by
  simp only [Race.run, List.foldl, Race.step, HandleCaptchaTextAnswer.check,
    HandleCaptchaTextAnswer, HandleCaptchaTextAnswer.act]
  by_cases htext : msg.Text = ""
  · simp [htext]
  · by_cases hctx : ctx.captchaFSM = true
    · cases hrec : w.fsm.GetState msg.From.ID with
      | none => simp [htext, hctx]
      | some data =>
        have hst : w.fsm.states msg.From.ID = some data := hrec
        cases hexp : (env.Now w.tick).After data.ExpiresAt <;>
          simp [htext, hctx, World.isExpired, hst, hexp]
    · simp [htext, hctx]

/-- The two phases of the timeout task, one after the other, are the timeout task. -/
theorem timeout_phases (env : Env) (ctx : Context) (msg : Message) (chatID userID : Int)
    (username : String) (photoMsgID : Int) (w : World) :
    Race.run env ctx msg chatID userID username photoMsgID [.timeoutCheck, .timeoutAct] w
      = scheduleTimeoutCheck env chatID userID username photoMsgID w := by
  simp only [Race.run, List.foldl, Race.step, scheduleTimeoutCheck.check,
    scheduleTimeoutCheck, scheduleTimeoutCheck.act]
  cases hrec : w.fsm.GetState userID with
  | none => simp
  | some data =>
    have hst : w.fsm.states userID = some data := hrec
    cases hexp : (env.Now w.tick).After data.ExpiresAt <;>
      simp [World.isExpired, hst, hexp]

/-- The answer handler leaves the trace as it is when the sender has no live record. -/
theorem answer_handler_idle (env : Env) (ctx : Context) (msg : Message) (w : World)
    (hdead : w.fsm.IsExpired (env.Now w.tick) msg.From.ID = true) :
    (HandleCaptchaTextAnswer env ctx ⟨some msg⟩ w).trace = w.trace := by
  simp only [HandleCaptchaTextAnswer, CaptchaFSM.GetState]
  by_cases htext : msg.Text = ""
  · simp [htext]
  · by_cases hctx : ctx.captchaFSM = true
    · cases hst : w.fsm.states msg.From.ID with
      | none => simp [htext, hctx]
      | some data =>
        have hexp : (env.Now w.tick).After data.ExpiresAt = true := by
          simpa [CaptchaFSM.IsExpired, hst] using hdead
        simp [htext, hctx, World.isExpired, hst, hexp]
    · simp [htext, hctx]

/-- One after the other, the two routines exclude each other. After a correct answer was
handled, the timeout task of the sender does nothing; and after the timeout task evicted a
participant, the answer handler does nothing for a text of that participant. -/
theorem serial_orders_exclusive (env : Env) (ctx : Context) (msg : Message)
    (data : CaptchaData) (chatID : Int) (username : String) (photoMsgID : Int) (w : World)
    (hrec : w.fsm.GetState msg.From.ID = some data) :
    (ctx.captchaFSM = true → msg.Text ≠ "" →
        w.fsm.IsExpired (env.Now w.tick) msg.From.ID = false → msg.Text = data.Answer →
        (scheduleTimeoutCheck env chatID msg.From.ID username photoMsgID
            (HandleCaptchaTextAnswer env ctx ⟨some msg⟩ w)).trace
          = (HandleCaptchaTextAnswer env ctx ⟨some msg⟩ w).trace)
      ∧ (w.fsm.IsExpired (env.Now w.tick) msg.From.ID = true →
        (HandleCaptchaTextAnswer env ctx ⟨some msg⟩
            (scheduleTimeoutCheck env chatID msg.From.ID username photoMsgID w)).trace
          = (scheduleTimeoutCheck env chatID msg.From.ID username photoMsgID w).trace) := by
  constructor
  · intro hctx htext hlive hans
    have hgone : (HandleCaptchaTextAnswer env ctx ⟨some msg⟩ w).fsm.GetState msg.From.ID
        = none := by
      rw [HandleCaptchaTextAnswer_correct env ctx ⟨some msg⟩ msg data w hctx rfl htext hrec
        hlive hans]
      simp [CaptchaFSM.GetState, CaptchaFSM.DeleteState]
    exact (scheduleTimeoutCheck_idle env chatID msg.From.ID username photoMsgID _
      (Or.inl hgone)).1
  · intro hexp
    have hfire := (scheduleTimeoutCheck_fire env chatID msg.From.ID username photoMsgID data w
      hrec hexp).1
    have hgone : (scheduleTimeoutCheck env chatID msg.From.ID username photoMsgID
        w).fsm.IsExpired (env.Now (scheduleTimeoutCheck env chatID msg.From.ID username
          photoMsgID w).tick) msg.From.ID = true := by
      rw [hfire]
      simp [CaptchaFSM.IsExpired, CaptchaFSM.DeleteState]
    exact answer_handler_idle env ctx msg _ hgone

/-- C18 at the failing interleaving. User 10 holds the sample record, which expires at second
1030, and sends the right answer. The answer handler checks the record at second 1029.95
(present, not expired); the timeout task wakes and checks it at second 1030.05 (present,
expired); the handler then deletes the record and posts the success notice; the timeout task
then deletes the record again, bans user 10 and posts the timeout notice. Both outcomes are
emitted. The registry ends without the record. -/
theorem success_and_timeout_both_emitted :
    requests (Race.run raceEnv sampleCtx rightAnswer 1 10 "[Ann](tg://user?id=10)" 100
        [.answerCheck, .timeoutCheck, .answerAct, .timeoutAct] sampleWorld).trace
        = [.DeleteMessage ⟨1, 7⟩, .DeleteMessage ⟨1, 100⟩,
           .SendMessage ⟨1, "captcha_success", "Markdown"⟩,
           .BanChatMember ⟨1, 10, 1630, false⟩, .DeleteMessage ⟨1, 100⟩,
           .SendMessage (timeoutNotice 1 "[Ann](tg://user?id=10)"),
           .DeleteMessage ⟨1, 101⟩]
      ∧ (Race.run raceEnv sampleCtx rightAnswer 1 10 "[Ann](tg://user?id=10)" 100
        [.answerCheck, .timeoutCheck, .answerAct, .timeoutAct]
          sampleWorld).fsm.GetState 10 = none := by
  constructor <;> decide

/-! ## The room of an eviction -/

/-- C21 at the failing input: user 10 holds the sample record, whose room is 1 and whose
image is message 100 of room 1, and sends a wrong answer in room 2. The answer handler bans
user 10 from room 2 and asks for the deletion of message 100 in room 2: the requests go to
the room of the text message, not to the room stored in the record. -/
theorem eviction_addresses_room_of_text :
    sampleWorld.fsm.GetState 10 = some sampleData ∧ sampleData.ChatID = 1
      ∧ sampleData.PhotoMessageID = 100
      ∧ requests (HandleCaptchaTextAnswer sampleEnv sampleCtx wrongAnswerElsewhere
          sampleWorld).trace
        = [.DeleteMessage ⟨2, 7⟩, .BanChatMember ⟨2, 10, 1600, false⟩,
           .DeleteMessage ⟨2, 100⟩, .SendMessage ⟨2, "captcha_failed", ""⟩] := by
  refine ⟨rfl, rfl, rfl, ?_⟩
  decide

/-! ## The points and the pixels of a line -/

/-- C22: for every image, colour and end points, inside or outside the canvas, `drawLine`
ends when the loop over its points does, and the image it then leaves has the colour on
every pixel of the set S (the visited points on the canvas with their east and south
neighbours on the canvas), all of them on the canvas, and the colour of the image before on
every pixel not in S; between end points of magnitude up to 2^49 the loop ends as soon as
the fuel exceeds the longer of the two distances. -/
theorem drawLine_pixels (fuel : Nat) (img : image.RGBA) (x1 y1 x2 y2 : Int)
    (col : color.RGBA) :
    (drawLine fuel img x1 y1 x2 y2 col).isSome = (drawLine.visited fuel x1 y1 x2 y2).isSome
      ∧ (∀ pts, drawLine.visited fuel x1 y1 x2 y2 = some pts →
          ∃ img', drawLine fuel img x1 y1 x2 y2 col = some img'
            ∧ ∀ a b : Int,
                (drawLine.specPixels pts a b →
                  img'.At a b = col ∧ (0 ≤ a ∧ a < 200 ∧ 0 ≤ b ∧ b < 80))
                ∧ (¬ drawLine.specPixels pts a b → img'.At a b = img.At a b))
      ∧ (|x1| ≤ 2 ^ 49 → |y1| ≤ 2 ^ 49 → |x2| ≤ 2 ^ 49 → |y2| ≤ 2 ^ 49 →
          max |x2 - x1| |y2 - y1| < fuel →
          ∃ pts, drawLine.visited fuel x1 y1 x2 y2 = some pts) := by
  refine ⟨?_, ?_, ?_⟩
  · rw [drawLine_eq_paint]
    cases drawLine.visited fuel x1 y1 x2 y2 <;> rfl
  · intro pts hpts
    refine ⟨drawLine.paint col pts img, ?_, fun a b => paint_specPixels col pts img a b⟩
    rw [drawLine_eq_paint, hpts]
    rfl
  · intro hx1 hy1 hx2 hy2 hfuel
    obtain ⟨pts, hlen, hvis, -⟩ := visited_spec x1 y1 x2 y2 hx1 hy1 hx2 hy2
    refine ⟨pts, ?_⟩
    rw [hvis fuel, if_pos]
    omega

set_option maxRecDepth 100000 in
/-- Witness of `drawLine_pixels`: the line from (198, 78) to (201, 81) on the background of
`Generate` leaves the canvas after two points. -/
theorem drawLine_pixels_witness :
    drawLine.visited 5 198 78 201 81 = some [(198, 78), (199, 79), (200, 80), (201, 81)]
      ∧ ∃ img', drawLine 5 (image.Uniform ⟨240, 240, 240, 255⟩) 198 78 201 81
            ⟨200, 200, 200, 255⟩ = some img'
          ∧ ∀ a b : Int,
              (drawLine.specPixels [(198, 78), (199, 79), (200, 80), (201, 81)] a b →
                img'.At a b = ⟨200, 200, 200, 255⟩ ∧ (0 ≤ a ∧ a < 200 ∧ 0 ≤ b ∧ b < 80))
              ∧ (¬ drawLine.specPixels [(198, 78), (199, 79), (200, 80), (201, 81)] a b →
                img'.At a b = (image.Uniform ⟨240, 240, 240, 255⟩).At a b) :=
  ⟨by decide,
    (drawLine_pixels 5 (image.Uniform ⟨240, 240, 240, 255⟩) 198 78 201 81
      ⟨200, 200, 200, 255⟩).2.1 _ (by decide)⟩

/-- C23, for end points of magnitude up to 2^49: the loop of `drawLine` ends after exactly
max(|x2 − x1|, |y2 − y1|) + 1 iterations, no fewer sufficing; the points it visits start at
`(x1, y1)`, end at `(x2, y2)`, and each next point differs from the one before by at most 1
in x and in y, never farther from `(x2, y2)` on either axis. -/
theorem bresenham_line (x1 y1 x2 y2 : Int) (hx1 : |x1| ≤ 2 ^ 49) (hy1 : |y1| ≤ 2 ^ 49)
    (hx2 : |x2| ≤ 2 ^ 49) (hy2 : |y2| ≤ 2 ^ 49) :
    ∃ pts : List (Int × Int),
      (pts.length : Int) = max |x2 - x1| |y2 - y1| + 1
        ∧ (∀ fuel, drawLine.visited fuel x1 y1 x2 y2
            = if pts.length ≤ fuel then some pts else none)
        ∧ (∀ fuel img col, (drawLine fuel img x1 y1 x2 y2 col).isSome
            = decide (pts.length ≤ fuel))
        ∧ pts.head? = some (x1, y1) ∧ pts.getLast? = some (x2, y2)
        ∧ List.Chain' (drawLine.stepsTowards x2 y2) pts := by
  obtain ⟨pts, hlen, hvis, hdraw, hhead, hlast, hchain, -⟩ :=
    drawLine_visits x1 y1 x2 y2 hx1 hy1 hx2 hy2
  refine ⟨pts, hlen, hvis, ?_, hhead, hlast, hchain⟩
  intro fuel img col
  rw [hdraw fuel img col]
  by_cases hf : pts.length ≤ fuel
  · simp [hf]
  · simp [hf]

/-- Witness of `bresenham_line`: the line from (0, 0) to (5, 2). -/
theorem bresenham_line_witness :
    (|(0 : Int)| ≤ 2 ^ 49 ∧ |(5 : Int)| ≤ 2 ^ 49 ∧ |(2 : Int)| ≤ 2 ^ 49)
      ∧ ∃ pts : List (Int × Int),
        (pts.length : Int) = max |(5 : Int) - 0| |(2 : Int) - 0| + 1
          ∧ (∀ fuel, drawLine.visited fuel 0 0 5 2
              = if pts.length ≤ fuel then some pts else none)
          ∧ (∀ fuel img col, (drawLine fuel img 0 0 5 2 col).isSome
              = decide (pts.length ≤ fuel))
          ∧ pts.head? = some (0, 0) ∧ pts.getLast? = some (5, 2)
          ∧ List.Chain' (drawLine.stepsTowards 5 2) pts :=
  ⟨⟨by norm_num, by norm_num, by norm_num⟩,
    bresenham_line 0 0 5 2 (by norm_num) (by norm_num) (by norm_num) (by norm_num)⟩

set_option maxRecDepth 100000 in
/-- C23 at end points whose difference does not fit an `int`: from (2^63 − 1, 0) to
(−2^63, 5) the difference `x2 - x1` wraps to 1, the seventh point of the loop lies past
`y2 = 5`, one step farther from the end point than the sixth, and the loop has not ended;
whenever the loop ends, its path has this step away from `(x2, y2)`. -/
theorem bresenham_line_wraps :
    drawLine.walked 7 9223372036854775807 0 (-9223372036854775808) 5
        = [(9223372036854775807, 0), (9223372036854775807, 1), (9223372036854775807, 2),
           (9223372036854775806, 3), (9223372036854775806, 4), (9223372036854775806, 5),
           (9223372036854775806, 6)]
      ∧ ¬ drawLine.stepsTowards (-9223372036854775808) 5 (9223372036854775806, 5)
          (9223372036854775806, 6)
      ∧ drawLine.visited 7 9223372036854775807 0 (-9223372036854775808) 5 = none
      ∧ ∀ fuel pts,
          drawLine.visited fuel 9223372036854775807 0 (-9223372036854775808) 5 = some pts →
          ¬ List.Chain' (drawLine.stepsTowards (-9223372036854775808) 5) pts := by
  have hwalk : drawLine.walked 7 9223372036854775807 0 (-9223372036854775808) 5
      = [(9223372036854775807, 0), (9223372036854775807, 1), (9223372036854775807, 2),
         (9223372036854775806, 3), (9223372036854775806, 4), (9223372036854775806, 5),
         (9223372036854775806, 6)] := by decide
  have hstep : ¬ drawLine.stepsTowards (-9223372036854775808) 5 (9223372036854775806, 5)
      (9223372036854775806, 6) := by decide
  refine ⟨hwalk, hstep, by decide, ?_⟩
  intro fuel pts hpts hchain
  have htake : drawLine.walked 7 9223372036854775807 0 (-9223372036854775808) 5
      = pts.take 7 := walk_eq_take _ _ _ _ _ _ fuel _ _ _ pts hpts 7
  have hchain' := hchain.take 7
  rw [← htake, hwalk] at hchain'
  simp only [List.chain'_cons] at hchain'
  exact hstep hchain'.2.2.2.2.2.1

/-- The line of a segment of a glyph: with fuel for 41 iterations the loop ends, and the
points it visits lie within 10 columns and 20 rows of the centre. -/
theorem glyph_segment_points (fuel : Nat) (hfuel : 40 < fuel) (digit : Char) (x y : Int)
    (hx : |x| ≤ 2 ^ 48) (hy : |y| ≤ 2 ^ 48) :
    ∀ seg ∈ getDigitSegments digit,
      ∃ pts, drawLine.visited fuel (x + seg.x1) (y + seg.y1) (x + seg.x2) (y + seg.y2)
          = some pts
        ∧ ∀ p ∈ pts, (x - 10 ≤ p.1 ∧ p.1 ≤ x + 10) ∧ (y - 20 ≤ p.2 ∧ p.2 ≤ y + 20) := by
  intro seg hseg
  obtain ⟨⟨a1, a2⟩, ⟨b1, b2⟩, ⟨c1, c2⟩, ⟨d1, d2⟩⟩ := getDigitSegments_box digit seg hseg
  obtain ⟨x1, x2⟩ := abs_le.mp hx
  obtain ⟨y1, y2⟩ := abs_le.mp hy
  norm_num at x1 x2 y1 y2
  obtain ⟨pts, hlen, hvis, -, -, -, hbox⟩ :=
    visited_spec (x + seg.x1) (y + seg.y1) (x + seg.x2) (y + seg.y2)
      (by rw [abs_le]; norm_num; constructor <;> omega)
      (by rw [abs_le]; norm_num; constructor <;> omega)
      (by rw [abs_le]; norm_num; constructor <;> omega)
      (by rw [abs_le]; norm_num; constructor <;> omega)
  have hdx : |x + seg.x2 - (x + seg.x1)| ≤ 20 := by
    rw [abs_le]; constructor <;> omega
  have hdy : |y + seg.y2 - (y + seg.y1)| ≤ 40 := by
    rw [abs_le]; constructor <;> omega
  have hmax : max |x + seg.x2 - (x + seg.x1)| |y + seg.y2 - (y + seg.y1)| ≤ 40 :=
    max_le (by omega) hdy
  refine ⟨pts, ?_, ?_⟩
  · rw [hvis fuel, if_pos (by omega)]
  · intro p hp
    obtain ⟨⟨h1, h2⟩, ⟨h3, h4⟩⟩ := hbox p hp
    have m1 : x - 10 ≤ min (x + seg.x1) (x + seg.x2) := le_min (by omega) (by omega)
    have m2 : max (x + seg.x1) (x + seg.x2) ≤ x + 10 := max_le (by omega) (by omega)
    have m3 : y - 20 ≤ min (y + seg.y1) (y + seg.y2) := le_min (by omega) (by omega)
    have m4 : max (y + seg.y1) (y + seg.y2) ≤ y + 20 := max_le (by omega) (by omega)
    exact ⟨⟨by omega, by omega⟩, ⟨by omega, by omega⟩⟩

/-- The pixels of a glyph lie within 10 columns and 20 rows of the centre, and one more
to the east and to the south. -/
theorem glyph_pixels_box (fuel : Nat) (hfuel : 40 < fuel) (digit : Char) (x y : Int)
    (hx : |x| ≤ 2 ^ 48) (hy : |y| ≤ 2 ^ 48)
    (a b : Int) (h : (a, b) ∈ drawDigit.pixels fuel digit x y) :
    (x - 10 ≤ a ∧ a ≤ x + 11) ∧ (y - 20 ≤ b ∧ b ≤ y + 21) := by
  unfold drawDigit.pixels drawDigit.loop.pixels at h
  rw [List.mem_flatMap] at h
  obtain ⟨seg, hseg, hmem⟩ := h
  obtain ⟨pts, hvis, hbox⟩ := glyph_segment_points fuel hfuel digit x y hx hy seg hseg
  unfold drawSegment.pixels at hmem
  rw [hvis] at hmem
  simp only [] at hmem
  rw [List.mem_flatMap] at hmem
  obtain ⟨p, hp, hin⟩ := hmem
  obtain ⟨⟨h1, h2⟩, ⟨h3, h4⟩⟩ := hbox p hp
  rw [stroke_mem] at hin
  obtain ⟨-, hcase⟩ := hin
  rcases hcase with ⟨e1, e2⟩ | ⟨e1, e2, -⟩ | ⟨e1, e2, -⟩ <;>
    exact ⟨⟨by omega, by omega⟩, ⟨by omega, by omega⟩⟩

/-- The loop of `drawDigit` over segments whose lines end: the image has the colour on
the pixels of the segments and the colour of the image before on every other pixel. -/
theorem drawDigit_loop_pixels (fuel : Nat) (x y : Int) (col : color.RGBA) :
    ∀ (segs : List segment) (img : image.RGBA),
      (∀ seg ∈ segs, ∃ pts, drawLine.visited fuel (x + seg.x1) (y + seg.y1) (x + seg.x2)
          (y + seg.y2) = some pts) →
      ∃ img', drawDigit.loop fuel x y col segs img = some img'
        ∧ ∀ a b : Int,
            ((a, b) ∈ drawDigit.loop.pixels fuel x y segs → img'.At a b = col)
            ∧ ((a, b) ∉ drawDigit.loop.pixels fuel x y segs → img'.At a b = img.At a b) := by
  intro segs
  induction segs with
  | nil =>
    intro img _
    exact ⟨img, rfl, fun a b => ⟨fun h => absurd h (List.not_mem_nil _), fun _ => rfl⟩⟩
  | cons seg rest ih =>
    intro img hends
    obtain ⟨pts, hvis⟩ := hends seg (List.mem_cons_self _ _)
    have hseg : drawSegment fuel img seg x y col = some (drawLine.paint col pts img) := by
      unfold drawSegment
      simp only []
      rw [drawLine_eq_paint, hvis]
      rfl
    have hpix : drawSegment.pixels fuel seg x y
        = pts.flatMap fun p => drawLine.stroke p.1 p.2 := by
      unfold drawSegment.pixels
      rw [hvis]
    obtain ⟨img', hloop, hat⟩ := ih (drawLine.paint col pts img)
      (fun s hs => hends s (List.mem_cons_of_mem _ hs))
    refine ⟨img', ?_, ?_⟩
    · rw [drawDigit.loop, hseg]
      exact hloop
    · intro a b
      obtain ⟨hat₁, hat₂⟩ := hat a b
      obtain ⟨hp₁, hp₂⟩ := paint_At col a b pts img
      have hcons : (a, b) ∈ drawDigit.loop.pixels fuel x y (seg :: rest)
          ↔ (∃ p ∈ pts, (a, b) ∈ drawLine.stroke p.1 p.2)
            ∨ (a, b) ∈ drawDigit.loop.pixels fuel x y rest := by
        unfold drawDigit.loop.pixels
        rw [List.flatMap_cons, List.mem_append, hpix, List.mem_flatMap]
      constructor
      · intro h
        by_cases hrest : (a, b) ∈ drawDigit.loop.pixels fuel x y rest
        · exact hat₁ hrest
        · rw [hat₂ hrest]
          rcases hcons.mp h with h' | h'
          · exact hp₁ h'
          · exact absurd h' hrest
      · intro h
        have hrest : (a, b) ∉ drawDigit.loop.pixels fuel x y rest :=
          fun h' => h (hcons.mpr (Or.inr h'))
        rw [hat₂ hrest]
        exact hp₂ (fun h' => h (hcons.mpr (Or.inl h')))

/-- C24: the glyph of every character drawn as digit number `i` of the four, at centre
`(50 * i + 12, 40)` as `Generate` does: the pixels written are those of the points of its
segments with their east and south neighbours; every such point and both its neighbours
are on the canvas, so that no guard of `drawLine` skips a pixel; every pixel written has
50 * i + 2 ≤ x ≤ 50 * i + 23 and 20 ≤ y ≤ 61; and the glyphs of two different indices
share no pixel. -/
theorem glyph_pixels_in_cell (fuel : Nat) (hfuel : 40 < fuel) (digit : Char) (i : Nat)
    (hi : i < 4) (img : image.RGBA) :
    Generate.drawDigits fuel [digit] i img = drawDigit fuel img digit (50 * i + 12) 40
      ∧ (∃ img', drawDigit fuel img digit (50 * i + 12) 40 = some img'
          ∧ ∀ a b : Int,
              ((a, b) ∈ drawDigit.pixels fuel digit (50 * i + 12) 40 →
                img'.At a b = ⟨50, 50, 50, 255⟩)
              ∧ ((a, b) ∉ drawDigit.pixels fuel digit (50 * i + 12) 40 →
                img'.At a b = img.At a b))
      ∧ (∀ seg ∈ getDigitSegments digit,
          ∃ pts, drawLine.visited fuel (50 * i + 12 + seg.x1) (40 + seg.y1)
              (50 * i + 12 + seg.x2) (40 + seg.y2) = some pts
            ∧ ∀ p ∈ pts, (0 ≤ p.1 ∧ p.1 < 200 ∧ 0 ≤ p.2 ∧ p.2 < 80)
                ∧ p.1 + 1 < 200 ∧ p.2 + 1 < 80)
      ∧ (∀ a b : Int, (a, b) ∈ drawDigit.pixels fuel digit (50 * i + 12) 40 →
          (50 * i + 2 ≤ a ∧ a ≤ 50 * i + 23) ∧ (20 ≤ b ∧ b ≤ 61))
      ∧ (∀ (other : Char) (j : Nat), j < 4 → j ≠ i → ∀ a b : Int,
          (a, b) ∈ drawDigit.pixels fuel digit (50 * i + 12) 40 →
          (a, b) ∉ drawDigit.pixels fuel other (50 * j + 12) 40) := by
  have hi' : (i : Int) < 4 := by exact_mod_cast hi
  have hi0 : (0 : Int) ≤ i := Int.ofNat_nonneg i
  have hcx : ∀ j : Nat, j < 4 → |(50 * (j : Int) + 12)| ≤ 2 ^ 48 := by
    intro j hj
    have hj' : (j : Int) < 4 := by exact_mod_cast hj
    have hj0 : (0 : Int) ≤ j := Int.ofNat_nonneg j
    rw [abs_le]; norm_num; constructor <;> omega
  have hcy : |(40 : Int)| ≤ 2 ^ 48 := by norm_num
  refine ⟨?_, ?_, ?_, ?_, ?_⟩
  · have hx : ((i : Int) * (captchaWidth / digitCount) + captchaWidth / digitCount / 4)
        = 50 * i + 12 := by
      have h1 : captchaWidth / digitCount = 50 := by decide
      rw [h1]
      have h2 : (50 : Int) / 4 = 12 := by decide
      rw [h2]
      ring
    have hy : captchaHeight / 2 = 40 := by decide
    rw [Generate.drawDigits]
    simp only [hx, hy]
    cases drawDigit fuel img digit (50 * i + 12) 40 <;> rfl
  · obtain ⟨img', hloop, hat⟩ := drawDigit_loop_pixels fuel (50 * i + 12) 40 ⟨50, 50, 50, 255⟩
      (getDigitSegments digit) img (fun seg hseg => by
        obtain ⟨pts, hvis, -⟩ := glyph_segment_points fuel hfuel digit (50 * i + 12) 40
          (hcx i hi) hcy seg hseg
        exact ⟨pts, hvis⟩)
    exact ⟨img', hloop, hat⟩
  · intro seg hseg
    obtain ⟨pts, hvis, hbox⟩ := glyph_segment_points fuel hfuel digit (50 * i + 12) 40
          (hcx i hi) hcy seg hseg
    refine ⟨pts, hvis, fun p hp => ?_⟩
    obtain ⟨⟨h1, h2⟩, ⟨h3, h4⟩⟩ := hbox p hp
    exact ⟨⟨by omega, by omega, by omega, by omega⟩, by omega, by omega⟩
  · intro a b h
    obtain ⟨⟨h1, h2⟩, ⟨h3, h4⟩⟩ := glyph_pixels_box fuel hfuel digit (50 * i + 12) 40
      (hcx i hi) hcy a b h
    exact ⟨⟨by omega, by omega⟩, ⟨by omega, by omega⟩⟩
  · intro other j hj hne a b h h'
    have hj' : (j : Int) < 4 := by exact_mod_cast hj
    have hne' : (j : Int) ≠ i := by exact_mod_cast hne
    obtain ⟨⟨h1, h2⟩, -⟩ := glyph_pixels_box fuel hfuel digit (50 * i + 12) 40
      (hcx i hi) hcy a b h
    obtain ⟨⟨h3, h4⟩, -⟩ := glyph_pixels_box fuel hfuel other (50 * j + 12) 40
      (hcx j hj) hcy a b h'
    omega

/-- Witness of `glyph_pixels_in_cell`: the glyph of `7` as the last of the four digits, with
the fuel for 41 iterations, on the background of `Generate`. -/
theorem glyph_pixels_in_cell_witness :
    (40 < 41 ∧ 3 < 4)
      ∧ Generate.drawDigits 41 ['7'] 3 (image.Uniform ⟨240, 240, 240, 255⟩)
          = drawDigit 41 (image.Uniform ⟨240, 240, 240, 255⟩) '7' (50 * ((3 : Nat) : Int) + 12) 40
      ∧ (∃ img', drawDigit 41 (image.Uniform ⟨240, 240, 240, 255⟩) '7'
            (50 * ((3 : Nat) : Int) + 12) 40 = some img'
          ∧ ∀ a b : Int,
              ((a, b) ∈ drawDigit.pixels 41 '7' (50 * ((3 : Nat) : Int) + 12) 40 →
                img'.At a b = ⟨50, 50, 50, 255⟩)
              ∧ ((a, b) ∉ drawDigit.pixels 41 '7' (50 * ((3 : Nat) : Int) + 12) 40 →
                img'.At a b = (image.Uniform ⟨240, 240, 240, 255⟩).At a b))
      ∧ (∀ seg ∈ getDigitSegments '7',
          ∃ pts, drawLine.visited 41 (50 * ((3 : Nat) : Int) + 12 + seg.x1) (40 + seg.y1)
              (50 * ((3 : Nat) : Int) + 12 + seg.x2) (40 + seg.y2) = some pts
            ∧ ∀ p ∈ pts, (0 ≤ p.1 ∧ p.1 < 200 ∧ 0 ≤ p.2 ∧ p.2 < 80)
                ∧ p.1 + 1 < 200 ∧ p.2 + 1 < 80)
      ∧ (∀ a b : Int, (a, b) ∈ drawDigit.pixels 41 '7' (50 * ((3 : Nat) : Int) + 12) 40 →
          (50 * ((3 : Nat) : Int) + 2 ≤ a ∧ a ≤ 50 * ((3 : Nat) : Int) + 23)
            ∧ (20 ≤ b ∧ b ≤ 61))
      ∧ (∀ (other : Char) (j : Nat), j < 4 → j ≠ 3 → ∀ a b : Int,
          (a, b) ∈ drawDigit.pixels 41 '7' (50 * ((3 : Nat) : Int) + 12) 40 →
          (a, b) ∉ drawDigit.pixels 41 other (50 * (j : Int) + 12) 40) :=
  ⟨⟨by decide, by decide⟩,
    glyph_pixels_in_cell 41 (by decide) '7' 3 (by decide) (image.Uniform ⟨240, 240, 240, 255⟩)⟩
